import Mathlib

/-!
# ns3sionna: propagation cache and oracle session client

A shallow embedding of `lib/sionna-propagation-cache.{h,cc}` and of
`lib/sionna-helper.{h,cc}`.

Conventions of the embedding
* `uint32_t` node identifiers are natural numbers (the code only compares and copies them).
* `ns3::Time` is an integer number of nanoseconds (the default resolution), so
  `NanoSeconds (x)` and `GetNanoSeconds ()` are the identity.
* `double` values (losses, powers, noise floor) are rationals: exact arithmetic, no rounding,
  no NaN.  The two `double` counters only ever hold small non-negative integers and are
  natural numbers.  The one division of the code (`GetStats`) returns a `DoubleValue`, which
  keeps the IEEE results of a division by zero apart from the finite quotients.
* `std::map<CacheKey, std::vector<CacheEntry>>` is an association list searched with the
  equivalence induced by `CacheKey::operator<`; the map is never iterated, so the position of a
  binding in the list is not observable.
* A failed `NS_ASSERT_MSG` aborts the run: functions return an `Except String _` together with the
  state reached when they stop, so that what was already sent on the socket stays visible.
* `Simulator::Now ()` and the reply the socket would deliver are arguments of each call, and so
  are the global node list and the seed of the random number generator in `Start`.
* `SionnaMobilityModel` is used through its accessors only; their values are fields of
  `MobilityModel`.
* `std::log10` is an argument of the functions that call it.
* `int` is the 32-bit signed integer.  The conversion of a `double` to `int` discards the
  fractional part when the result fits an `int`; when it does not fit, C++ leaves the conversion
  undefined, and the model takes the value the x86-64 conversion instruction yields, `INT_MIN`.
-/

namespace ns3

/-- Simulated time, in nanoseconds. -/
abbrev Time := Int

/-- The protobuf message `ns3sionna::Vector` and `ns3::Vector`. -/
structure Vector where
  x : ℚ := 0
  y : ℚ := 0
  z : ℚ := 0
deriving DecidableEq

/-! ## The cache key and the cache entry (`sionna-propagation-cache.h`) -/

/-- The struct `SionnaPropagationCache::CacheKey`; `raw` is the bare record, the C++ constructor
is `CacheKey.ctor`. -/
structure CacheKey where
  raw ::
  m_first : Nat
  m_second : Nat
deriving DecidableEq

/-- The constructor `CacheKey(uint32_t a, uint32_t b)`. -/
def CacheKey.ctor (a b : Nat) : CacheKey :=
  CacheKey.raw (if a < b then a else b) (if a < b then b else a)

/-- The member `CacheKey::operator<`. -/
def CacheKey.lt (self other : CacheKey) : Bool :=
  if self.m_first ≠ other.m_first then
    decide (self.m_first < other.m_first)
  else
    decide (self.m_second < other.m_second)

/-- Equivalence of two keys in a `std::map` ordered by `operator<`: neither is less than the
other. -/
def CacheKey.equiv (k other : CacheKey) : Bool :=
  !(k.lt other) && !(other.lt k)

/-- The struct `SionnaPropagationCache::CacheEntry`. -/
structure CacheEntry where
  m_delay : Time
  m_loss : ℚ
  m_start_time : Time
  m_end_time : Time
deriving DecidableEq

/-- The type `std::map<CacheKey, std::vector<CacheEntry>>`. -/
abbrev Cache := List (CacheKey × List CacheEntry)

/-- The call `m_cache.find(key)`; `none` is `m_cache.end()`, otherwise the vector the iterator
points to. -/
def Cache.find : Cache → CacheKey → Option (List CacheEntry)
  | [], _ => none
  | (k, v) :: rest, key => if k.equiv key then some v else Cache.find rest key

/-- Writing through an iterator obtained from `find(key)`: the vector bound to `key` becomes
`f` of itself. -/
def Cache.modify : Cache → CacheKey → (List CacheEntry → List CacheEntry) → Cache
  | [], _, _ => []
  | (k, v) :: rest, key, f =>
    if k.equiv key then (k, f v) :: rest else (k, v) :: Cache.modify rest key f

/-- The call `m_cache.insert(std::make_pair(key, v))`: no effect when an equivalent key is
already bound. -/
def Cache.insert (c : Cache) (key : CacheKey) (v : List CacheEntry) : Cache :=
  match Cache.find c key with
  | some _ => c
  | none => c ++ [(key, v)]

/-- The entries bound to `key`, the empty list when the key is absent. -/
def Cache.entries (c : Cache) (key : CacheKey) : List CacheEntry :=
  (Cache.find c key).getD []

/-- Total number of entries stored in the map. -/
def Cache.size (c : Cache) : Nat :=
  (c.map (fun kv => kv.2.length)).sum

/-! ## Protocol messages (`message.pb.h`, as used by the code) -/

/-- The message `ChannelStateRequest`. -/
structure ChannelStateRequest where
  tx_node : Nat
  rx_node : Nat
  time : Int
deriving DecidableEq

/-- The transmitter of one group of a `ChannelStateResponse`. -/
structure TxNodeInfo where
  id : Nat
  position : Vector := {}
deriving DecidableEq

/-- One receiver of one group of a `ChannelStateResponse`. -/
structure RxNodeInfo where
  id : Nat
  position : Vector := {}
  delay : Int
  wb_loss : ℚ
  csi_real : List ℚ := []
  csi_imag : List ℚ := []
deriving DecidableEq

/-- One group `csi(i)` of a `ChannelStateResponse`. -/
structure CsiGroup where
  tx_node : TxNodeInfo
  rx_nodes : List RxNodeInfo
  start_time : Int
  end_time : Int
deriving DecidableEq

/-- The message `ChannelStateResponse`. -/
structure ChannelStateResponse where
  csi : List CsiGroup
deriving DecidableEq

/-- The oneof `RandomVariableStream` of a random-walk descriptor. -/
inductive RandomVariableStreamMsg where
  | not_set
  | uniform (min max : ℚ)
  | constant (value : ℚ)
  | normal (mean variance : ℚ)
deriving DecidableEq

/-- The trigger oneof of a random-walk descriptor. -/
inductive WalkTrigger where
  | not_set
  | time_value (v : Int)
  | distance_value (v : ℚ)
deriving DecidableEq

/-- The mobility oneof of a `NodeInfo`. -/
inductive NodeMobility where
  | not_set
  | random_walk_model (position : Vector) (trigger : WalkTrigger)
      (speed direction : RandomVariableStreamMsg)
  | constant_position_model (position : Vector)
deriving DecidableEq

/-- The message `SimInitMessage::NodeInfo`. -/
structure NodeInfo where
  id : Nat
  mobility : NodeMobility
deriving DecidableEq

/-- The message `SimInitMessage::RISInfo`. -/
structure RISInfo where
  id : Nat
  position : Vector := {}
  lookat : Vector := {}
deriving DecidableEq

/-- The message `SimInitMessage`. -/
structure SimInitMessage where
  scene_fname : String
  seed : Nat
  frequency : ℚ
  channel_bw : ℚ
  fft_size : Int
  mode : Int
  sub_mode : Int
  ris : List RISInfo
  nodes : List NodeInfo
deriving DecidableEq

/-- The envelope `ns3sionna::Wrapper`, a oneof. -/
inductive Wrapper where
  | not_set
  | sim_init_msg (m : SimInitMessage)
  | sim_ack
  | sim_close_request
  | channel_state_request (r : ChannelStateRequest)
  | channel_state_response (r : ChannelStateResponse)
deriving DecidableEq

/-! ## The request/reply socket and the session client (`sionna-helper.h`) -/

/-- What happened on the `ZMQ_REQ` socket: a message handed to `send`, or a call of `recv`
with what it delivered (`none`: no reply was received). -/
inductive SocketEvent where
  | send (w : Wrapper)
  | recv (r : Option Wrapper)
deriving DecidableEq

/-- The socket, as the history of the calls made on it. -/
structure Socket where
  events : List SocketEvent := []
  closed : Bool := false
deriving DecidableEq

/-- The call `m_zmq_socket.send(zmq_message, ...)`. -/
def Socket.send (s : Socket) (w : Wrapper) : Socket :=
  { s with events := s.events ++ [SocketEvent.send w] }

/-- The call `m_zmq_socket.recv(zmq_reply, ...)` delivering `r`. -/
def Socket.recv (s : Socket) (r : Option Wrapper) : Socket :=
  { s with events := s.events ++ [SocketEvent.recv r] }

/-- The call `m_zmq_socket.close()`. -/
def Socket.close (s : Socket) : Socket :=
  { s with closed := true }

/-- A registered reconfigurable-surface controller (`AbstractRisController`). -/
structure AbstractRisController where
  position : Vector
  lookAt : Vector
deriving DecidableEq

/-- The class `SionnaHelper`. -/
structure SionnaHelper where
  m_environment : String
  m_mode : Int
  m_sub_mode : Int
  m_frequency : ℚ
  m_channel_bw : ℚ
  m_fft_size : Int
  m_noiseDbm : ℚ
  m_ris_controllers : List AbstractRisController
  m_zmq_socket : Socket
deriving DecidableEq

/-- The accessor `SionnaHelper::GetNoiseFloor`. -/
def SionnaHelper.GetNoiseFloor (self : SionnaHelper) : ℚ :=
  self.m_noiseDbm

/-! ## The propagation cache (`sionna-propagation-cache.cc`) -/

/-- An ns-3 `RandomVariableStream` object: the name of its instance type and the parameters
read by `GetMin`, `GetMax`, `GetConstant`, `GetMean` and `GetVariance`. -/
structure RandomVariableStream where
  typeName : String := "ns3::ConstantRandomVariable"
  min : ℚ := 0
  max : ℚ := 0
  constant : ℚ := 0
  mean : ℚ := 0
  variance : ℚ := 0
deriving DecidableEq

/-- What the code needs of a `Ptr<MobilityModel>`: whether it is a `SionnaMobilityModel`, the
id of the node it is aggregated to (if any), its position, and the values of the accessors of
`SionnaMobilityModel` (`GetModeTime` in nanoseconds). -/
structure MobilityModel where
  isSionnaMobilityModel : Bool
  node : Option Nat
  position : Vector := {}
  GetModel : String := "Constant Position"
  GetMode : String := "Time"
  GetModeTime : Time := 1000000000
  GetModeDistance : ℚ := 1
  GetSpeed : RandomVariableStream := {}
  GetDirection : RandomVariableStream := {}
deriving DecidableEq

/-- A node of `NodeContainer::GetGlobal ()`: its id and the mobility model aggregated to it, if
any. -/
structure Node where
  id : Nat
  mobility : Option MobilityModel
deriving DecidableEq

/-- The ns-3 model `FriisPropagationLossModel`, reduced to its `CalcRxPower` and to the value
of its `Frequency` attribute (5.15 GHz unless it is set). -/
structure FriisPropagationLossModel where
  CalcRxPower : ℚ → MobilityModel → MobilityModel → ℚ
  m_frequency : ℚ := 5150000000

/-- The ns-3 model `ConstantSpeedPropagationDelayModel`, reduced to its `GetDelay`. -/
structure ConstantSpeedPropagationDelayModel where
  GetDelay : MobilityModel → MobilityModel → Time

/-- The class `SionnaPropagationCache`.  The helper it points to is carried inside the record
(`none` is the null pointer the constructor sets). -/
structure SionnaPropagationCache where
  m_sionnaHelper : Option SionnaHelper
  m_caching : Bool
  m_cache : Cache
  m_cache_hits : Nat
  m_cache_miss : Nat
  m_optimize : Bool
  m_friisLossModel : FriisPropagationLossModel
  m_constSpeedDelayModel : ConstantSpeedPropagationDelayModel

/-- The member `m_optimize_margin`. -/
def m_optimize_margin : ℚ := 0

/-- The local constant `MAX_TXPOWER_DBM` of `GetPropagationDelay`. -/
def MAX_TXPOWER_DBM : ℚ := 20

/-- The loop of lines 139-146: walk the vector and erase every entry whose `m_end_time` lies
before `current_time`. -/
def eraseOutdated (current_time : Time) : List CacheEntry → List CacheEntry
  | [] => []
  | vec_it :: rest =>
    if vec_it.m_end_time < current_time then
      eraseOutdated current_time rest
    else
      vec_it :: eraseOutdated current_time rest

/-- The range-for loops of lines 149-159 and 262-269: the first entry with
`m_end_time >= current_time && m_start_time <= current_time`, if any. -/
def findFresh (current_time : Time) : List CacheEntry → Option CacheEntry
  | [] => none
  | c_entry :: rest =>
    if decide (c_entry.m_end_time ≥ current_time) && decide (c_entry.m_start_time ≤ current_time)
    then some c_entry
    else findFresh current_time rest

/-- Lines 128-161 of `GetPropagationData`: the cache after the check and the entry on which
the function returns early, if any. -/
def checkCache (m_caching : Bool) (m_cache : Cache) (id_a id_b : Nat) (current_time : Time) :
    Cache × Option CacheEntry :=
  if m_caching then
    let key := CacheKey.ctor id_a id_b
    match Cache.find m_cache key with
    | some entries =>
      let kept := eraseOutdated current_time entries
      (Cache.modify m_cache key (fun _ => kept), findFresh current_time kept)
    | none => (m_cache, none)
  else
    (m_cache, none)

/-- Lines 238-252: add one entry of the response to the cache. -/
def addToCache (m_cache : Cache) (txId rxId : Nat) (entry : CacheEntry) : Cache :=
  let otherkey := CacheKey.ctor txId rxId
  match Cache.find m_cache otherkey with
  | some _ => Cache.modify m_cache otherkey (fun v => v ++ [entry])
  | none =>
    Cache.modify (Cache.insert m_cache otherkey []) otherkey (fun v => v ++ [entry])

/-- The inner loop of lines 209-253 over the receivers of one group. -/
def fillFromGroup (start_time end_time : Time) (txId : Nat) :
    Cache → List RxNodeInfo → Cache
  | m_cache, [] => m_cache
  | m_cache, rx :: rest =>
    let entry := CacheEntry.mk rx.delay rx.wb_loss start_time end_time
    fillFromGroup start_time end_time txId (addToCache m_cache txId rx.id entry) rest

/-- The outer loop of lines 201-254 over the groups of the response.  The string built from the
CSI samples (lines 223-234) is discarded by the code and is not modelled. -/
def fillCache : Cache → List CsiGroup → Cache
  | m_cache, [] => m_cache
  | m_cache, g :: rest =>
    fillCache (fillFromGroup g.start_time g.end_time g.tx_node.id m_cache g.rx_nodes) rest

/-- Lines 256-273: the entry returned after the response was merged. -/
def resultFromCache (m_cache : Cache) (id_a id_b : Nat) (current_time : Time) : CacheEntry :=
  let dummy_entry := CacheEntry.mk current_time (-1) current_time current_time
  let key2 := CacheKey.ctor id_a id_b
  match Cache.find m_cache key2 with
  | some entries =>
    match findFresh current_time entries with
    | some c_entry => c_entry
    | none => dummy_entry
  | none => dummy_entry

/-- The method `SionnaPropagationCache::GetPropagationData`, at simulated time `current_time`,
where `reply` is what `recv` delivers if it is called. -/
def SionnaPropagationCache.GetPropagationData (self : SionnaPropagationCache)
    (a b : MobilityModel) (current_time : Time) (reply : Option Wrapper) :
    Except String CacheEntry × SionnaPropagationCache :=
  match self.m_sionnaHelper with
  | none => (.error "SionnaPropagationCache must have reference to SionnaHelper.", self)
  | some helper =>
    if !(a.isSionnaMobilityModel && b.isSionnaMobilityModel) then
      (.error "Not using SionnaMobilityModel.", self)
    else
      match a.node, b.node with
      | some node_a, some node_b =>
        match checkCache self.m_caching self.m_cache node_a node_b current_time with
        | (cache1, some c_entry) =>
          (.ok c_entry, { self with m_cache := cache1, m_cache_hits := self.m_cache_hits + 1 })
        | (cache1, none) =>
          let wrapper := Wrapper.channel_state_request
            { tx_node := node_a, rx_node := node_b, time := current_time }
          let socket := (helper.m_zmq_socket.send wrapper).recv reply
          let self1 := { self with
            m_cache := cache1
            m_cache_miss := self.m_cache_miss + 1
            m_sionnaHelper := some { helper with m_zmq_socket := socket } }
          match reply with
          | none =>
            (.error "Failed to receive reply after propagation request message.", self1)
          | some (Wrapper.channel_state_response csi_response) =>
            let cache2 := fillCache cache1 csi_response.csi
            (.ok (resultFromCache cache2 node_a node_b current_time),
              { self1 with m_cache := cache2 })
          | some _ =>
            (.error "Reply after channel state request is not a channel state response.",
              self1)
      | _, _ => (.error "Nodes not found.", self)

/-- The method `SionnaPropagationCache::GetPropagationDelay`. -/
def SionnaPropagationCache.GetPropagationDelay (self : SionnaPropagationCache)
    (a b : MobilityModel) (current_time : Time) (reply : Option Wrapper) :
    Except String Time × SionnaPropagationCache :=
  let viaData :=
    let r := self.GetPropagationData a b current_time reply
    (r.1.map (fun e => e.m_delay), r.2)
  if self.m_optimize then
    match self.m_sionnaHelper with
    | none => (.error "m_sionnaHelper is a null pointer.", self)
    | some helper =>
      let resultdBm := self.m_friisLossModel.CalcRxPower MAX_TXPOWER_DBM a b
      if resultdBm + m_optimize_margin < helper.GetNoiseFloor then
        let const_delay := self.m_constSpeedDelayModel.GetDelay a b
        (.ok const_delay, self)
      else
        viaData
  else
    viaData

/-- The method `SionnaPropagationCache::GetPropagationLoss`. -/
def SionnaPropagationCache.GetPropagationLoss (self : SionnaPropagationCache)
    (a b : MobilityModel) (txPowerDbm : ℚ) (current_time : Time) (reply : Option Wrapper) :
    Except String ℚ × SionnaPropagationCache :=
  let viaData :=
    let r := self.GetPropagationData a b current_time reply
    (r.1.map (fun e => e.m_loss), r.2)
  if self.m_optimize then
    match self.m_sionnaHelper with
    | none => (.error "m_sionnaHelper is a null pointer.", self)
    | some helper =>
      let resultdBm := self.m_friisLossModel.CalcRxPower txPowerDbm a b
      if resultdBm + m_optimize_margin < helper.GetNoiseFloor then
        let friis_loss := (-1) * (resultdBm - txPowerDbm)
        (.ok friis_loss, self)
      else
        viaData
  else
    viaData

/-- The method `SionnaPropagationCache::SetCaching`. -/
def SionnaPropagationCache.SetCaching (self : SionnaPropagationCache) (caching : Bool) :
    SionnaPropagationCache :=
  { self with m_caching := caching }

/-- The method `SionnaPropagationCache::SetOptimize`. -/
def SionnaPropagationCache.SetOptimize (self : SionnaPropagationCache) (optimize : Bool) :
    SionnaPropagationCache :=
  { self with m_optimize := optimize }

/-- The constructor `SionnaPropagationCache::SionnaPropagationCache`, given the two ns-3 models
it creates. -/
def SionnaPropagationCache.ctor (friis : FriisPropagationLossModel)
    (constSpeed : ConstantSpeedPropagationDelayModel) : SionnaPropagationCache :=
  { m_sionnaHelper := none, m_caching := true, m_cache := [], m_cache_hits := 0,
    m_cache_miss := 0, m_optimize := true, m_friisLossModel := friis,
    m_constSpeedDelayModel := constSpeed }

/-- The method `SionnaPropagationCache::SetSionnaHelper`. -/
def SionnaPropagationCache.SetSionnaHelper (self : SionnaPropagationCache)
    (sionnaHelper : SionnaHelper) : SionnaPropagationCache :=
  { self with m_sionnaHelper := some sionnaHelper }

/-- The result of a `double` division: not a number, an infinity, or a finite quotient. -/
inductive DoubleValue where
  | nan
  | posInf
  | negInf
  | finite (q : ℚ)
deriving DecidableEq

/-- The `double` division `x / y` for a divisor that is not negative zero: `0 / 0` is not a
number, `x / 0` is an infinity with the sign of `x`, anything else is the quotient. -/
def divDouble (x y : ℚ) : DoubleValue :=
  if y = 0 then
    if x = 0 then DoubleValue.nan
    else if 0 < x then DoubleValue.posInf
    else DoubleValue.negInf
  else DoubleValue.finite (x / y)

/-- The method `SionnaPropagationCache::GetStats`. -/
def SionnaPropagationCache.GetStats (self : SionnaPropagationCache) : DoubleValue :=
  divDouble (self.m_cache_hits : ℚ) ((self.m_cache_hits : ℚ) + (self.m_cache_miss : ℚ))

/-! ## The session client (`sionna-helper.cc`) -/

/-- The method `SionnaHelper::RandomVariableStreamMessage`: the outcome and the message
`message` points to when the function stops. -/
def SionnaHelper.RandomVariableStreamMessage (message : RandomVariableStreamMsg)
    (random_variable : RandomVariableStream) : Except String Unit × RandomVariableStreamMsg :=
  let random_variable_name := random_variable.typeName
  if random_variable_name = "ns3::UniformRandomVariable" then
    (.ok (), RandomVariableStreamMsg.uniform random_variable.min random_variable.max)
  else if random_variable_name = "ns3::ConstantRandomVariable" then
    (.ok (), RandomVariableStreamMsg.constant random_variable.constant)
  else if random_variable_name = "ns3::NormalRandomVariable" then
    (.ok (), RandomVariableStreamMsg.normal random_variable.mean random_variable.variance)
  else
    (.error "RandomVariableStream must be Uniform, Constant, or Normal.", message)

/-- Lines 147-160 of `Start`: the body of the loop over the registered surface controllers for
the index `i`.  The body reads the fields of the descriptor it has just added, not those of the
controller. -/
def risDescriptor (i : Nat) : RISInfo :=
  let ris : RISInfo := { id := i }
  let pos_vector : Vector := ris.position
  let pos_vector := { pos_vector with x := ris.position.x }
  let pos_vector := { pos_vector with y := ris.position.y }
  let pos_vector := { pos_vector with z := ris.position.z }
  let ris := { ris with position := pos_vector }
  let lookat_vector : Vector := ris.lookat
  let lookat_vector := { lookat_vector with x := ris.lookat.x }
  let lookat_vector := { lookat_vector with y := ris.lookat.y }
  let lookat_vector := { lookat_vector with z := ris.lookat.z }
  { ris with lookat := lookat_vector }

/-- Lines 147-160 of `Start`: the loop `for (size_t i = 0; i < m_ris_controllers.size(); ++i)`. -/
def risDescriptors (m_ris_controllers : List AbstractRisController) : List RISInfo :=
  (List.range m_ris_controllers.length).map risDescriptor

/-- Lines 187-198 of `Start`: the trigger of a random-walk descriptor. -/
def walkTrigger (sionnaMobilityModel : MobilityModel) : Except String WalkTrigger :=
  if sionnaMobilityModel.GetMode = "Time" then
    let time_value := sionnaMobilityModel.GetModeTime
    if time_value > 0 then .ok (WalkTrigger.time_value time_value)
    else .error "Time value must be greater than 0 seconds."
  else
    let distance_value := sionnaMobilityModel.GetModeDistance
    if distance_value > 0 then .ok (WalkTrigger.distance_value distance_value)
    else .error "Distance value must be greater than 0 meters."

/-- Lines 168-215 of `Start`: the descriptor of one node that has a mobility model. -/
def nodeDescriptor (id : Nat) (mobilityModel : MobilityModel) : Except String NodeInfo :=
  if !mobilityModel.isSionnaMobilityModel then
    .error "Not using SionnaMobilityModel."
  else
    let position := mobilityModel.position
    if mobilityModel.GetModel = "Random Walk" then
      match walkTrigger mobilityModel with
      | .error e => .error e
      | .ok trigger =>
        match SionnaHelper.RandomVariableStreamMessage RandomVariableStreamMsg.not_set
            mobilityModel.GetSpeed with
        | (.error e, _) => .error e
        | (.ok _, speed) =>
          match SionnaHelper.RandomVariableStreamMessage RandomVariableStreamMsg.not_set
              mobilityModel.GetDirection with
          | (.error e, _) => .error e
          | (.ok _, direction) =>
            .ok { id := id,
                  mobility := NodeMobility.random_walk_model position trigger speed direction }
    else
      .ok { id := id, mobility := NodeMobility.constant_position_model position }

/-- Lines 162-216 of `Start`: the loop over the global node list. -/
def nodeDescriptors : List Node → Except String (List NodeInfo)
  | [] => .ok []
  | node :: rest =>
    match node.mobility with
    | none => nodeDescriptors rest
    | some mobilityModel =>
      match nodeDescriptor node.id mobilityModel with
      | .error e => .error e
      | .ok node_info =>
        match nodeDescriptors rest with
        | .error e => .error e
        | .ok infos => .ok (node_info :: infos)

/-- Lines 136-160 of `Start`: the initialization message around the node descriptors. -/
def SionnaHelper.initMessage (self : SionnaHelper) (seed : Nat) (nodes : List NodeInfo) :
    SimInitMessage :=
  { scene_fname := self.m_environment, seed := seed, frequency := self.m_frequency,
    channel_bw := self.m_channel_bw, fft_size := self.m_fft_size, mode := self.m_mode,
    sub_mode := self.m_sub_mode, ris := risDescriptors self.m_ris_controllers, nodes := nodes }

/-- The method `SionnaHelper::Start`, for the seed `RngSeedManager::GetSeed ()`, the global node
list `nodes` and the reply `recv` delivers. -/
def SionnaHelper.Start (self : SionnaHelper) (seed : Nat) (nodes : List Node)
    (reply : Option Wrapper) : Except String Unit × SionnaHelper :=
  match nodeDescriptors nodes with
  | .error e => (.error e, self)
  | .ok infos =>
    let wrapper := Wrapper.sim_init_msg (self.initMessage seed infos)
    let self1 := { self with m_zmq_socket := (self.m_zmq_socket.send wrapper).recv reply }
    match reply with
    | none => (.error "Failed to receive reply after simulation information message.", self1)
    | some Wrapper.sim_ack => (.ok (), self1)
    | some _ => (.error "Reply after simulation information is not an ack.", self1)

/-- The method `SionnaHelper::Destroy`. -/
def SionnaHelper.Destroy (self : SionnaHelper) (reply : Option Wrapper) :
    Except String Unit × SionnaHelper :=
  let wrapper := Wrapper.sim_close_request
  let self1 := { self with m_zmq_socket := (self.m_zmq_socket.send wrapper).recv reply }
  match reply with
  | none => (.error "Failed to receive reply after close request message.", self1)
  | some Wrapper.sim_ack => (.ok (), { self1 with m_zmq_socket := self1.m_zmq_socket.close })
  | some _ => (.error "Reply after close request is not an ack.", self1)

/-- The method `SionnaHelper::SetRIS`. -/
def SionnaHelper.SetRIS (self : SionnaHelper) (ris_controllers : List AbstractRisController) :
    SionnaHelper :=
  { self with m_ris_controllers := ris_controllers }

/-- The method `SionnaHelper::SetFrequency`. -/
def SionnaHelper.SetFrequency (self : SionnaHelper) (frequency : ℚ) : SionnaHelper :=
  { self with m_frequency := frequency }

/-- The constant `BOLTZMANN` of `SetChannelBandwidth`, 1.3803e-23. -/
def BOLTZMANN : ℚ := 13803 / 10 ^ 27

/-- The method `SionnaHelper::SetChannelBandwidth`, given `std::log10`. -/
def SionnaHelper.SetChannelBandwidth (log10 : ℚ → ℚ) (self : SionnaHelper) (channel_bw : ℚ) :
    SionnaHelper :=
  let Nt := BOLTZMANN * 293 * channel_bw
  let m_noiseFigure : ℚ := 5
  let noiseFloor := m_noiseFigure * Nt
  let noise := noiseFloor
  { self with m_channel_bw := channel_bw, m_noiseDbm := 10 * log10 (noise / (1 / 1000)) }

/-- The method `SionnaHelper::SetFFTSize`; its argument is an `int`, and every call in this
development passes a value between `INT_MIN` and `INT_MAX`. -/
def SionnaHelper.SetFFTSize (self : SionnaHelper) (fft_size : Int) : SionnaHelper :=
  { self with m_fft_size := fft_size }

/-- The method `SionnaHelper::SetMode`. -/
def SionnaHelper.SetMode (self : SionnaHelper) (mode : Int) : SionnaHelper :=
  { self with m_mode := mode }

/-- The method `SionnaHelper::SetSubMode`. -/
def SionnaHelper.SetSubMode (self : SionnaHelper) (sub_mode : Int) : SionnaHelper :=
  { self with m_sub_mode := sub_mode }

/-- The smallest value of the 32-bit `int`. -/
def INT_MIN : Int := -2147483648

/-- The largest value of the 32-bit `int`. -/
def INT_MAX : Int := 2147483647

/-- The number `x` with its fractional part discarded (rounded toward zero). -/
def truncToZero (x : ℚ) : Int :=
  if 0 ≤ x then ⌊x⌋ else ⌈x⌉

/-- The implicit conversion of a `double` to the 32-bit `int`: the fractional part is discarded
when the result fits an `int`.  When it does not fit, the conversion is undefined in C++; the
value taken here is the one the x86-64 conversion instruction yields, `INT_MIN`. -/
def doubleToInt (x : ℚ) : Int :=
  if INT_MIN ≤ truncToZero x ∧ truncToZero x ≤ INT_MAX then truncToZero x else INT_MIN

/-- The method `SionnaHelper::Configure`, given `std::log10`. -/
def SionnaHelper.Configure (log10 : ℚ → ℚ) (self : SionnaHelper) (frequency channel_bw : ℚ) :
    SionnaHelper :=
  (((self.SetFrequency frequency).SetChannelBandwidth log10 channel_bw).SetFFTSize
    (doubleToInt (64 * (channel_bw / 20000000))))

/-- The constructor `SionnaHelper::SionnaHelper`, given `std::log10`; the socket is connected
and has no history. -/
def SionnaHelper.ctor (log10 : ℚ → ℚ) (environment : String) : SionnaHelper :=
  let self : SionnaHelper :=
    { m_environment := environment, m_mode := 3, m_sub_mode := 1, m_frequency := 2412000000,
      m_channel_bw := 0, m_fft_size := 0, m_noiseDbm := 0, m_ris_controllers := [],
      m_zmq_socket := {} }
  (self.SetChannelBandwidth log10 20000000).SetFFTSize 64

/-- The events on the helper's socket (none when no helper is attached). -/
def SionnaPropagationCache.socketEvents (self : SionnaPropagationCache) : List SocketEvent :=
  match self.m_sionnaHelper with
  | some helper => helper.m_zmq_socket.events
  | none => []

/-! ## Vocabulary of the specification -/

/-- The validity window of `e` contains `t` (both ends included). -/
def CacheEntry.covers (e : CacheEntry) (t : Time) : Prop :=
  e.m_start_time ≤ t ∧ t ≤ e.m_end_time

instance (e : CacheEntry) (t : Time) : Decidable (e.covers t) := by
  unfold CacheEntry.covers; infer_instance

/-- The first entry of a list whose window contains `t`. -/
def firstCovering (t : Time) (entries : List CacheEntry) : Option CacheEntry :=
  entries.find? (fun e => decide (e.covers t))

/-- The entries of a list that have not expired at `t`, in their order. -/
def unexpired (t : Time) (entries : List CacheEntry) : List CacheEntry :=
  entries.filter (fun e => decide (e.m_end_time ≥ t))

/-- The (canonical key, entry) pairs described by a response, in response order: groups in
order and, within a group, receivers in order. -/
def responseTriples (csi : List CsiGroup) : List (CacheKey × CacheEntry) :=
  (csi.map (fun g => g.rx_nodes.map (fun rx =>
    (CacheKey.ctor g.tx_node.id rx.id,
      CacheEntry.mk rx.delay rx.wb_loss g.start_time g.end_time)))).flatten

/-- The entries a response describes for the key `k`, in response order. -/
def responseEntriesFor (csi : List CsiGroup) (k : CacheKey) : List CacheEntry :=
  ((responseTriples csi).filter (fun p => decide (p.1 = k))).map Prod.snd

/-- Total number of receivers in a response. -/
def receiverCount (csi : List CsiGroup) : Nat :=
  (csi.map (fun g => g.rx_nodes.length)).sum

/-- A call with the helper `helper` attached and both mobility models Sionna models aggregated
to nodes `id_a` and `id_b`: none of the three leading assertions fails. -/
def ValidCall (self : SionnaPropagationCache) (helper : SionnaHelper) (a b : MobilityModel)
    (id_a id_b : Nat) : Prop :=
  self.m_sionnaHelper = some helper ∧ a.isSionnaMobilityModel = true ∧
    b.isSionnaMobilityModel = true ∧ a.node = some id_a ∧ b.node = some id_b

/-- The lookup of the pair at `now` is a miss: caching is disabled, or caching is enabled and
after pruning no entry stored for the canonical key contains `now`. -/
def IsMiss (self : SionnaPropagationCache) (id_a id_b : Nat) (now : Time) : Prop :=
  self.m_caching = false ∨
    ∀ e ∈ unexpired now (Cache.entries self.m_cache (CacheKey.ctor id_a id_b)), ¬ e.covers now

instance (self : SionnaPropagationCache) (id_a id_b : Nat) (now : Time) :
    Decidable (IsMiss self id_a id_b now) := by
  unfold IsMiss; infer_instance

/-- The channel-state request the code builds for the pair at `now`. -/
def requestFor (id_a id_b : Nat) (now : Time) : Wrapper :=
  Wrapper.channel_state_request { tx_node := id_a, rx_node := id_b, time := now }

/-- The `(tx id, rx id, entry)` triples described by a response, in response order. -/
def responseRaw (csi : List CsiGroup) : List (Nat × Nat × CacheEntry) :=
  (csi.map (fun g => g.rx_nodes.map (fun rx =>
    (g.tx_node.id, rx.id, CacheEntry.mk rx.delay rx.wb_loss g.start_time g.end_time)))).flatten

/-- The unordered pairs `{tx, rx}` and `{id_a, id_b}` are the same. -/
def samePair (tx rx id_a id_b : Nat) : Prop :=
  (tx = id_a ∧ rx = id_b) ∨ (tx = id_b ∧ rx = id_a)

instance (tx rx id_a id_b : Nat) : Decidable (samePair tx rx id_a id_b) := by
  unfold samePair; infer_instance

/-- The first triple of a response, in response order, that is for the unordered pair
`{id_a, id_b}` and whose window contains `now`. -/
def firstTripleFor (csi : List CsiGroup) (id_a id_b : Nat) (now : Time) :
    Option (Nat × Nat × CacheEntry) :=
  (responseRaw csi).find? (fun p => decide (samePair p.1 p.2.1 id_a id_b ∧ p.2.2.covers now))

/-- A `double` result is a number of the interval [0, 1]. -/
def DoubleValue.inUnitInterval : DoubleValue → Prop
  | DoubleValue.finite q => 0 ≤ q ∧ q ≤ 1
  | _ => False

/-- First lookup of the end-to-end scenario: the pair is looked up at `t1` and the oracle answers
with `resp`. -/
def lookup1 (self : SionnaPropagationCache) (a b : MobilityModel) (t1 : Time)
    (resp : ChannelStateResponse) : Except String Time × SionnaPropagationCache :=
  self.GetPropagationDelay a b t1 (some (Wrapper.channel_state_response resp))

/-- Second lookup of the end-to-end scenario, at `t2`, in the state left by the first. -/
def lookup2 (self : SionnaPropagationCache) (a b : MobilityModel) (t1 : Time)
    (resp : ChannelStateResponse) (t2 : Time) (reply2 : Option Wrapper) :
    Except String Time × SionnaPropagationCache :=
  (lookup1 self a b t1 resp).2.GetPropagationDelay a b t2 reply2

/-- Third lookup of the end-to-end scenario, at `t3`, in the state left by the second. -/
def lookup3 (self : SionnaPropagationCache) (a b : MobilityModel) (t1 : Time)
    (resp : ChannelStateResponse) (t2 : Time) (reply2 : Option Wrapper) (t3 : Time)
    (reply3 : Option Wrapper) : Except String Time × SionnaPropagationCache :=
  (lookup2 self a b t1 resp t2 reply2).2.GetPropagationDelay a b t3 reply3

/-- A response with the window [0, 1000000] for the pair (1,2) and for the pair (1,3). -/
def scenarioResponse : ChannelStateResponse :=
  { csi := [{ tx_node := { id := 1 },
              rx_nodes := [{ id := 2, delay := 17, wb_loss := 65 },
                           { id := 3, delay := 23, wb_loss := 75 }],
              start_time := 0, end_time := 1000000 }] }

/-- The call stopped on a fatal error. -/
def Failed {α : Type} (r : Except String α) : Prop :=
  ∃ msg, r = .error msg

/-- No reply was received, or the reply is not an acknowledgment. -/
def NotAck (reply : Option Wrapper) : Prop :=
  reply = none ∨ ∃ w, reply = some w ∧ w ≠ Wrapper.sim_ack

/-- No reply was received, or the reply is not a channel-state response. -/
def NotChannelStateResponse (reply : Option Wrapper) : Prop :=
  reply = none ∨ ∃ w, reply = some w ∧ ∀ r, w ≠ Wrapper.channel_state_response r

/-- The descriptor `info` is the one of the node `p.1` with mobility model `p.2`: same id, the
random-walk variant if and only if the model name is "Random Walk" and the constant-position
variant otherwise, with the position of the model. -/
def Describes (p : Nat × MobilityModel) (info : NodeInfo) : Prop :=
  info.id = p.1 ∧
  ((p.2.GetModel = "Random Walk" ∧
      ∃ trigger speed direction,
        info.mobility = NodeMobility.random_walk_model p.2.position trigger speed direction) ∨
   (p.2.GetModel ≠ "Random Walk" ∧
      info.mobility = NodeMobility.constant_position_model p.2.position))

/-- The trigger is set and its value is strictly positive. -/
def WalkTrigger.positive : WalkTrigger → Prop
  | WalkTrigger.not_set => False
  | WalkTrigger.time_value v => 0 < v
  | WalkTrigger.distance_value v => 0 < v

/-- Every random-walk descriptor of the message has a set, strictly positive trigger. -/
def SimInitMessage.triggersPositive (msg : SimInitMessage) : Prop :=
  ∀ info ∈ msg.nodes, ∀ position trigger speed direction,
    info.mobility = NodeMobility.random_walk_model position trigger speed direction →
      trigger.positive

/-- The call of `GetPropagationDelay` (with `txPowerDbm` 20) or of `GetPropagationLoss` takes
the analytical fallback: optimization is enabled, a helper is attached and the estimated
receive power plus the margin is strictly below its noise floor. -/
def SionnaPropagationCache.takesFallback (self : SionnaPropagationCache) (txPowerDbm : ℚ)
    (a b : MobilityModel) : Bool :=
  self.m_optimize &&
    (match self.m_sionnaHelper with
      | some helper =>
        decide (self.m_friisLossModel.CalcRxPower txPowerDbm a b + m_optimize_margin
          < helper.GetNoiseFloor)
      | none => false)

/-- A sequence of lookups of the pair `(a, b)`, given as the time of each lookup and the reply
its `recv` would deliver: the outcome and resulting state of each lookup, in order, each
starting from the state left by the one before. -/
def lookupSeq (self : SionnaPropagationCache) (a b : MobilityModel) :
    List (Time × Option Wrapper) → List (Except String CacheEntry × SionnaPropagationCache)
  | [] => []
  | (t, reply) :: rest =>
    (self.GetPropagationData a b t reply) ::
      lookupSeq (self.GetPropagationData a b t reply).2 a b rest

/-- A call of a public method of the cache. -/
inductive CacheCall where
  | GetPropagationData (a b : MobilityModel) (now : Time) (reply : Option Wrapper)
  | GetPropagationDelay (a b : MobilityModel) (now : Time) (reply : Option Wrapper)
  | GetPropagationLoss (a b : MobilityModel) (txPowerDbm : ℚ) (now : Time)
      (reply : Option Wrapper)
  | SetCaching (caching : Bool)
  | SetOptimize (optimize : Bool)

/-- The call returned a value (it did not stop on a fatal error). -/
def returned {α : Type} (r : Except String α) : Bool :=
  match r with
  | .ok _ => true
  | .error _ => false

/-- One call made in the state `self`: whether it returned, and the state it leaves. -/
def CacheCall.run (self : SionnaPropagationCache) : CacheCall → Bool × SionnaPropagationCache
  | CacheCall.GetPropagationData a b now reply =>
    (returned (self.GetPropagationData a b now reply).1,
      (self.GetPropagationData a b now reply).2)
  | CacheCall.GetPropagationDelay a b now reply =>
    (returned (self.GetPropagationDelay a b now reply).1,
      (self.GetPropagationDelay a b now reply).2)
  | CacheCall.GetPropagationLoss a b txPowerDbm now reply =>
    (returned (self.GetPropagationLoss a b txPowerDbm now reply).1,
      (self.GetPropagationLoss a b txPowerDbm now reply).2)
  | CacheCall.SetCaching caching => (true, self.SetCaching caching)
  | CacheCall.SetOptimize optimize => (true, self.SetOptimize optimize)

/-- The number of executions of `GetPropagationData` a call made in the state `self` involves:
one for a direct call and for a delay or loss query that does not take the analytical fallback,
none otherwise. -/
def CacheCall.dataCalls (self : SionnaPropagationCache) : CacheCall → Nat
  | CacheCall.GetPropagationData _ _ _ _ => 1
  | CacheCall.GetPropagationDelay a b _ _ => if self.takesFallback 20 a b then 0 else 1
  | CacheCall.GetPropagationLoss a b txPowerDbm _ _ =>
    if self.takesFallback txPowerDbm a b then 0 else 1
  | CacheCall.SetCaching _ => 0
  | CacheCall.SetOptimize _ => 0

/-- A run of calls that all return: the state reached and the number of completed executions
of `GetPropagationData`; `none` if some call stops on a fatal error. -/
def runCalls (self : SionnaPropagationCache) : List CacheCall →
    Option (SionnaPropagationCache × Nat)
  | [] => some (self, 0)
  | c :: rest =>
    if (c.run self).1 = true then
      match runCalls (c.run self).2 rest with
      | some (s, n) => some (s, c.dataCalls self + n)
      | none => none
    else none

/-- The event is the sending of a channel-state request. -/
def SocketEvent.isRequest : SocketEvent → Bool
  | SocketEvent.send (Wrapper.channel_state_request _) => true
  | _ => false

/-- The number of channel-state requests sent in a socket history. -/
def requestsSent (events : List SocketEvent) : Nat :=
  (events.filter SocketEvent.isRequest).length

/-- The validity windows of two entries share at least one instant. -/
def CacheEntry.overlaps (e1 e2 : CacheEntry) : Prop :=
  e1.m_start_time ≤ e2.m_end_time ∧ e2.m_start_time ≤ e1.m_end_time

instance (e1 e2 : CacheEntry) : Decidable (e1.overlaps e2) := by
  unfold CacheEntry.overlaps; infer_instance

/-- The validity windows of the entries of a list are pairwise non-overlapping. -/
def NonOverlapping (entries : List CacheEntry) : Prop :=
  entries.Pairwise (fun e1 e2 => ¬ e1.overlaps e2)

instance (entries : List CacheEntry) : Decidable (NonOverlapping entries) := by
  unfold NonOverlapping; infer_instance

/-! ## Sample objects -/

/-- A session client configured for 20 MHz with a noise floor of -94 dBm and an idle socket. -/
def sampleHelper : SionnaHelper :=
  { m_environment := "munich.xml", m_mode := 3, m_sub_mode := 1, m_frequency := 2412000000,
    m_channel_bw := 20000000, m_fft_size := 64, m_noiseDbm := -94, m_ris_controllers := [],
    m_zmq_socket := {} }

/-- A Sionna mobility model aggregated to the node `id`, at `x` metres on the first axis. -/
def sampleNode (id : Nat) (x : ℚ) : MobilityModel :=
  { isSionnaMobilityModel := true, node := some id, position := { x := x } }

/-- A stand-in loss model: 40 dB plus one dB per metre along the first axis. -/
def sampleFriis : FriisPropagationLossModel :=
  { CalcRxPower := fun txPowerDbm a b => txPowerDbm - (40 + |a.position.x - b.position.x|) }

/-- A stand-in delay model: 3 ns per metre along the first axis, rounded down. -/
def sampleDelayModel : ConstantSpeedPropagationDelayModel :=
  { GetDelay := fun a b => ⌊3 * |a.position.x - b.position.x|⌋ }

/-- A cache attached to `sampleHelper` with the given store and switches. -/
def sampleCache (m_caching m_optimize : Bool) (m_cache : Cache) : SionnaPropagationCache :=
  { m_sionnaHelper := some sampleHelper, m_caching := m_caching, m_cache := m_cache,
    m_cache_hits := 0, m_cache_miss := 0, m_optimize := m_optimize,
    m_friisLossModel := sampleFriis, m_constSpeedDelayModel := sampleDelayModel }

/-- A store with two windows for the pair (1,2) and one for the pair (1,3). -/
def sampleStore : Cache :=
  [(CacheKey.ctor 1 2, [CacheEntry.mk 30 70 0 100, CacheEntry.mk 31 71 100 200]),
   (CacheKey.ctor 1 3, [CacheEntry.mk 40 80 0 100])]

/-- A response with the window [150, 300] for the pairs (2,1) and (2,3). -/
def sampleResponse : ChannelStateResponse :=
  { csi := [{ tx_node := { id := 2 },
              rx_nodes := [{ id := 1, delay := 32, wb_loss := 72 },
                           { id := 3, delay := 50, wb_loss := 90 }],
              start_time := 150, end_time := 300 }] }

/-- A random-walk Sionna mobility model with the given trigger mode and values. -/
def sampleWalker (mode : String) (modeTime : Time) (modeDistance : ℚ) : MobilityModel :=
  { isSionnaMobilityModel := true, node := none, position := { x := 1, y := 2, z := 3 },
    GetModel := "Random Walk", GetMode := mode, GetModeTime := modeTime,
    GetModeDistance := modeDistance,
    GetSpeed := { typeName := "ns3::UniformRandomVariable", min := 1, max := 2 },
    GetDirection := { typeName := "ns3::NormalRandomVariable", mean := 0, variance := 4 } }

/-- A node list: a constant-position node, a node without mobility model, a random walker. -/
def sampleNodes : List Node :=
  [{ id := 0, mobility := some (sampleNode 0 7) },
   { id := 1, mobility := none },
   { id := 2, mobility := some (sampleWalker "Time" 1000000000 0) }]

/-- The surface controller of `example-sionna-ris.cc`: at (14, 5, 2), looking at the midpoint
(10, 5, 2) of the two stations at (10, 3, 2) and (10, 7, 2). -/
def sampleRis : AbstractRisController :=
  { position := { x := 14, y := 5, z := 2 }, lookAt := { x := 10, y := 5, z := 2 } }

/-- A stand-in for `std::log10`, right to two digits at the argument of a 20 MHz channel. -/
def sampleLog10 : ℚ → ℚ :=
  fun _ => -47 / 5

/-- A point-to-multipoint response for the transmitter `tx` and the receivers `rx1`, `rx2`,
with the window [0, 1000]. -/
def sampleP2mp (tx rx1 rx2 : Nat) : ChannelStateResponse :=
  { csi := [{ tx_node := { id := tx },
              rx_nodes := [{ id := rx1, delay := 17, wb_loss := 65 },
                           { id := rx2, delay := 23, wb_loss := 75 }],
              start_time := 0, end_time := 1000 }] }

/-- The state after node 1 looked up node 2 at time 0 and node 3 looked up node 2 at time 10,
from an empty store with caching enabled, each answered by the response for its transmitter. -/
def sampleTwoFetches : SionnaPropagationCache :=
  (((sampleCache true false []).GetPropagationData (sampleNode 1 0) (sampleNode 2 5) 0
      (some (Wrapper.channel_state_response (sampleP2mp 1 2 3)))).2.GetPropagationData
    (sampleNode 3 9) (sampleNode 2 5) 10
      (some (Wrapper.channel_state_response (sampleP2mp 3 1 2)))).2

/-- A run on a fresh cache: the fallback is switched off, node 1 asks for the delay to node 2 at
time 0 (a fetch), node 2 asks for the loss to node 1 at time 500000 and node 1 looks up node 3
at time 7 (two hits). -/
def sampleCalls : List CacheCall :=
  [CacheCall.SetOptimize false,
   CacheCall.GetPropagationDelay (sampleNode 1 0) (sampleNode 2 5) 0
    (some (Wrapper.channel_state_response scenarioResponse)),
   CacheCall.GetPropagationLoss (sampleNode 2 5) (sampleNode 1 0) 20 500000 none,
   CacheCall.GetPropagationData (sampleNode 1 0) (sampleNode 3 9) 7 none]

/-! ## Key canonicalisation -/

/-- C1: for all ids `x`, `y` the keys `CacheKey(x,y)` and `CacheKey(y,x)` have the same
`m_first` and the same `m_second`, `m_first` is the minimum and `m_second` the maximum of the
two ids, and `m_first <= m_second`. -/
theorem CacheKey_canonical (x y : Nat) :
    (CacheKey.ctor x y).m_first = (CacheKey.ctor y x).m_first ∧
    (CacheKey.ctor x y).m_second = (CacheKey.ctor y x).m_second ∧
    (CacheKey.ctor x y).m_first = min x y ∧
    (CacheKey.ctor x y).m_second = max x y ∧
    (CacheKey.ctor x y).m_first ≤ (CacheKey.ctor x y).m_second := by
  unfold CacheKey.ctor
  by_cases h : x < y
  · have h2 : ¬ y < x := by omega
    simp only [h, h2, if_true, if_false]
    refine ⟨trivial, trivial, ?_, ?_, ?_⟩ <;> omega
  · by_cases h3 : y < x
    · simp only [h, h3, if_true, if_false]
      refine ⟨trivial, trivial, ?_, ?_, ?_⟩ <;> omega
    · have h4 : x = y := by omega
      subst h4
      simp

/-! ## The map as an association list -/

theorem CacheKey.equiv_iff (k other : CacheKey) : k.equiv other = true ↔ k = other := by
  cases k with
  | raw a b =>
    cases other with
    | raw c d =>
      simp only [CacheKey.equiv, CacheKey.lt, CacheKey.raw.injEq]
      by_cases h1 : a = c
      · subst h1
        by_cases h2 : b = d
        · subst h2; simp
        · simp [h2]; omega
      · have h3 : ¬ c = a := fun h => h1 h.symm
        simp [h1, h3]; omega

theorem CacheKey.equiv_self (k : CacheKey) : k.equiv k = true :=
  (CacheKey.equiv_iff k k).2 rfl

theorem CacheKey.equiv_eq_false {k other : CacheKey} (h : k ≠ other) : k.equiv other = false := by
  cases hk : k.equiv other
  · rfl
  · exact absurd ((CacheKey.equiv_iff k other).1 hk) h

theorem Cache.find_modify_same (c : Cache) (key : CacheKey)
    (f : List CacheEntry → List CacheEntry) :
    Cache.find (Cache.modify c key f) key = (Cache.find c key).map f := by
  induction c with
  | nil => rfl
  | cons kv rest ih =>
    obtain ⟨k, v⟩ := kv
    by_cases h : k.equiv key = true
    · simp [Cache.find, Cache.modify, h]
    · simp [Cache.find, Cache.modify, h, ih]

theorem Cache.find_modify_other (c : Cache) {key other : CacheKey}
    (f : List CacheEntry → List CacheEntry) (hne : other ≠ key) :
    Cache.find (Cache.modify c key f) other = Cache.find c other := by
  induction c with
  | nil => rfl
  | cons kv rest ih =>
    obtain ⟨k, v⟩ := kv
    by_cases h : k.equiv key = true
    · have hk : k = key := (CacheKey.equiv_iff k key).1 h
      have h2 : k.equiv other = false := CacheKey.equiv_eq_false (by rw [hk]; exact fun e => hne e.symm)
      simp [Cache.find, Cache.modify, h, h2]
    · simp [Cache.find, Cache.modify, h, ih]

theorem Cache.modify_absent (c : Cache) (key : CacheKey)
    (f : List CacheEntry → List CacheEntry) (h : Cache.find c key = none) :
    Cache.modify c key f = c := by
  induction c with
  | nil => rfl
  | cons kv rest ih =>
    obtain ⟨k, v⟩ := kv
    by_cases hk : k.equiv key = true
    · simp [Cache.find, hk] at h
    · simp [Cache.find, hk] at h
      simp [Cache.modify, hk, ih h]

theorem Cache.modify_congr (c : Cache) (key : CacheKey)
    (f g : List CacheEntry → List CacheEntry)
    (h : ∀ v, Cache.find c key = some v → f v = g v) :
    Cache.modify c key f = Cache.modify c key g := by
  induction c with
  | nil => rfl
  | cons kv rest ih =>
    obtain ⟨k, v⟩ := kv
    by_cases hk : k.equiv key = true
    · simp [Cache.modify, hk]
      exact h v (by simp [Cache.find, hk])
    · simp [Cache.modify, hk]
      exact ih (fun w hw => h w (by simpa [Cache.find, hk] using hw))

theorem Cache.find_append_single (c : Cache) (key other : CacheKey) (v : List CacheEntry) :
    Cache.find (c ++ [(key, v)]) other =
      match Cache.find c other with
      | some w => some w
      | none => if key.equiv other then some v else none := by
  induction c with
  | nil => simp [Cache.find]
  | cons kv rest ih =>
    obtain ⟨k, w⟩ := kv
    by_cases hk : k.equiv other = true
    · simp [Cache.find, hk]
    · simp [Cache.find, hk, ih]

theorem Cache.size_modify (c : Cache) (key : CacheKey) (f : List CacheEntry → List CacheEntry)
    (n : Nat) (hf : ∀ v, (f v).length = v.length + n) (hfound : (Cache.find c key).isSome) :
    Cache.size (Cache.modify c key f) = Cache.size c + n := by
  induction c with
  | nil => simp [Cache.find] at hfound
  | cons kv rest ih =>
    obtain ⟨k, v⟩ := kv
    by_cases hk : k.equiv key = true
    · simp [Cache.size, Cache.modify, hk, hf]; omega
    · simp [Cache.find, hk] at hfound
      have := ih hfound
      simp [Cache.size] at this
      simp [Cache.size, Cache.modify, hk, this]; omega

theorem Cache.size_append_single (c : Cache) (key : CacheKey) (v : List CacheEntry) :
    Cache.size (c ++ [(key, v)]) = Cache.size c + v.length := by
  simp [Cache.size]

/-! ## Pruning and searching one vector -/

theorem eraseOutdated_eq_unexpired (t : Time) (l : List CacheEntry) :
    eraseOutdated t l = unexpired t l := by
  induction l with
  | nil => rfl
  | cons e rest ih =>
    by_cases h : e.m_end_time < t
    · have h2 : ¬ t ≤ e.m_end_time := not_le.2 h
      simp [eraseOutdated, unexpired, h, h2] at ih ⊢
      exact ih
    · have h2 : t ≤ e.m_end_time := not_lt.1 h
      simp [eraseOutdated, unexpired, h, h2] at ih ⊢
      exact ih

theorem findFresh_eq_firstCovering (t : Time) (l : List CacheEntry) :
    findFresh t l = firstCovering t l := by
  induction l with
  | nil => rfl
  | cons e rest ih =>
    by_cases h : e.m_end_time ≥ t ∧ e.m_start_time ≤ t
    · have hc : e.covers t := ⟨h.2, h.1⟩
      simp [findFresh, firstCovering, h.1, h.2, hc]
    · have hc : ¬ e.covers t := fun hc => h ⟨hc.2, hc.1⟩
      have hb : (decide (e.m_end_time ≥ t) && decide (e.m_start_time ≤ t)) = false := by
        simpa using h
      simp only [findFresh, hb, firstCovering, List.find?, hc, decide_False] at ih ⊢
      simpa using ih

theorem firstCovering_covers {t : Time} {l : List CacheEntry} {e : CacheEntry}
    (h : firstCovering t l = some e) : e ∈ l ∧ e.covers t := by
  unfold firstCovering at h
  refine ⟨List.mem_of_find?_eq_some h, ?_⟩
  simpa using List.find?_some h

theorem firstCovering_unexpired (t : Time) (l : List CacheEntry) :
    firstCovering t (unexpired t l) = firstCovering t l := by
  induction l with
  | nil => rfl
  | cons e rest ih =>
    by_cases h : t ≤ e.m_end_time
    · by_cases hc : e.covers t
      · simp [firstCovering, unexpired, h, hc]
      · simp [firstCovering, unexpired, h, hc] at ih ⊢
        exact ih
    · have hc : ¬ e.covers t := fun hc => h hc.2
      simp [firstCovering, unexpired, h, hc] at ih ⊢
      exact ih

theorem firstCovering_isSome_of_mem {t : Time} {l : List CacheEntry} {e : CacheEntry}
    (hm : e ∈ l) (hc : e.covers t) : ∃ e1, firstCovering t l = some e1 := by
  cases h : firstCovering t l with
  | some e1 => exact ⟨e1, rfl⟩
  | none =>
    unfold firstCovering at h
    have := List.find?_eq_none.1 h e hm
    simp [hc] at this

theorem firstCovering_append (t : Time) (l m : List CacheEntry) :
    firstCovering t (l ++ m) =
      match firstCovering t l with
      | some e => some e
      | none => firstCovering t m := by
  induction l with
  | nil => simp [firstCovering]
  | cons e rest ih =>
    by_cases hc : e.covers t
    · simp [firstCovering, hc]
    · simp [firstCovering, hc] at ih ⊢
      exact ih

/-! ## The cache check and the merge of a response -/

theorem Cache.entries_modify_same (c : Cache) (key : CacheKey)
    (f : List CacheEntry → List CacheEntry) (hf : f [] = []) :
    Cache.entries (Cache.modify c key f) key = f (Cache.entries c key) := by
  unfold Cache.entries
  rw [Cache.find_modify_same]
  cases Cache.find c key <;> simp [hf]

theorem Cache.entries_modify_other (c : Cache) {key other : CacheKey}
    (f : List CacheEntry → List CacheEntry) (hne : other ≠ key) :
    Cache.entries (Cache.modify c key f) other = Cache.entries c other := by
  unfold Cache.entries
  rw [Cache.find_modify_other c f hne]

theorem checkCache_eq (m_caching : Bool) (c : Cache) (id_a id_b : Nat) (t : Time) :
    checkCache m_caching c id_a id_b t =
      if m_caching then
        (Cache.modify c (CacheKey.ctor id_a id_b) (unexpired t),
          firstCovering t (Cache.entries c (CacheKey.ctor id_a id_b)))
      else (c, none) := by
  cases m_caching with
  | false => simp [checkCache]
  | true =>
    simp only [checkCache, if_true]
    cases h : Cache.find c (CacheKey.ctor id_a id_b) with
    | none =>
      simp [Cache.entries, h, Cache.modify_absent c _ _ h, firstCovering]
    | some entries =>
      simp only [Cache.entries, h, Option.getD_some]
      rw [findFresh_eq_firstCovering, eraseOutdated_eq_unexpired, firstCovering_unexpired]
      congr 1
      apply Cache.modify_congr
      intro v hv
      rw [h] at hv
      cases hv
      rfl

theorem Cache.find_addToCache_same (c : Cache) (txId rxId : Nat) (entry : CacheEntry) :
    Cache.find (addToCache c txId rxId entry) (CacheKey.ctor txId rxId) =
      some (Cache.entries c (CacheKey.ctor txId rxId) ++ [entry]) := by
  cases h : Cache.find c (CacheKey.ctor txId rxId) with
  | some v => simp [addToCache, Cache.find_modify_same, h, Cache.entries]
  | none =>
    simp [addToCache, Cache.find_modify_same, Cache.insert, h, Cache.entries,
      Cache.find_append_single, CacheKey.equiv_self]

theorem Cache.find_addToCache_other (c : Cache) (txId rxId : Nat) (entry : CacheEntry)
    {other : CacheKey} (hne : other ≠ CacheKey.ctor txId rxId) :
    Cache.find (addToCache c txId rxId entry) other = Cache.find c other := by
  cases h : Cache.find c (CacheKey.ctor txId rxId) with
  | some v =>
    simp only [addToCache, h]
    exact Cache.find_modify_other c _ hne
  | none =>
    have hq : (CacheKey.ctor txId rxId).equiv other = false :=
      CacheKey.equiv_eq_false (fun e => hne e.symm)
    simp only [addToCache, Cache.insert, h]
    rw [Cache.find_modify_other _ _ hne, Cache.find_append_single, hq]
    cases Cache.find c other <;> simp

theorem Cache.entries_addToCache (c : Cache) (txId rxId : Nat) (entry : CacheEntry)
    (k : CacheKey) :
    Cache.entries (addToCache c txId rxId entry) k =
      Cache.entries c k ++ (if CacheKey.ctor txId rxId = k then [entry] else []) := by
  by_cases h : CacheKey.ctor txId rxId = k
  · subst h
    simp [Cache.entries, Cache.find_addToCache_same]
  · have hne : k ≠ CacheKey.ctor txId rxId := fun e => h e.symm
    simp [Cache.entries, Cache.find_addToCache_other c txId rxId entry hne, h]

theorem Cache.size_addToCache (c : Cache) (txId rxId : Nat) (entry : CacheEntry) :
    Cache.size (addToCache c txId rxId entry) = Cache.size c + 1 := by
  have hf : ∀ v : List CacheEntry, ((fun v => v ++ [entry]) v).length = v.length + 1 := by
    intro v; simp
  cases h : Cache.find c (CacheKey.ctor txId rxId) with
  | some v =>
    simp only [addToCache, h]
    exact Cache.size_modify c _ _ 1 hf (by rw [h]; rfl)
  | none =>
    simp only [addToCache, Cache.insert, h]
    rw [Cache.size_modify _ _ _ 1 hf
      (by rw [Cache.find_append_single, h]; simp [CacheKey.equiv_self]),
      Cache.size_append_single]
    simp

theorem Cache.entries_fillFromGroup (start_time end_time : Time) (txId : Nat)
    (rxs : List RxNodeInfo) (c : Cache) (k : CacheKey) :
    Cache.entries (fillFromGroup start_time end_time txId c rxs) k =
      Cache.entries c k ++
        ((rxs.map (fun rx => (CacheKey.ctor txId rx.id,
            CacheEntry.mk rx.delay rx.wb_loss start_time end_time))).filter
          (fun p => decide (p.1 = k))).map Prod.snd := by
  induction rxs generalizing c with
  | nil => simp [fillFromGroup]
  | cons rx rest ih =>
    simp only [fillFromGroup]
    rw [ih, Cache.entries_addToCache]
    by_cases h : CacheKey.ctor txId rx.id = k
    · simp [h]
    · simp [h]

theorem Cache.entries_fillCache (csi : List CsiGroup) (c : Cache) (k : CacheKey) :
    Cache.entries (fillCache c csi) k = Cache.entries c k ++ responseEntriesFor csi k := by
  induction csi generalizing c with
  | nil => simp [fillCache, responseEntriesFor, responseTriples]
  | cons g rest ih =>
    simp only [fillCache]
    rw [ih, Cache.entries_fillFromGroup]
    simp only [responseEntriesFor] at ih ⊢
    simp [responseTriples]

theorem Cache.size_fillFromGroup (start_time end_time : Time) (txId : Nat)
    (rxs : List RxNodeInfo) (c : Cache) :
    Cache.size (fillFromGroup start_time end_time txId c rxs) = Cache.size c + rxs.length := by
  induction rxs generalizing c with
  | nil => simp [fillFromGroup]
  | cons rx rest ih =>
    simp only [fillFromGroup]
    rw [ih, Cache.size_addToCache]
    simp; omega

theorem Cache.size_fillCache (csi : List CsiGroup) (c : Cache) :
    Cache.size (fillCache c csi) = Cache.size c + receiverCount csi := by
  induction csi generalizing c with
  | nil => simp [fillCache, receiverCount]
  | cons g rest ih =>
    simp only [fillCache]
    rw [ih, Cache.size_fillFromGroup]
    simp [receiverCount]; omega

theorem resultFromCache_eq (c : Cache) (id_a id_b : Nat) (t : Time) :
    resultFromCache c id_a id_b t =
      (firstCovering t (Cache.entries c (CacheKey.ctor id_a id_b))).getD
        (CacheEntry.mk t (-1) t t) := by
  cases h : Cache.find c (CacheKey.ctor id_a id_b) with
  | none => simp [resultFromCache, Cache.entries, h, firstCovering]
  | some entries =>
    simp only [resultFromCache, Cache.entries, h, Option.getD_some, findFresh_eq_firstCovering]
    cases firstCovering t entries <;> rfl

/-! ## The two branches of `GetPropagationData` -/

theorem GetPropagationData_of_hit {self : SionnaPropagationCache} {helper : SionnaHelper}
    {a b : MobilityModel} {id_a id_b : Nat} (t : Time) (reply : Option Wrapper)
    {e : CacheEntry} (hv : ValidCall self helper a b id_a id_b)
    (hit : (checkCache self.m_caching self.m_cache id_a id_b t).2 = some e) :
    self.GetPropagationData a b t reply =
      (.ok e, { self with
        m_cache := (checkCache self.m_caching self.m_cache id_a id_b t).1
        m_cache_hits := self.m_cache_hits + 1 }) := by
  obtain ⟨hh, ha, hb, hna, hnb⟩ := hv
  unfold SionnaPropagationCache.GetPropagationData
  rw [hh, ha, hb, hna, hnb]
  cases hcc : checkCache self.m_caching self.m_cache id_a id_b t with
  | mk cache1 found =>
    rw [hcc] at hit
    simp only at hit
    subst hit
    simp [hcc]

theorem GetPropagationData_of_miss {self : SionnaPropagationCache} {helper : SionnaHelper}
    {a b : MobilityModel} {id_a id_b : Nat} (t : Time) (reply : Option Wrapper)
    (hv : ValidCall self helper a b id_a id_b)
    (miss : (checkCache self.m_caching self.m_cache id_a id_b t).2 = none) :
    self.GetPropagationData a b t reply =
      let cache1 := (checkCache self.m_caching self.m_cache id_a id_b t).1
      let self1 : SionnaPropagationCache := { self with
        m_cache := cache1
        m_cache_miss := self.m_cache_miss + 1
        m_sionnaHelper := some { helper with
          m_zmq_socket := (helper.m_zmq_socket.send (Wrapper.channel_state_request
            { tx_node := id_a, rx_node := id_b, time := t })).recv reply } }
      match reply with
      | none => (.error "Failed to receive reply after propagation request message.", self1)
      | some (Wrapper.channel_state_response csi_response) =>
        (.ok (resultFromCache (fillCache cache1 csi_response.csi) id_a id_b t),
          { self1 with m_cache := fillCache cache1 csi_response.csi })
      | some _ =>
        (.error "Reply after channel state request is not a channel state response.", self1) := by
  obtain ⟨hh, ha, hb, hna, hnb⟩ := hv
  unfold SionnaPropagationCache.GetPropagationData
  rw [hh, ha, hb, hna, hnb]
  cases hcc : checkCache self.m_caching self.m_cache id_a id_b t with
  | mk cache1 found =>
    rw [hcc] at miss
    simp only at miss
    subst miss
    simp only [hcc, Bool.and_self, Bool.not_true, Bool.false_eq_true, if_false]

/-! ## Window containment, hits and pruning -/

/-- C2: whenever the helper is attached and both models are Sionna models with nodes, for every
store, every time `now` and every channel-state response as reply, `GetPropagationData` returns
an entry `e` with `m_start_time <= now <= m_end_time` (so never one with `m_end_time < now`);
and whatever the reply, an entry it returns has that property. -/
theorem GetPropagationData_window (self : SionnaPropagationCache) (helper : SionnaHelper)
    (a b : MobilityModel) (id_a id_b : Nat) (now : Time) (resp : ChannelStateResponse)
    (hv : ValidCall self helper a b id_a id_b) :
    (∃ e, (self.GetPropagationData a b now (some (Wrapper.channel_state_response resp))).1
        = .ok e ∧ e.m_start_time ≤ now ∧ now ≤ e.m_end_time ∧ ¬ e.m_end_time < now) ∧
    (∀ reply e, (self.GetPropagationData a b now reply).1 = .ok e →
        e.m_start_time ≤ now ∧ now ≤ e.m_end_time ∧ ¬ e.m_end_time < now) := by
  have key : ∀ reply e, (self.GetPropagationData a b now reply).1 = .ok e →
      e.m_start_time ≤ now ∧ now ≤ e.m_end_time ∧ ¬ e.m_end_time < now := by
    intro reply e hr
    cases hc : (checkCache self.m_caching self.m_cache id_a id_b now).2 with
    | some e1 =>
      rw [GetPropagationData_of_hit now reply hv hc] at hr
      cases hr
      rw [checkCache_eq] at hc
      cases hcach : self.m_caching with
      | false => simp [hcach] at hc
      | true =>
        simp only [hcach, if_true] at hc
        obtain ⟨_, h1, h2⟩ := firstCovering_covers hc
        exact ⟨h1, h2, not_lt.2 h2⟩
    | none =>
      rw [GetPropagationData_of_miss now reply hv hc] at hr
      cases reply with
      | none => cases hr
      | some w =>
        cases w with
        | channel_state_response r =>
          simp only at hr
          cases hr
          rw [resultFromCache_eq]
          cases hf : firstCovering now
              (Cache.entries (fillCache (checkCache self.m_caching self.m_cache id_a id_b now).1
                r.csi) (CacheKey.ctor id_a id_b)) with
          | none => simp
          | some e2 =>
            obtain ⟨_, h1, h2⟩ := firstCovering_covers hf
            exact ⟨h1, h2, not_lt.2 h2⟩
        | not_set => cases hr
        | sim_init_msg m => cases hr
        | sim_ack => cases hr
        | sim_close_request => cases hr
        | channel_state_request r => cases hr
  refine ⟨?_, key⟩
  have hex : ∃ e, (self.GetPropagationData a b now
      (some (Wrapper.channel_state_response resp))).1 = .ok e := by
    cases hc : (checkCache self.m_caching self.m_cache id_a id_b now).2 with
    | some e1 => exact ⟨e1, by rw [GetPropagationData_of_hit now _ hv hc]⟩
    | none => exact ⟨_, by rw [GetPropagationData_of_miss now _ hv hc]⟩
  obtain ⟨e, he⟩ := hex
  exact ⟨e, he, key _ e he⟩

theorem GetPropagationData_window_witness :
    (∃ e, ((sampleCache true false sampleStore).GetPropagationData (sampleNode 1 0)
        (sampleNode 2 5) 250 (some (Wrapper.channel_state_response sampleResponse))).1
        = .ok e ∧ e.m_start_time ≤ 250 ∧ 250 ≤ e.m_end_time ∧ ¬ e.m_end_time < 250) ∧
    (∀ reply e, ((sampleCache true false sampleStore).GetPropagationData (sampleNode 1 0)
        (sampleNode 2 5) 250 reply).1 = .ok e →
        e.m_start_time ≤ 250 ∧ 250 ≤ e.m_end_time ∧ ¬ e.m_end_time < 250) :=
  GetPropagationData_window (sampleCache true false sampleStore) sampleHelper (sampleNode 1 0)
    (sampleNode 2 5) 1 2 250 sampleResponse ⟨rfl, rfl, rfl, rfl, rfl⟩

/-- C3: with caching enabled, if the list stored under `CacheKey(a,b)` holds an entry whose
window contains `now` (both ends included), `GetPropagationData` returns the first such entry in
list order, adds exactly one to the hit counter, leaves the miss counter and the helper with its
socket untouched (nothing is sent or received) and leaves the list of every other key
unchanged. -/
theorem GetPropagationData_hit (self : SionnaPropagationCache) (helper : SionnaHelper)
    (a b : MobilityModel) (id_a id_b : Nat) (now : Time) (reply : Option Wrapper)
    (e0 : CacheEntry) (hv : ValidCall self helper a b id_a id_b)
    (hcaching : self.m_caching = true)
    (hmem : e0 ∈ Cache.entries self.m_cache (CacheKey.ctor id_a id_b))
    (hwin : e0.m_start_time ≤ now ∧ now ≤ e0.m_end_time) :
    ∃ e, firstCovering now (Cache.entries self.m_cache (CacheKey.ctor id_a id_b)) = some e ∧
      (self.GetPropagationData a b now reply).1 = .ok e ∧
      (self.GetPropagationData a b now reply).2.m_cache_hits = self.m_cache_hits + 1 ∧
      (self.GetPropagationData a b now reply).2.m_cache_miss = self.m_cache_miss ∧
      (self.GetPropagationData a b now reply).2.m_sionnaHelper = self.m_sionnaHelper ∧
      ∀ k, k ≠ CacheKey.ctor id_a id_b →
        Cache.find (self.GetPropagationData a b now reply).2.m_cache k
          = Cache.find self.m_cache k := by
  obtain ⟨e, he⟩ := firstCovering_isSome_of_mem hmem hwin
  have hc : (checkCache self.m_caching self.m_cache id_a id_b now).2 = some e := by
    rw [checkCache_eq, hcaching]; simpa using he
  refine ⟨e, he, ?_⟩
  rw [GetPropagationData_of_hit now reply hv hc]
  refine ⟨rfl, rfl, rfl, rfl, ?_⟩
  intro k hk
  simp only [checkCache_eq, hcaching, if_true]
  exact Cache.find_modify_other _ _ hk

theorem GetPropagationData_hit_witness :
    (∃ e, firstCovering 100 (Cache.entries sampleStore (CacheKey.ctor 2 1)) = some e ∧
      ((sampleCache true false sampleStore).GetPropagationData (sampleNode 2 5) (sampleNode 1 0)
        100 none).1 = .ok e) ∧
    ((sampleCache true false sampleStore).GetPropagationData (sampleNode 2 5) (sampleNode 1 0)
        100 none).1 = .ok (CacheEntry.mk 30 70 0 100) ∧
    ((sampleCache true false sampleStore).GetPropagationData (sampleNode 2 5) (sampleNode 1 0)
        0 none).1 = .ok (CacheEntry.mk 30 70 0 100) := by
  obtain ⟨e, h1, h2, _⟩ := GetPropagationData_hit (sampleCache true false sampleStore)
    sampleHelper (sampleNode 2 5) (sampleNode 1 0) 2 1 100 none (CacheEntry.mk 31 71 100 200)
    ⟨rfl, rfl, rfl, rfl, rfl⟩ rfl (by decide) (by decide)
  exact ⟨⟨e, h1, h2⟩, rfl, rfl⟩

/-- C4: with caching enabled and the canonical key bound to `entries`, the cache check of
`GetPropagationData` rebinds the key to exactly the entries with `m_end_time >= now`, in their
order, and changes no other binding; at the end of the call the key's list is that filtered
list followed by what the call appended, and every other key's list is its old list followed
by what the call appended (nothing else is pruned). -/
theorem GetPropagationData_prune (self : SionnaPropagationCache) (helper : SionnaHelper)
    (a b : MobilityModel) (id_a id_b : Nat) (now : Time) (reply : Option Wrapper)
    (entries : List CacheEntry) (hv : ValidCall self helper a b id_a id_b)
    (hcaching : self.m_caching = true)
    (hfound : Cache.find self.m_cache (CacheKey.ctor id_a id_b) = some entries) :
    Cache.find (checkCache self.m_caching self.m_cache id_a id_b now).1 (CacheKey.ctor id_a id_b)
        = some (entries.filter (fun e => decide (e.m_end_time ≥ now))) ∧
    (∀ k, k ≠ CacheKey.ctor id_a id_b →
      Cache.find (checkCache self.m_caching self.m_cache id_a id_b now).1 k
        = Cache.find self.m_cache k) ∧
    (∃ added, Cache.entries (self.GetPropagationData a b now reply).2.m_cache
        (CacheKey.ctor id_a id_b)
        = entries.filter (fun e => decide (e.m_end_time ≥ now)) ++ added) ∧
    (∀ k, k ≠ CacheKey.ctor id_a id_b →
      ∃ added, Cache.entries (self.GetPropagationData a b now reply).2.m_cache k
        = Cache.entries self.m_cache k ++ added) := by
  have h1 : Cache.find (checkCache self.m_caching self.m_cache id_a id_b now).1
      (CacheKey.ctor id_a id_b) = some (entries.filter (fun e => decide (e.m_end_time ≥ now))) := by
    simp only [checkCache_eq, hcaching, if_true]
    rw [Cache.find_modify_same, hfound]
    rfl
  have h2 : ∀ k, k ≠ CacheKey.ctor id_a id_b →
      Cache.find (checkCache self.m_caching self.m_cache id_a id_b now).1 k
        = Cache.find self.m_cache k := by
    intro k hk
    simp only [checkCache_eq, hcaching, if_true]
    exact Cache.find_modify_other _ _ hk
  have h3 : ∀ k, ∃ added, Cache.entries (self.GetPropagationData a b now reply).2.m_cache k
      = Cache.entries (checkCache self.m_caching self.m_cache id_a id_b now).1 k ++ added := by
    intro k
    cases hc : (checkCache self.m_caching self.m_cache id_a id_b now).2 with
    | some e1 =>
      rw [GetPropagationData_of_hit now reply hv hc]
      exact ⟨[], by simp⟩
    | none =>
      rw [GetPropagationData_of_miss now reply hv hc]
      cases reply with
      | none => exact ⟨[], by simp⟩
      | some w =>
        cases w with
        | channel_state_response r =>
          exact ⟨responseEntriesFor r.csi k, by simp [Cache.entries_fillCache]⟩
        | not_set => exact ⟨[], by simp⟩
        | sim_init_msg m => exact ⟨[], by simp⟩
        | sim_ack => exact ⟨[], by simp⟩
        | sim_close_request => exact ⟨[], by simp⟩
        | channel_state_request r => exact ⟨[], by simp⟩
  refine ⟨h1, h2, ?_, ?_⟩
  · obtain ⟨added, hadd⟩ := h3 (CacheKey.ctor id_a id_b)
    refine ⟨added, ?_⟩
    rw [hadd, Cache.entries, h1]
    rfl
  · intro k hk
    obtain ⟨added, hadd⟩ := h3 k
    refine ⟨added, ?_⟩
    rw [hadd, Cache.entries, h2 k hk]
    rfl

theorem GetPropagationData_prune_witness :
    Cache.find (checkCache true sampleStore 1 2 200).1 (CacheKey.ctor 1 2)
        = some [CacheEntry.mk 31 71 100 200] ∧
    Cache.find (checkCache true sampleStore 1 2 200).1 (CacheKey.ctor 1 3)
        = some [CacheEntry.mk 40 80 0 100] := by
  obtain ⟨h1, h2, _⟩ := GetPropagationData_prune (sampleCache true false sampleStore)
    sampleHelper (sampleNode 1 0) (sampleNode 2 5) 1 2 200 none
    [CacheEntry.mk 30 70 0 100, CacheEntry.mk 31 71 100 200] ⟨rfl, rfl, rfl, rfl, rfl⟩ rfl rfl
  exact ⟨h1, h2 (CacheKey.ctor 1 3) (by decide)⟩

/-! ## The analytical short-circuit -/

theorem GetPropagationDelay_of_low {self : SionnaPropagationCache} {helper : SionnaHelper}
    (a b : MobilityModel) (now : Time) (reply : Option Wrapper)
    (hopt : self.m_optimize = true) (hh : self.m_sionnaHelper = some helper)
    (hlow : self.m_friisLossModel.CalcRxPower 20 a b + 0 < helper.GetNoiseFloor) :
    self.GetPropagationDelay a b now reply
      = (.ok (self.m_constSpeedDelayModel.GetDelay a b), self) := by
  unfold SionnaPropagationCache.GetPropagationDelay
  simp only [hopt, hh, if_true, MAX_TXPOWER_DBM, m_optimize_margin]
  rw [if_pos hlow]

theorem GetPropagationLoss_of_low {self : SionnaPropagationCache} {helper : SionnaHelper}
    (a b : MobilityModel) (txPowerDbm : ℚ) (now : Time) (reply : Option Wrapper)
    (hopt : self.m_optimize = true) (hh : self.m_sionnaHelper = some helper)
    (hlow : self.m_friisLossModel.CalcRxPower txPowerDbm a b + 0 < helper.GetNoiseFloor) :
    self.GetPropagationLoss a b txPowerDbm now reply
      = (.ok (txPowerDbm - self.m_friisLossModel.CalcRxPower txPowerDbm a b), self) := by
  unfold SionnaPropagationCache.GetPropagationLoss
  simp only [hopt, hh, if_true, m_optimize_margin]
  rw [if_pos hlow]
  congr 2
  ring

/-- C5: with fallback optimization enabled, if the Friis estimate at 20 dBm plus the margin 0
is strictly below the noise floor of the session, `GetPropagationDelay` returns exactly the delay
of the constant-speed model and the whole cache object (store, both counters, helper and its
socket) is unchanged, so nothing is sent. -/
theorem GetPropagationDelay_fallback (self : SionnaPropagationCache) (helper : SionnaHelper)
    (a b : MobilityModel) (now : Time) (reply : Option Wrapper)
    (hopt : self.m_optimize = true) (hh : self.m_sionnaHelper = some helper)
    (hlow : self.m_friisLossModel.CalcRxPower 20 a b + 0 < helper.GetNoiseFloor) :
    (self.GetPropagationDelay a b now reply).1 = .ok (self.m_constSpeedDelayModel.GetDelay a b) ∧
    (self.GetPropagationDelay a b now reply).2 = self ∧
    (self.GetPropagationDelay a b now reply).2.socketEvents = self.socketEvents ∧
    (self.GetPropagationDelay a b now reply).2.m_cache = self.m_cache ∧
    (self.GetPropagationDelay a b now reply).2.m_cache_hits = self.m_cache_hits ∧
    (self.GetPropagationDelay a b now reply).2.m_cache_miss = self.m_cache_miss := by
  rw [GetPropagationDelay_of_low a b now reply hopt hh hlow]
  exact ⟨rfl, rfl, rfl, rfl, rfl, rfl⟩

theorem GetPropagationDelay_fallback_witness :
    ((sampleCache true true sampleStore).GetPropagationDelay (sampleNode 1 0) (sampleNode 2 100)
      50 none).1 = .ok 300 ∧
    ((sampleCache true true sampleStore).GetPropagationDelay (sampleNode 1 0) (sampleNode 2 100)
      50 none).2 = sampleCache true true sampleStore := by
  obtain ⟨h1, h2, _⟩ := GetPropagationDelay_fallback (sampleCache true true sampleStore)
    sampleHelper (sampleNode 1 0) (sampleNode 2 100) 50 none rfl rfl
    (by norm_num [sampleCache, sampleFriis, sampleNode, sampleHelper,
      SionnaHelper.GetNoiseFloor])
  refine ⟨?_, h2⟩
  rw [h1]
  norm_num [sampleCache, sampleDelayModel, sampleNode]

/-- C6: with fallback optimization enabled, if the Friis estimate `rx` at the requested
transmit power plus the margin 0 is strictly below the noise floor of the session,
`GetPropagationLoss` returns exactly `txPowerDbm - rx` and the whole cache object (store, both
counters, helper and its socket) is unchanged, so nothing is sent. -/
theorem GetPropagationLoss_fallback (self : SionnaPropagationCache) (helper : SionnaHelper)
    (a b : MobilityModel) (txPowerDbm : ℚ) (now : Time) (reply : Option Wrapper)
    (hopt : self.m_optimize = true) (hh : self.m_sionnaHelper = some helper)
    (hlow : self.m_friisLossModel.CalcRxPower txPowerDbm a b + 0 < helper.GetNoiseFloor) :
    (self.GetPropagationLoss a b txPowerDbm now reply).1
      = .ok (txPowerDbm - self.m_friisLossModel.CalcRxPower txPowerDbm a b) ∧
    (self.GetPropagationLoss a b txPowerDbm now reply).2 = self ∧
    (self.GetPropagationLoss a b txPowerDbm now reply).2.socketEvents = self.socketEvents ∧
    (self.GetPropagationLoss a b txPowerDbm now reply).2.m_cache = self.m_cache ∧
    (self.GetPropagationLoss a b txPowerDbm now reply).2.m_cache_hits = self.m_cache_hits ∧
    (self.GetPropagationLoss a b txPowerDbm now reply).2.m_cache_miss = self.m_cache_miss := by
  rw [GetPropagationLoss_of_low a b txPowerDbm now reply hopt hh hlow]
  exact ⟨rfl, rfl, rfl, rfl, rfl, rfl⟩

theorem GetPropagationLoss_fallback_witness :
    ((sampleCache true true sampleStore).GetPropagationLoss (sampleNode 1 0) (sampleNode 2 100)
      16 50 none).1 = .ok 140 ∧
    ((sampleCache true true sampleStore).GetPropagationLoss (sampleNode 1 0) (sampleNode 2 100)
      16 50 none).2 = sampleCache true true sampleStore := by
  obtain ⟨h1, h2, _⟩ := GetPropagationLoss_fallback (sampleCache true true sampleStore)
    sampleHelper (sampleNode 1 0) (sampleNode 2 100) 16 50 none rfl rfl
    (by norm_num [sampleCache, sampleFriis, sampleNode, sampleHelper,
      SionnaHelper.GetNoiseFloor])
  refine ⟨?_, h2⟩
  rw [h1]
  norm_num [sampleCache, sampleFriis, sampleNode]

/-- C7: if fallback optimization is disabled, or the helper is attached and the estimated
receive power plus `m_optimize_margin` is greater than or equal to the noise floor, then
`GetPropagationDelay` is `GetPropagationData` followed by reading `m_delay` (estimate at
20 dBm), and `GetPropagationLoss` is `GetPropagationData` followed by reading `m_loss`
(estimate at the requested power): same outcome, same resulting state. -/
theorem short_circuit_only_below (self : SionnaPropagationCache) (a b : MobilityModel)
    (txPowerDbm : ℚ) (now : Time) (reply : Option Wrapper) :
    ((self.m_optimize = false ∨ ∃ helper, self.m_sionnaHelper = some helper ∧
        self.m_friisLossModel.CalcRxPower 20 a b + m_optimize_margin ≥ helper.GetNoiseFloor) →
      self.GetPropagationDelay a b now reply
        = (((self.GetPropagationData a b now reply).1).map (fun e => e.m_delay),
            (self.GetPropagationData a b now reply).2)) ∧
    ((self.m_optimize = false ∨ ∃ helper, self.m_sionnaHelper = some helper ∧
        self.m_friisLossModel.CalcRxPower txPowerDbm a b + m_optimize_margin
          ≥ helper.GetNoiseFloor) →
      self.GetPropagationLoss a b txPowerDbm now reply
        = (((self.GetPropagationData a b now reply).1).map (fun e => e.m_loss),
            (self.GetPropagationData a b now reply).2)) := by
  constructor
  · intro h
    unfold SionnaPropagationCache.GetPropagationDelay
    rcases h with h | ⟨helper, hh, hge⟩
    · simp [h]
    · have hn : ¬ (self.m_friisLossModel.CalcRxPower MAX_TXPOWER_DBM a b + m_optimize_margin
          < helper.GetNoiseFloor) := not_lt.2 hge
      cases hopt : self.m_optimize with
      | false => simp
      | true => simp only [hh, if_true, if_neg hn]
  · intro h
    unfold SionnaPropagationCache.GetPropagationLoss
    rcases h with h | ⟨helper, hh, hge⟩
    · simp [h]
    · have hn : ¬ (self.m_friisLossModel.CalcRxPower txPowerDbm a b + m_optimize_margin
          < helper.GetNoiseFloor) := not_lt.2 hge
      cases hopt : self.m_optimize with
      | false => simp
      | true => simp only [hh, if_true, if_neg hn]

theorem short_circuit_only_below_witness :
    ((sampleCache true true sampleStore).GetPropagationDelay (sampleNode 1 0) (sampleNode 2 74)
      50 none).1 = .ok 30 ∧
    ((sampleCache true true sampleStore).GetPropagationLoss (sampleNode 1 0) (sampleNode 2 74)
      20 50 none).1 = .ok 70 := by
  have h := short_circuit_only_below (sampleCache true true sampleStore) (sampleNode 1 0)
    (sampleNode 2 74) 20 50 none
  have hge : (sampleCache true true sampleStore).m_optimize = false ∨
      ∃ helper, (sampleCache true true sampleStore).m_sionnaHelper = some helper ∧
        (sampleCache true true sampleStore).m_friisLossModel.CalcRxPower 20 (sampleNode 1 0)
          (sampleNode 2 74) + m_optimize_margin ≥ helper.GetNoiseFloor :=
    Or.inr ⟨sampleHelper, rfl, by
      norm_num [sampleCache, sampleFriis, sampleNode, sampleHelper, SionnaHelper.GetNoiseFloor,
        m_optimize_margin]⟩
  constructor
  · rw [h.1 hge]; rfl
  · rw [h.2 hge]; rfl

/-! ## Misses, the request sent and the merge of the response -/

theorem checkCache_miss_iff (self : SionnaPropagationCache) (id_a id_b : Nat) (now : Time) :
    (checkCache self.m_caching self.m_cache id_a id_b now).2 = none ↔
      IsMiss self id_a id_b now := by
  rw [checkCache_eq]
  unfold IsMiss
  cases hc : self.m_caching with
  | false => simp
  | true =>
    simp only [if_true, Bool.true_eq_false, false_or]
    rw [← firstCovering_unexpired]
    unfold firstCovering
    rw [List.find?_eq_none]
    simp

theorem socketEvents_of_helper {self : SionnaPropagationCache} {helper : SionnaHelper}
    (hh : self.m_sionnaHelper = some helper) :
    self.socketEvents = helper.m_zmq_socket.events := by
  simp [SionnaPropagationCache.socketEvents, hh]

/-- C8: on a miss `GetPropagationData` adds exactly one to the miss counter, leaves the hit
counter unchanged and, whatever the reply, appends to the socket history exactly one send of
the `ChannelStateRequest` with `tx_node` the id of `a`, `rx_node` the id of `b` and `time` equal
to `now`, followed by exactly one receive.  A hit leaves the socket history unchanged, and so do
the analytical fallbacks of `GetPropagationDelay` and `GetPropagationLoss`. -/
theorem GetPropagationData_miss (self : SionnaPropagationCache) (helper : SionnaHelper)
    (a b : MobilityModel) (id_a id_b : Nat) (now : Time) (reply : Option Wrapper)
    (txPowerDbm : ℚ) (hv : ValidCall self helper a b id_a id_b) :
    (IsMiss self id_a id_b now →
      (self.GetPropagationData a b now reply).2.m_cache_miss = self.m_cache_miss + 1 ∧
      (self.GetPropagationData a b now reply).2.m_cache_hits = self.m_cache_hits ∧
      (self.GetPropagationData a b now reply).2.socketEvents = self.socketEvents ++
        [SocketEvent.send (Wrapper.channel_state_request
            { tx_node := id_a, rx_node := id_b, time := now }),
          SocketEvent.recv reply]) ∧
    (¬ IsMiss self id_a id_b now →
      (self.GetPropagationData a b now reply).2.socketEvents = self.socketEvents) ∧
    (self.m_optimize = true →
      self.m_friisLossModel.CalcRxPower 20 a b + 0 < helper.GetNoiseFloor →
      (self.GetPropagationDelay a b now reply).2.socketEvents = self.socketEvents) ∧
    (self.m_optimize = true →
      self.m_friisLossModel.CalcRxPower txPowerDbm a b + 0 < helper.GetNoiseFloor →
      (self.GetPropagationLoss a b txPowerDbm now reply).2.socketEvents = self.socketEvents) := by
  refine ⟨?_, ?_, ?_, ?_⟩
  · intro hmiss
    have hc := (checkCache_miss_iff self id_a id_b now).2 hmiss
    rw [GetPropagationData_of_miss now reply hv hc, socketEvents_of_helper hv.1]
    cases reply with
    | none => exact ⟨rfl, rfl, by simp [SionnaPropagationCache.socketEvents, Socket.send,
        Socket.recv]⟩
    | some w =>
      cases w <;>
        exact ⟨rfl, rfl, by simp [SionnaPropagationCache.socketEvents, Socket.send,
          Socket.recv]⟩
  · intro hhit
    cases hc : (checkCache self.m_caching self.m_cache id_a id_b now).2 with
    | none => exact absurd ((checkCache_miss_iff self id_a id_b now).1 hc) hhit
    | some e =>
      rw [GetPropagationData_of_hit now reply hv hc]
      rfl
  · intro hopt hlow
    rw [GetPropagationDelay_of_low a b now reply hopt hv.1 hlow]
  · intro hopt hlow
    rw [GetPropagationLoss_of_low a b txPowerDbm now reply hopt hv.1 hlow]

theorem GetPropagationData_miss_witness :
    (((sampleCache true false sampleStore).GetPropagationData (sampleNode 2 5) (sampleNode 1 0)
        250 (some Wrapper.sim_ack)).2.m_cache_miss = 1 ∧
    ((sampleCache true false sampleStore).GetPropagationData (sampleNode 2 5) (sampleNode 1 0)
        250 (some Wrapper.sim_ack)).2.m_cache_hits = 0 ∧
    ((sampleCache true false sampleStore).GetPropagationData (sampleNode 2 5) (sampleNode 1 0)
        250 (some Wrapper.sim_ack)).2.socketEvents =
      [SocketEvent.send (Wrapper.channel_state_request
          { tx_node := 2, rx_node := 1, time := 250 }),
        SocketEvent.recv (some Wrapper.sim_ack)]) ∧
    ((sampleCache true false sampleStore).GetPropagationData (sampleNode 2 5) (sampleNode 1 0)
        100 (some Wrapper.sim_ack)).2.socketEvents = [] ∧
    ((sampleCache true true sampleStore).GetPropagationDelay (sampleNode 2 100) (sampleNode 1 0)
        100 (some Wrapper.sim_ack)).2.socketEvents = [] :=
  ⟨(GetPropagationData_miss (sampleCache true false sampleStore) sampleHelper (sampleNode 2 5)
      (sampleNode 1 0) 2 1 250 (some Wrapper.sim_ack) 20 ⟨rfl, rfl, rfl, rfl, rfl⟩).1
      (by decide),
    (GetPropagationData_miss (sampleCache true false sampleStore) sampleHelper (sampleNode 2 5)
      (sampleNode 1 0) 2 1 100 (some Wrapper.sim_ack) 20 ⟨rfl, rfl, rfl, rfl, rfl⟩).2.1
      (by decide),
    (GetPropagationData_miss (sampleCache true true sampleStore) sampleHelper (sampleNode 2 100)
      (sampleNode 1 0) 2 1 100 (some Wrapper.sim_ack) 20 ⟨rfl, rfl, rfl, rfl, rfl⟩).2.2.1 rfl
      (by norm_num [sampleCache, sampleFriis, sampleNode, sampleHelper,
        SionnaHelper.GetNoiseFloor])⟩

theorem Cache.find_isSome_of_entries_ne_nil {c : Cache} {k : CacheKey}
    (h : Cache.entries c k ≠ []) : (Cache.find c k).isSome = true := by
  unfold Cache.entries at h
  cases hf : Cache.find c k with
  | none => simp [hf] at h
  | some v => rfl

theorem mem_responseEntriesFor {csi : List CsiGroup} {g : CsiGroup} {rx : RxNodeInfo}
    (hg : g ∈ csi) (hrx : rx ∈ g.rx_nodes) :
    CacheEntry.mk rx.delay rx.wb_loss g.start_time g.end_time ∈
      responseEntriesFor csi (CacheKey.ctor g.tx_node.id rx.id) := by
  unfold responseEntriesFor responseTriples
  simp only [List.mem_map, List.mem_filter, List.mem_flatten, decide_eq_true_eq]
  exact ⟨(CacheKey.ctor g.tx_node.id rx.id,
      CacheEntry.mk rx.delay rx.wb_loss g.start_time g.end_time),
    ⟨⟨_, ⟨g, hg, rfl⟩, List.mem_map.2 ⟨rx, hrx, rfl⟩⟩, rfl⟩, rfl⟩

/-- C9: on a miss answered by a channel-state response the store becomes the checked store
with the response merged in by the two loops; for every key the list after the merge is the
list before the merge followed by the entries `(delay, wb_loss, start, end)` of the response
whose canonical key `CacheKey(tx, rx)` is that key, in response order, nothing being dropped as
a duplicate; every key of the response is bound afterwards; and the total number of stored
entries grows by exactly the number of receivers in the response. -/
theorem GetPropagationData_merge (self : SionnaPropagationCache) (helper : SionnaHelper)
    (a b : MobilityModel) (id_a id_b : Nat) (now : Time) (resp : ChannelStateResponse)
    (hv : ValidCall self helper a b id_a id_b) (hmiss : IsMiss self id_a id_b now) :
    (∀ k, Cache.entries (self.GetPropagationData a b now
          (some (Wrapper.channel_state_response resp))).2.m_cache k
        = Cache.entries (checkCache self.m_caching self.m_cache id_a id_b now).1 k
            ++ responseEntriesFor resp.csi k) ∧
    (∀ g ∈ resp.csi, ∀ rx ∈ g.rx_nodes,
      (Cache.find (self.GetPropagationData a b now
          (some (Wrapper.channel_state_response resp))).2.m_cache
        (CacheKey.ctor g.tx_node.id rx.id)).isSome = true) ∧
    Cache.size (self.GetPropagationData a b now
          (some (Wrapper.channel_state_response resp))).2.m_cache
      = Cache.size (checkCache self.m_caching self.m_cache id_a id_b now).1
          + receiverCount resp.csi ∧
    (self.m_caching = false →
      (checkCache self.m_caching self.m_cache id_a id_b now).1 = self.m_cache) := by
  have hc := (checkCache_miss_iff self id_a id_b now).2 hmiss
  rw [GetPropagationData_of_miss now _ hv hc]
  simp only
  refine ⟨fun k => Cache.entries_fillCache _ _ k, ?_, Cache.size_fillCache _ _, ?_⟩
  · intro g hg rx hrx
    apply Cache.find_isSome_of_entries_ne_nil
    rw [Cache.entries_fillCache]
    have hm := mem_responseEntriesFor hg hrx
    intro hnil
    have : CacheEntry.mk rx.delay rx.wb_loss g.start_time g.end_time ∈
        Cache.entries (checkCache self.m_caching self.m_cache id_a id_b now).1
          (CacheKey.ctor g.tx_node.id rx.id)
          ++ responseEntriesFor resp.csi (CacheKey.ctor g.tx_node.id rx.id) :=
      List.mem_append_right _ hm
    rw [hnil] at this
    exact absurd this (List.not_mem_nil _)
  · intro hoff
    rw [checkCache_eq, hoff]
    rfl

theorem GetPropagationData_merge_witness :
    Cache.entries ((sampleCache true false sampleStore).GetPropagationData (sampleNode 1 0)
        (sampleNode 2 5) 250 (some (Wrapper.channel_state_response sampleResponse))).2.m_cache
        (CacheKey.ctor 1 2) = [CacheEntry.mk 32 72 150 300] ∧
    Cache.entries ((sampleCache true false sampleStore).GetPropagationData (sampleNode 1 0)
        (sampleNode 2 5) 250 (some (Wrapper.channel_state_response sampleResponse))).2.m_cache
        (CacheKey.ctor 2 3) = [CacheEntry.mk 50 90 150 300] ∧
    Cache.size ((sampleCache true false sampleStore).GetPropagationData (sampleNode 1 0)
        (sampleNode 2 5) 250 (some (Wrapper.channel_state_response sampleResponse))).2.m_cache
      = 3 := by
  obtain ⟨h1, _, h3, _⟩ := GetPropagationData_merge (sampleCache true false sampleStore)
    sampleHelper (sampleNode 1 0) (sampleNode 2 5) 1 2 250 sampleResponse
    ⟨rfl, rfl, rfl, rfl, rfl⟩ (by decide)
  exact ⟨h1 (CacheKey.ctor 1 2), h1 (CacheKey.ctor 2 3), h3⟩

/-! ## Look-ahead population -/

theorem CacheKey.ctor_comm (x y : Nat) : CacheKey.ctor x y = CacheKey.ctor y x := by
  unfold CacheKey.ctor
  by_cases h : x < y
  · have h2 : ¬ y < x := by omega
    simp [h, h2]
  · by_cases h3 : y < x
    · simp [h, h3]
    · have h4 : x = y := by omega
      subst h4
      rfl

/-- C10: after a fetch for the pair `(a,b)` answered by a response that holds a group with
window `[s,e]`, transmitter `tx` and a receiver `rx`, a lookup with caching enabled of `(tx,rx)`
or `(rx,tx)` at any time `t` with `s <= t <= e` returns an entry whose window contains `t`, adds
one to the hit counter only, and leaves the helper and its socket untouched (no request). -/
theorem lookahead_hit (self : SionnaPropagationCache) (helper : SionnaHelper)
    (a b : MobilityModel) (id_a id_b : Nat) (now : Time) (resp : ChannelStateResponse)
    (g : CsiGroup) (rx : RxNodeInfo) (a2 b2 : MobilityModel) (id_a2 id_b2 : Nat) (t : Time)
    (reply2 : Option Wrapper)
    (hv : ValidCall self helper a b id_a id_b) (hmiss : IsMiss self id_a id_b now)
    (hg : g ∈ resp.csi) (hrx : rx ∈ g.rx_nodes) (ht : g.start_time ≤ t ∧ t ≤ g.end_time)
    (ha2 : a2.isSionnaMobilityModel = true) (hb2 : b2.isSionnaMobilityModel = true)
    (hna2 : a2.node = some id_a2) (hnb2 : b2.node = some id_b2)
    (hpair : (id_a2 = g.tx_node.id ∧ id_b2 = rx.id) ∨ (id_a2 = rx.id ∧ id_b2 = g.tx_node.id)) :
    ∃ e,
      ((((self.GetPropagationData a b now (some (Wrapper.channel_state_response resp))).2
          ).SetCaching true).GetPropagationData a2 b2 t reply2).1 = .ok e ∧
      e.m_start_time ≤ t ∧ t ≤ e.m_end_time ∧
      ((((self.GetPropagationData a b now (some (Wrapper.channel_state_response resp))).2
          ).SetCaching true).GetPropagationData a2 b2 t reply2).2.m_cache_hits
        = (self.GetPropagationData a b now
            (some (Wrapper.channel_state_response resp))).2.m_cache_hits + 1 ∧
      ((((self.GetPropagationData a b now (some (Wrapper.channel_state_response resp))).2
          ).SetCaching true).GetPropagationData a2 b2 t reply2).2.m_cache_miss
        = (self.GetPropagationData a b now
            (some (Wrapper.channel_state_response resp))).2.m_cache_miss ∧
      ((((self.GetPropagationData a b now (some (Wrapper.channel_state_response resp))).2
          ).SetCaching true).GetPropagationData a2 b2 t reply2).2.m_sionnaHelper
        = (self.GetPropagationData a b now
            (some (Wrapper.channel_state_response resp))).2.m_sionnaHelper := by
  have hc := (checkCache_miss_iff self id_a id_b now).2 hmiss
  have hkey : CacheKey.ctor id_a2 id_b2 = CacheKey.ctor g.tx_node.id rx.id := by
    rcases hpair with ⟨h1, h2⟩ | ⟨h1, h2⟩
    · rw [h1, h2]
    · rw [h1, h2, CacheKey.ctor_comm]
  rw [GetPropagationData_of_miss now _ hv hc]
  simp only
  generalize hs1 : SionnaPropagationCache.SetCaching _ true = s1
  have hcache : s1.m_cache
      = fillCache (checkCache self.m_caching self.m_cache id_a id_b now).1 resp.csi := by
    rw [← hs1]; rfl
  have hcaching : s1.m_caching = true := by rw [← hs1]; rfl
  have hh1 : ∃ helper1, s1.m_sionnaHelper = some helper1 := by
    rw [← hs1]; exact ⟨_, rfl⟩
  obtain ⟨helper1, hh1⟩ := hh1
  have hv2 : ValidCall s1 helper1 a2 b2 id_a2 id_b2 := ⟨hh1, ha2, hb2, hna2, hnb2⟩
  have hmem : CacheEntry.mk rx.delay rx.wb_loss g.start_time g.end_time ∈
      Cache.entries s1.m_cache (CacheKey.ctor id_a2 id_b2) := by
    rw [hcache, hkey, Cache.entries_fillCache]
    exact List.mem_append_right _ (mem_responseEntriesFor hg hrx)
  obtain ⟨e, he⟩ := firstCovering_isSome_of_mem hmem (show CacheEntry.covers _ t from ht)
  have hhit : (checkCache s1.m_caching s1.m_cache id_a2 id_b2 t).2 = some e := by
    rw [checkCache_eq, hcaching]; simpa using he
  obtain ⟨_, hw1, hw2⟩ := firstCovering_covers he
  refine ⟨e, ?_⟩
  rw [GetPropagationData_of_hit t reply2 hv2 hhit]
  refine ⟨rfl, hw1, hw2, ?_, ?_, ?_⟩
  · rw [← hs1]; rfl
  · rw [← hs1]; rfl
  · rw [← hs1]; rfl

theorem lookahead_hit_witness :
    ∃ e,
      (((((sampleCache true false sampleStore).GetPropagationData (sampleNode 1 0)
          (sampleNode 2 5) 250 (some (Wrapper.channel_state_response sampleResponse))).2
          ).SetCaching true).GetPropagationData (sampleNode 3 9) (sampleNode 2 5) 300
            none).1 = .ok e ∧
      e.m_start_time ≤ 300 ∧ 300 ≤ e.m_end_time ∧
      (((((sampleCache true false sampleStore).GetPropagationData (sampleNode 1 0)
          (sampleNode 2 5) 250 (some (Wrapper.channel_state_response sampleResponse))).2
          ).SetCaching true).GetPropagationData (sampleNode 3 9) (sampleNode 2 5) 300
            none).2.m_cache_hits = 1 := by
  obtain ⟨e, h1, h2, h3, h4, _⟩ := lookahead_hit (sampleCache true false sampleStore)
    sampleHelper (sampleNode 1 0) (sampleNode 2 5) 1 2 250 sampleResponse
    { tx_node := { id := 2 },
      rx_nodes := [{ id := 1, delay := 32, wb_loss := 72 },
                   { id := 3, delay := 50, wb_loss := 90 }],
      start_time := 150, end_time := 300 }
    { id := 3, delay := 50, wb_loss := 90 } (sampleNode 3 9) (sampleNode 2 5) 3 2 300 none
    ⟨rfl, rfl, rfl, rfl, rfl⟩ (by decide) (by simp [sampleResponse]) (by simp)
    (by decide) rfl rfl rfl rfl (Or.inr ⟨rfl, rfl⟩)
  exact ⟨e, h1, h2, h3, h4⟩

/-! ## The entry returned after a fetch -/

theorem CacheKey.ctor_eq_iff (tx rx id_a id_b : Nat) :
    CacheKey.ctor tx rx = CacheKey.ctor id_a id_b ↔ samePair tx rx id_a id_b := by
  unfold CacheKey.ctor samePair
  by_cases h1 : tx < rx <;> by_cases h2 : id_a < id_b <;>
    simp only [h1, h2, if_true, if_false, CacheKey.raw.injEq] <;> omega

theorem responseTriples_eq_map (csi : List CsiGroup) :
    responseTriples csi = (responseRaw csi).map (fun p => (CacheKey.ctor p.1 p.2.1, p.2.2)) := by
  unfold responseTriples responseRaw
  induction csi with
  | nil => rfl
  | cons g rest ih =>
    simp only [List.map_cons, List.flatten_cons, List.map_append, List.map_map, ih]
    rfl

theorem find_filter_map {α β : Type} (l : List α) (p : α → Bool) (q : β → Bool) (f : α → β) :
    ((l.filter p).map f).find? q = (l.find? (fun x => p x && q (f x))).map f := by
  induction l with
  | nil => rfl
  | cons x rest ih =>
    by_cases hp : p x = true
    · by_cases hq : q (f x) = true
      · simp [List.filter_cons, hp, hq]
      · simp [List.filter_cons, hp, hq, ih]
    · simp [List.filter_cons, hp, ih]

theorem firstCovering_responseEntriesFor (csi : List CsiGroup) (id_a id_b : Nat) (now : Time) :
    firstCovering now (responseEntriesFor csi (CacheKey.ctor id_a id_b))
      = (firstTripleFor csi id_a id_b now).map (fun p => p.2.2) := by
  unfold firstCovering responseEntriesFor firstTripleFor
  rw [responseTriples_eq_map, List.filter_map, List.map_map]
  rw [find_filter_map]
  have hfun : (fun x : Nat × Nat × CacheEntry =>
      ((fun p : CacheKey × CacheEntry => decide (p.1 = CacheKey.ctor id_a id_b)) ∘
        fun p : Nat × Nat × CacheEntry => (CacheKey.ctor p.1 p.2.1, p.2.2)) x &&
      decide (CacheEntry.covers
        ((Prod.snd ∘ fun p : Nat × Nat × CacheEntry => (CacheKey.ctor p.1 p.2.1, p.2.2)) x) now))
      = (fun p : Nat × Nat × CacheEntry =>
        decide (samePair p.1 p.2.1 id_a id_b ∧ p.2.2.covers now)) := by
    funext p
    simp only [Function.comp, Bool.decide_and, CacheKey.ctor_eq_iff]
  rw [hfun]
  rfl

theorem entries_checkCache_of_miss {self : SionnaPropagationCache} {id_a id_b : Nat}
    {now : Time} (hcaching : self.m_caching = true) (hmiss : IsMiss self id_a id_b now) :
    firstCovering now
      (Cache.entries (checkCache self.m_caching self.m_cache id_a id_b now).1
        (CacheKey.ctor id_a id_b)) = none := by
  rw [checkCache_eq, hcaching]
  simp only [if_true]
  rw [Cache.entries_modify_same _ _ _ rfl]
  rcases hmiss with h | h
  · rw [hcaching] at h; cases h
  · unfold firstCovering
    rw [List.find?_eq_none]
    intro e he
    simpa using h e he

/-- C11: on a miss with caching enabled, if the response holds at least one triple for the
unordered pair `{id(a), id(b)}` whose window contains `now`, `GetPropagationData` returns the
entry `(delay, wb_loss, start, end)` of the first such triple in response order. -/
theorem GetPropagationData_returns_fetched (self : SionnaPropagationCache)
    (helper : SionnaHelper) (a b : MobilityModel) (id_a id_b : Nat) (now : Time)
    (resp : ChannelStateResponse) (tx rx : Nat) (e0 : CacheEntry)
    (hv : ValidCall self helper a b id_a id_b) (hcaching : self.m_caching = true)
    (hmiss : IsMiss self id_a id_b now)
    (hmem : (tx, rx, e0) ∈ responseRaw resp.csi) (hpair : samePair tx rx id_a id_b)
    (hwin : e0.m_start_time ≤ now ∧ now ≤ e0.m_end_time) :
    ∃ p, firstTripleFor resp.csi id_a id_b now = some p ∧
      (self.GetPropagationData a b now (some (Wrapper.channel_state_response resp))).1
        = .ok p.2.2 ∧
      samePair p.1 p.2.1 id_a id_b ∧ p.2.2.m_start_time ≤ now ∧ now ≤ p.2.2.m_end_time := by
  have hex : ∃ p, firstTripleFor resp.csi id_a id_b now = some p := by
    cases h : firstTripleFor resp.csi id_a id_b now with
    | some p => exact ⟨p, rfl⟩
    | none =>
      unfold firstTripleFor at h
      have := List.find?_eq_none.1 h (tx, rx, e0) hmem
      have hc : e0.covers now := hwin
      simp [hpair, hc] at this
  obtain ⟨p, hp⟩ := hex
  have hprop : samePair p.1 p.2.1 id_a id_b ∧ p.2.2.covers now := by
    have := List.find?_some (by unfold firstTripleFor at hp; exact hp)
    simpa using this
  refine ⟨p, hp, ?_, hprop.1, hprop.2.1, hprop.2.2⟩
  have hc := (checkCache_miss_iff self id_a id_b now).2 hmiss
  rw [GetPropagationData_of_miss now _ hv hc]
  simp only
  rw [resultFromCache_eq, Cache.entries_fillCache, firstCovering_append,
    entries_checkCache_of_miss hcaching hmiss, firstCovering_responseEntriesFor, hp]
  rfl

theorem GetPropagationData_returns_fetched_witness :
    ((sampleCache true false sampleStore).GetPropagationData (sampleNode 1 0) (sampleNode 2 5)
      250 (some (Wrapper.channel_state_response sampleResponse))).1
        = .ok (CacheEntry.mk 32 72 150 300) := by
  obtain ⟨p, hp, hr, _⟩ := GetPropagationData_returns_fetched
    (sampleCache true false sampleStore) sampleHelper (sampleNode 1 0) (sampleNode 2 5) 1 2 250
    sampleResponse 2 1 (CacheEntry.mk 32 72 150 300) ⟨rfl, rfl, rfl, rfl, rfl⟩ rfl (by decide)
    (by decide) (by decide) (by decide)
  have h2 : firstTripleFor sampleResponse.csi 1 2 250
      = some (2, 1, CacheEntry.mk 32 72 150 300) := by decide
  rw [h2] at hp
  cases hp
  exact hr

/-! ## The hit ratio -/

theorem divDouble_of_pos (x y : ℚ) (hy : y ≠ 0) : divDouble x y = DoubleValue.finite (x / y) := by
  simp [divDouble, hy]

/-- C12: in a cache state reached after `h` hits and `m` misses (hit counter `h`, miss counter
`m`) with `h + m > 0`, `GetStats` returns the quotient `h / (h + m)`; one more hit makes it
`(h + 1) / (h + 1 + m)` and one more miss `h / (h + m + 1)`. -/
theorem GetStats_value (self : SionnaPropagationCache) (helper : SionnaHelper)
    (a b : MobilityModel) (id_a id_b : Nat) (now : Time) (reply : Option Wrapper) (h m : Nat)
    (hh : self.m_cache_hits = h) (hm : self.m_cache_miss = m) :
    (0 < h + m → self.GetStats = DoubleValue.finite ((h : ℚ) / ((h : ℚ) + (m : ℚ)))) ∧
    (ValidCall self helper a b id_a id_b → ¬ IsMiss self id_a id_b now →
      (self.GetPropagationData a b now reply).2.GetStats
        = DoubleValue.finite (((h : ℚ) + 1) / ((h : ℚ) + 1 + (m : ℚ)))) ∧
    (ValidCall self helper a b id_a id_b → IsMiss self id_a id_b now →
      (self.GetPropagationData a b now reply).2.GetStats
        = DoubleValue.finite ((h : ℚ) / ((h : ℚ) + ((m : ℚ) + 1)))) := by
  have hnn : (0 : ℚ) ≤ (h : ℚ) := Nat.cast_nonneg h
  have mnn : (0 : ℚ) ≤ (m : ℚ) := Nat.cast_nonneg m
  refine ⟨?_, ?_, ?_⟩
  · intro hpos
    unfold SionnaPropagationCache.GetStats
    rw [hh, hm]
    apply divDouble_of_pos
    have : (0 : ℚ) < ((h + m : Nat) : ℚ) := by exact_mod_cast hpos
    push_cast at this
    exact ne_of_gt this
  · intro hv hhit
    cases hc : (checkCache self.m_caching self.m_cache id_a id_b now).2 with
    | none => exact absurd ((checkCache_miss_iff self id_a id_b now).1 hc) hhit
    | some e =>
      rw [GetPropagationData_of_hit now reply hv hc]
      unfold SionnaPropagationCache.GetStats
      simp only [hh, hm, Nat.cast_add, Nat.cast_one]
      apply divDouble_of_pos
      exact ne_of_gt (by linarith)
  · intro hv hmiss
    have hc := (checkCache_miss_iff self id_a id_b now).2 hmiss
    have hst : (self.GetPropagationData a b now reply).2.m_cache_hits = h ∧
        (self.GetPropagationData a b now reply).2.m_cache_miss = m + 1 := by
      rw [GetPropagationData_of_miss now reply hv hc]
      cases reply with
      | none => exact ⟨hh, by simp [hm]⟩
      | some w => cases w <;> exact ⟨hh, by simp [hm]⟩
    unfold SionnaPropagationCache.GetStats
    rw [hst.1, hst.2]
    simp only [Nat.cast_add, Nat.cast_one]
    apply divDouble_of_pos
    exact ne_of_gt (by linarith)

theorem GetStats_value_witness :
    ((sampleCache true false sampleStore).GetPropagationData (sampleNode 1 0) (sampleNode 2 5)
      50 none).2.GetStats = DoubleValue.finite 1 ∧
    (((sampleCache true false sampleStore).GetPropagationData (sampleNode 1 0) (sampleNode 2 5)
      50 none).2.GetPropagationData (sampleNode 1 0) (sampleNode 2 5) 500 none).2.GetStats
        = DoubleValue.finite (1 / 2) := by
  constructor
  · rw [(GetStats_value (sampleCache true false sampleStore) sampleHelper (sampleNode 1 0)
      (sampleNode 2 5) 1 2 50 none 0 0 rfl rfl).2.1 ⟨rfl, rfl, rfl, rfl, rfl⟩ (by decide)]
    norm_num
  · rw [(GetStats_value ((sampleCache true false sampleStore).GetPropagationData (sampleNode 1 0)
      (sampleNode 2 5) 50 none).2 sampleHelper (sampleNode 1 0)
      (sampleNode 2 5) 1 2 500 none 1 0 rfl rfl).2.2 ⟨rfl, rfl, rfl, rfl, rfl⟩ (by decide)]
    norm_num

/-- C13 (as stated, refuted): for a freshly constructed cache, with zero hits and zero misses,
`GetStats` divides zero by zero and the result is not a number of the interval [0, 1]. -/
theorem GetStats_fresh_not_in_unit_interval :
    ¬ (SionnaPropagationCache.ctor sampleFriis sampleDelayModel).GetStats.inUnitInterval := by
  intro h
  have hn : (SionnaPropagationCache.ctor sampleFriis sampleDelayModel).GetStats
      = DoubleValue.nan := by
    simp [SionnaPropagationCache.GetStats, SionnaPropagationCache.ctor, divDouble]
  rw [hn] at h
  exact h

/-- C13 (amended): in every cache state with at least one hit or miss counted, `GetStats`
returns a number of the interval [0, 1]. -/
theorem GetStats_in_unit_interval (self : SionnaPropagationCache)
    (hpos : 0 < self.m_cache_hits + self.m_cache_miss) :
    self.GetStats.inUnitInterval := by
  have hq : (0 : ℚ) < (self.m_cache_hits : ℚ) + (self.m_cache_miss : ℚ) := by
    exact_mod_cast hpos
  have hnn : (0 : ℚ) ≤ (self.m_cache_hits : ℚ) := Nat.cast_nonneg _
  have mnn : (0 : ℚ) ≤ (self.m_cache_miss : ℚ) := Nat.cast_nonneg _
  unfold SionnaPropagationCache.GetStats
  rw [divDouble_of_pos _ _ (ne_of_gt hq)]
  refine ⟨div_nonneg hnn (le_of_lt hq), ?_⟩
  rw [div_le_one hq]
  linarith

theorem GetStats_in_unit_interval_witness :
    ((sampleCache true false sampleStore).GetPropagationData (sampleNode 1 0) (sampleNode 2 5)
      50 none).2.GetStats.inUnitInterval :=
  GetStats_in_unit_interval _ (by decide)

/-! ## The end-to-end scenario -/

theorem GetPropagationDelay_of_no_optimize {self : SionnaPropagationCache}
    (a b : MobilityModel) (now : Time) (reply : Option Wrapper)
    (hopt : self.m_optimize = false) :
    self.GetPropagationDelay a b now reply
      = (((self.GetPropagationData a b now reply).1).map (fun e => e.m_delay),
          (self.GetPropagationData a b now reply).2) := by
  unfold SionnaPropagationCache.GetPropagationDelay
  simp [hopt]

theorem unexpired_single_of_le {t : Time} {e : CacheEntry} (h : t ≤ e.m_end_time) :
    unexpired t [e] = [e] := by
  simp [unexpired, h]

theorem unexpired_single_of_lt {t : Time} {e : CacheEntry} (h : e.m_end_time < t) :
    unexpired t [e] = [] := by
  simp [unexpired, not_le.2 h]

theorem step_fetch {self : SionnaPropagationCache} {helper : SionnaHelper}
    {a b : MobilityModel} {id_a id_b : Nat} (now : Time) (resp : ChannelStateResponse)
    {e : CacheEntry} (hv : ValidCall self helper a b id_a id_b)
    (hcaching : self.m_caching = true) (hopt : self.m_optimize = false)
    (hempty : self.m_cache = [])
    (hresp : responseEntriesFor resp.csi (CacheKey.ctor id_a id_b) = [e])
    (hcov : e.covers now) :
    (self.GetPropagationDelay a b now (some (Wrapper.channel_state_response resp))).1
        = .ok e.m_delay ∧
    (self.GetPropagationDelay a b now (some (Wrapper.channel_state_response resp))).2.m_caching
        = true ∧
    (self.GetPropagationDelay a b now (some (Wrapper.channel_state_response resp))).2.m_optimize
        = false ∧
    (∃ helper1, ValidCall
      (self.GetPropagationDelay a b now (some (Wrapper.channel_state_response resp))).2
      helper1 a b id_a id_b) ∧
    (self.GetPropagationDelay a b now
        (some (Wrapper.channel_state_response resp))).2.socketEvents
      = self.socketEvents ++
        [SocketEvent.send (Wrapper.channel_state_request
            { tx_node := id_a, rx_node := id_b, time := now }),
          SocketEvent.recv (some (Wrapper.channel_state_response resp))] ∧
    Cache.entries (self.GetPropagationDelay a b now
        (some (Wrapper.channel_state_response resp))).2.m_cache (CacheKey.ctor id_a id_b)
      = [e] := by
  have hmiss : IsMiss self id_a id_b now := by
    right
    intro x hx
    rw [hempty] at hx
    simp [Cache.entries, Cache.find, unexpired] at hx
  have hc := (checkCache_miss_iff self id_a id_b now).2 hmiss
  have hcache1 : (checkCache self.m_caching self.m_cache id_a id_b now).1 = [] := by
    rw [checkCache_eq, hcaching, hempty]; rfl
  rw [GetPropagationDelay_of_no_optimize a b now _ hopt,
    GetPropagationData_of_miss now _ hv hc, socketEvents_of_helper hv.1]
  simp only [hcache1]
  have hent : Cache.entries (fillCache [] resp.csi) (CacheKey.ctor id_a id_b) = [e] := by
    rw [Cache.entries_fillCache, hresp]; rfl
  refine ⟨?_, hcaching, hopt, ⟨_, rfl, hv.2⟩, ?_, hent⟩
  · rw [resultFromCache_eq, hent]
    simp [firstCovering, hcov, Except.map]
  · simp [SionnaPropagationCache.socketEvents, Socket.send, Socket.recv]

theorem step_hit {self : SionnaPropagationCache} {helper : SionnaHelper}
    {a b : MobilityModel} {id_a id_b : Nat} (now : Time) (reply : Option Wrapper)
    {e : CacheEntry} (hv : ValidCall self helper a b id_a id_b)
    (hcaching : self.m_caching = true) (hopt : self.m_optimize = false)
    (hent : Cache.entries self.m_cache (CacheKey.ctor id_a id_b) = [e])
    (hcov : e.covers now) :
    (self.GetPropagationDelay a b now reply).1 = .ok e.m_delay ∧
    (self.GetPropagationDelay a b now reply).2.m_caching = true ∧
    (self.GetPropagationDelay a b now reply).2.m_optimize = false ∧
    ValidCall (self.GetPropagationDelay a b now reply).2 helper a b id_a id_b ∧
    (self.GetPropagationDelay a b now reply).2.socketEvents = self.socketEvents ∧
    Cache.entries (self.GetPropagationDelay a b now reply).2.m_cache (CacheKey.ctor id_a id_b)
      = [e] ∧
    (self.GetPropagationDelay a b now reply).2.m_cache_hits = self.m_cache_hits + 1 ∧
    (self.GetPropagationDelay a b now reply).2.m_cache_miss = self.m_cache_miss := by
  have hc : (checkCache self.m_caching self.m_cache id_a id_b now).2 = some e := by
    rw [checkCache_eq, hcaching, hent]
    simp [firstCovering, hcov]
  have hent1 : Cache.entries (checkCache self.m_caching self.m_cache id_a id_b now).1
      (CacheKey.ctor id_a id_b) = [e] := by
    rw [checkCache_eq, hcaching]
    simp only [if_true]
    rw [Cache.entries_modify_same _ _ _ rfl, hent]
    exact unexpired_single_of_le hcov.2
  rw [GetPropagationDelay_of_no_optimize a b now _ hopt,
    GetPropagationData_of_hit now reply hv hc]
  exact ⟨rfl, hcaching, hopt, ⟨hv.1, hv.2⟩, rfl, hent1, rfl, rfl⟩

theorem step_expired {self : SionnaPropagationCache} {helper : SionnaHelper}
    {a b : MobilityModel} {id_a id_b : Nat} (now : Time) (reply : Option Wrapper)
    {e : CacheEntry} (hv : ValidCall self helper a b id_a id_b)
    (hcaching : self.m_caching = true) (hopt : self.m_optimize = false)
    (hent : Cache.entries self.m_cache (CacheKey.ctor id_a id_b) = [e])
    (hexp : e.m_end_time < now) :
    (self.GetPropagationDelay a b now reply).2.m_cache_miss = self.m_cache_miss + 1 ∧
    (self.GetPropagationDelay a b now reply).2.m_cache_hits = self.m_cache_hits ∧
    (self.GetPropagationDelay a b now reply).2.socketEvents
      = self.socketEvents ++
        [SocketEvent.send (Wrapper.channel_state_request
            { tx_node := id_a, rx_node := id_b, time := now }),
          SocketEvent.recv reply] ∧
    Cache.entries (checkCache self.m_caching self.m_cache id_a id_b now).1
      (CacheKey.ctor id_a id_b) = [] := by
  have hmiss : IsMiss self id_a id_b now := by
    right
    intro x hx
    rw [hent, unexpired_single_of_lt hexp] at hx
    cases hx
  have hc := (checkCache_miss_iff self id_a id_b now).2 hmiss
  have hent1 : Cache.entries (checkCache self.m_caching self.m_cache id_a id_b now).1
      (CacheKey.ctor id_a id_b) = [] := by
    rw [checkCache_eq, hcaching]
    simp only [if_true]
    rw [Cache.entries_modify_same _ _ _ rfl, hent]
    exact unexpired_single_of_lt hexp
  refine ⟨?_, ?_, ?_, hent1⟩ <;>
    rw [GetPropagationDelay_of_no_optimize a b now _ hopt,
      GetPropagationData_of_miss now reply hv hc]
  · cases reply with
    | none => rfl
    | some w => cases w <;> rfl
  · cases reply with
    | none => rfl
    | some w => cases w <;> rfl
  · rw [socketEvents_of_helper hv.1]
    cases reply with
    | none => simp [SionnaPropagationCache.socketEvents, Socket.send, Socket.recv]
    | some w =>
      cases w <;> simp [SionnaPropagationCache.socketEvents, Socket.send, Socket.recv]

/-- C14: for every window `[s,e]` and times `s <= t1 <= t2 <= e < t3`, starting from an empty
store with caching enabled and the fallback switched off, when the response to the first lookup
holds for the pair exactly the window `[s,e]` with delay `d`: the lookup at `t1` sends exactly
one request and returns `d`; the lookup at `t2` returns `d` again, is counted as a hit and
leaves the socket history unchanged; the lookup at `t3` is counted as a miss, finds the window
pruned and sends exactly one new request. -/
theorem end_to_end_scenario (self : SionnaPropagationCache) (helper : SionnaHelper)
    (a b : MobilityModel) (id_a id_b : Nat) (s e t1 t2 t3 d : Time) (l : ℚ)
    (resp : ChannelStateResponse) (reply2 reply3 : Option Wrapper)
    (hv : ValidCall self helper a b id_a id_b)
    (hempty : self.m_cache = []) (hcaching : self.m_caching = true)
    (hopt : self.m_optimize = false)
    (hresp : responseEntriesFor resp.csi (CacheKey.ctor id_a id_b) = [CacheEntry.mk d l s e])
    (h1 : s ≤ t1) (h2 : t1 ≤ t2) (h3 : t2 ≤ e) (h4 : e < t3) :
    (lookup1 self a b t1 resp).1 = .ok d ∧
    (lookup1 self a b t1 resp).2.socketEvents = self.socketEvents ++
      [SocketEvent.send (Wrapper.channel_state_request
          { tx_node := id_a, rx_node := id_b, time := t1 }),
        SocketEvent.recv (some (Wrapper.channel_state_response resp))] ∧
    (lookup2 self a b t1 resp t2 reply2).1 = .ok d ∧
    (lookup2 self a b t1 resp t2 reply2).2.socketEvents
      = (lookup1 self a b t1 resp).2.socketEvents ∧
    (lookup2 self a b t1 resp t2 reply2).2.m_cache_hits
      = (lookup1 self a b t1 resp).2.m_cache_hits + 1 ∧
    (lookup2 self a b t1 resp t2 reply2).2.m_cache_miss
      = (lookup1 self a b t1 resp).2.m_cache_miss ∧
    (lookup3 self a b t1 resp t2 reply2 t3 reply3).2.m_cache_miss
      = (lookup2 self a b t1 resp t2 reply2).2.m_cache_miss + 1 ∧
    (lookup3 self a b t1 resp t2 reply2 t3 reply3).2.m_cache_hits
      = (lookup2 self a b t1 resp t2 reply2).2.m_cache_hits ∧
    (lookup3 self a b t1 resp t2 reply2 t3 reply3).2.socketEvents
      = (lookup2 self a b t1 resp t2 reply2).2.socketEvents ++
        [SocketEvent.send (Wrapper.channel_state_request
            { tx_node := id_a, rx_node := id_b, time := t3 }),
          SocketEvent.recv reply3] ∧
    Cache.entries (checkCache true (lookup2 self a b t1 resp t2 reply2).2.m_cache id_a id_b
      t3).1 (CacheKey.ctor id_a id_b) = [] := by
  have hcov1 : (CacheEntry.mk d l s e).covers t1 := ⟨h1, le_trans h2 h3⟩
  have hcov2 : (CacheEntry.mk d l s e).covers t2 := ⟨le_trans h1 h2, h3⟩
  obtain ⟨a1, a2, a3, ⟨helper1, a4⟩, a5, a6⟩ :=
    step_fetch t1 resp hv hcaching hopt hempty hresp hcov1
  obtain ⟨b1, b2, b3, b4, b5, b6, b7, b8⟩ := step_hit t2 reply2 a4 a2 a3 a6 hcov2
  obtain ⟨c1, c2, c3, c4⟩ := step_expired t3 reply3 b4 b2 b3 b6
    (show (CacheEntry.mk d l s e).m_end_time < t3 from h4)
  rw [b2] at c4
  exact ⟨a1, a5, b1, b5, b7, b8, c1, c2, c3, c4⟩

theorem end_to_end_scenario_witness :
    (lookup1 (sampleCache true false []) (sampleNode 1 0) (sampleNode 2 5) 0
      scenarioResponse).1 = .ok 17 ∧
    (lookup2 (sampleCache true false []) (sampleNode 1 0) (sampleNode 2 5) 0
      scenarioResponse 500000 none).1 = .ok 17 ∧
    (lookup2 (sampleCache true false []) (sampleNode 1 0) (sampleNode 2 5) 0
      scenarioResponse 500000 none).2.socketEvents
      = (lookup1 (sampleCache true false []) (sampleNode 1 0) (sampleNode 2 5) 0
          scenarioResponse).2.socketEvents ∧
    (lookup3 (sampleCache true false []) (sampleNode 1 0) (sampleNode 2 5) 0
      scenarioResponse 500000 none 2000000 (some Wrapper.sim_ack)).2.m_cache_miss
      = (lookup2 (sampleCache true false []) (sampleNode 1 0) (sampleNode 2 5) 0
          scenarioResponse 500000 none).2.m_cache_miss + 1 := by
  obtain ⟨h1, _, h3, h4, _, _, h7, _⟩ := end_to_end_scenario (sampleCache true false [])
    sampleHelper (sampleNode 1 0) (sampleNode 2 5) 1 2 0 1000000 0 500000 2000000 17 65
    scenarioResponse none (some Wrapper.sim_ack) ⟨rfl, rfl, rfl, rfl, rfl⟩ rfl rfl rfl
    (by decide) (by decide) (by decide) (by decide) (by decide)
  exact ⟨h1, h3, h4, h7⟩

/-! ## Caching disabled -/

/-- C15: with caching disabled every call of `GetPropagationData`, whatever the store holds,
adds one to the miss counter, leaves the hit counter unchanged and appends to the socket
history exactly one send of the channel-state request followed by one receive. -/
theorem caching_disabled_always_miss (self : SionnaPropagationCache) (helper : SionnaHelper)
    (a b : MobilityModel) (id_a id_b : Nat) (now : Time) (reply : Option Wrapper)
    (hv : ValidCall self helper a b id_a id_b) (hoff : self.m_caching = false) :
    (self.GetPropagationData a b now reply).2.m_cache_miss = self.m_cache_miss + 1 ∧
    (self.GetPropagationData a b now reply).2.m_cache_hits = self.m_cache_hits ∧
    (self.GetPropagationData a b now reply).2.socketEvents = self.socketEvents ++
      [SocketEvent.send (Wrapper.channel_state_request
          { tx_node := id_a, rx_node := id_b, time := now }),
        SocketEvent.recv reply] := by
  have hc : (checkCache self.m_caching self.m_cache id_a id_b now).2 = none := by
    rw [checkCache_eq, hoff]; rfl
  rw [GetPropagationData_of_miss now reply hv hc, socketEvents_of_helper hv.1]
  cases reply with
  | none => exact ⟨rfl, rfl, by simp [SionnaPropagationCache.socketEvents, Socket.send,
      Socket.recv]⟩
  | some w =>
    cases w <;>
      exact ⟨rfl, rfl, by simp [SionnaPropagationCache.socketEvents, Socket.send,
        Socket.recv]⟩

theorem caching_disabled_always_miss_witness :
    firstCovering 50 (Cache.entries sampleStore (CacheKey.ctor 1 2))
      = some (CacheEntry.mk 30 70 0 100) ∧
    ((sampleCache false false sampleStore).GetPropagationData (sampleNode 1 0) (sampleNode 2 5)
      50 (some (Wrapper.channel_state_response sampleResponse))).2.m_cache_miss = 1 ∧
    ((sampleCache false false sampleStore).GetPropagationData (sampleNode 1 0) (sampleNode 2 5)
      50 (some (Wrapper.channel_state_response sampleResponse))).2.m_cache_hits = 0 ∧
    ((sampleCache false false sampleStore).GetPropagationData (sampleNode 1 0) (sampleNode 2 5)
      50 (some (Wrapper.channel_state_response sampleResponse))).2.socketEvents =
      [SocketEvent.send (Wrapper.channel_state_request
          { tx_node := 1, rx_node := 2, time := 50 }),
        SocketEvent.recv (some (Wrapper.channel_state_response sampleResponse))] :=
  ⟨by decide, caching_disabled_always_miss (sampleCache false false sampleStore) sampleHelper
    (sampleNode 1 0) (sampleNode 2 5) 1 2 50
    (some (Wrapper.channel_state_response sampleResponse)) ⟨rfl, rfl, rfl, rfl, rfl⟩ rfl⟩

/-! ## The handshakes of the session client -/

theorem Failed_error {α : Type} (msg : String) : Failed (Except.error msg : Except String α) :=
  ⟨msg, rfl⟩

theorem not_Failed_ok {α : Type} (x : α) : ¬ Failed (Except.ok x : Except String α) := by
  rintro ⟨msg, h⟩
  cases h

theorem NotAck_none : NotAck none := Or.inl rfl

theorem NotAck_some {w : Wrapper} (h : w ≠ Wrapper.sim_ack) : NotAck (some w) :=
  Or.inr ⟨w, rfl, h⟩

theorem not_NotAck_ack : ¬ NotAck (some Wrapper.sim_ack) := by
  rintro (h | ⟨w, h, hw⟩)
  · cases h
  · cases h
    exact hw rfl

theorem Start_of_descriptors {self : SionnaHelper} (seed : Nat) {nodes : List Node}
    (reply : Option Wrapper) {infos : List NodeInfo} (h : nodeDescriptors nodes = .ok infos) :
    self.Start seed nodes reply =
      (match reply with
        | none => .error "Failed to receive reply after simulation information message."
        | some Wrapper.sim_ack => .ok ()
        | some _ => .error "Reply after simulation information is not an ack.",
       { self with m_zmq_socket := (self.m_zmq_socket.send
          (Wrapper.sim_init_msg (self.initMessage seed infos))).recv reply }) := by
  unfold SionnaHelper.Start
  rw [h]
  cases reply with
  | none => rfl
  | some w => cases w <;> rfl

theorem Start_of_error {self : SionnaHelper} (seed : Nat) {nodes : List Node}
    (reply : Option Wrapper) {msg : String} (h : nodeDescriptors nodes = .error msg) :
    self.Start seed nodes reply = (.error msg, self) := by
  unfold SionnaHelper.Start
  rw [h]

/-- C16: each handshake stops on a fatal error exactly when no reply is received or the reply
has the wrong variant, and performs exactly one send and one receive either way (no retry):
`Start`, once the initialization message is built, fails iff the reply is not `sim_ack`;
`Destroy` fails iff the reply is not `sim_ack`, and closes the socket exactly when it does not
fail; the exchange of `GetPropagationData` on a miss fails iff the reply is not a channel-state
response. -/
theorem handshakes_fail_iff (self : SionnaHelper) (seed : Nat) (nodes : List Node)
    (reply : Option Wrapper) (cache : SionnaPropagationCache) (helper : SionnaHelper)
    (a b : MobilityModel) (id_a id_b : Nat) (now : Time) :
    (∀ infos, nodeDescriptors nodes = .ok infos →
      (Failed (self.Start seed nodes reply).1 ↔ NotAck reply) ∧
      (self.Start seed nodes reply).2.m_zmq_socket.events = self.m_zmq_socket.events ++
        [SocketEvent.send (Wrapper.sim_init_msg (self.initMessage seed infos)),
          SocketEvent.recv reply]) ∧
    ((Failed (self.Destroy reply).1 ↔ NotAck reply) ∧
      (self.Destroy reply).2.m_zmq_socket.events = self.m_zmq_socket.events ++
        [SocketEvent.send Wrapper.sim_close_request, SocketEvent.recv reply] ∧
      (¬ NotAck reply → (self.Destroy reply).2.m_zmq_socket.closed = true) ∧
      (NotAck reply →
        (self.Destroy reply).2.m_zmq_socket.closed = self.m_zmq_socket.closed)) ∧
    (ValidCall cache helper a b id_a id_b → IsMiss cache id_a id_b now →
      (Failed (cache.GetPropagationData a b now reply).1 ↔ NotChannelStateResponse reply) ∧
      (cache.GetPropagationData a b now reply).2.socketEvents = cache.socketEvents ++
        [SocketEvent.send (Wrapper.channel_state_request
            { tx_node := id_a, rx_node := id_b, time := now }),
          SocketEvent.recv reply]) := by
  refine ⟨?_, ?_, ?_⟩
  · intro infos h
    rw [Start_of_descriptors seed reply h]
    refine ⟨?_, by simp [Socket.send, Socket.recv]⟩
    cases reply with
    | none => exact ⟨fun _ => NotAck_none, fun _ => Failed_error _⟩
    | some w =>
      cases w with
      | sim_ack => exact ⟨fun hf => absurd hf (not_Failed_ok _), fun hn => absurd hn not_NotAck_ack⟩
      | not_set => exact ⟨fun _ => NotAck_some (by simp), fun _ => Failed_error _⟩
      | sim_init_msg m => exact ⟨fun _ => NotAck_some (by simp), fun _ => Failed_error _⟩
      | sim_close_request => exact ⟨fun _ => NotAck_some (by simp), fun _ => Failed_error _⟩
      | channel_state_request r =>
        exact ⟨fun _ => NotAck_some (by simp), fun _ => Failed_error _⟩
      | channel_state_response r =>
        exact ⟨fun _ => NotAck_some (by simp), fun _ => Failed_error _⟩
  · unfold SionnaHelper.Destroy
    cases reply with
    | none =>
      exact ⟨⟨fun _ => NotAck_none, fun _ => Failed_error _⟩,
        by simp [Socket.send, Socket.recv], fun hn => absurd NotAck_none hn, fun _ => rfl⟩
    | some w =>
      cases w with
      | sim_ack =>
        exact ⟨⟨fun hf => absurd hf (not_Failed_ok _), fun hn => absurd hn not_NotAck_ack⟩,
          by simp [Socket.send, Socket.recv, Socket.close], fun _ => rfl,
          fun hn => absurd hn not_NotAck_ack⟩
      | not_set =>
        exact ⟨⟨fun _ => NotAck_some (by simp), fun _ => Failed_error _⟩,
          by simp [Socket.send, Socket.recv],
          fun hn => absurd (NotAck_some (by simp)) hn, fun _ => rfl⟩
      | sim_init_msg m =>
        exact ⟨⟨fun _ => NotAck_some (by simp), fun _ => Failed_error _⟩,
          by simp [Socket.send, Socket.recv],
          fun hn => absurd (NotAck_some (by simp)) hn, fun _ => rfl⟩
      | sim_close_request =>
        exact ⟨⟨fun _ => NotAck_some (by simp), fun _ => Failed_error _⟩,
          by simp [Socket.send, Socket.recv],
          fun hn => absurd (NotAck_some (by simp)) hn, fun _ => rfl⟩
      | channel_state_request r =>
        exact ⟨⟨fun _ => NotAck_some (by simp), fun _ => Failed_error _⟩,
          by simp [Socket.send, Socket.recv],
          fun hn => absurd (NotAck_some (by simp)) hn, fun _ => rfl⟩
      | channel_state_response r =>
        exact ⟨⟨fun _ => NotAck_some (by simp), fun _ => Failed_error _⟩,
          by simp [Socket.send, Socket.recv],
          fun hn => absurd (NotAck_some (by simp)) hn, fun _ => rfl⟩
  · intro hv hmiss
    have hc := (checkCache_miss_iff cache id_a id_b now).2 hmiss
    rw [GetPropagationData_of_miss now reply hv hc, socketEvents_of_helper hv.1]
    have hbad : ∀ w : Wrapper, (∀ r, w ≠ Wrapper.channel_state_response r) →
        NotChannelStateResponse (some w) := fun w hw => Or.inr ⟨w, rfl, hw⟩
    cases reply with
    | none =>
      exact ⟨⟨fun _ => Or.inl rfl, fun _ => Failed_error _⟩,
        by simp [SionnaPropagationCache.socketEvents, Socket.send, Socket.recv]⟩
    | some w =>
      cases w with
      | channel_state_response r =>
        refine ⟨⟨fun hf => absurd hf (not_Failed_ok _), ?_⟩,
          by simp [SionnaPropagationCache.socketEvents, Socket.send, Socket.recv]⟩
        rintro (h | ⟨w, h, hw⟩)
        · cases h
        · cases h
          exact absurd rfl (hw r)
      | not_set =>
        exact ⟨⟨fun _ => hbad _ (by simp), fun _ => Failed_error _⟩,
          by simp [SionnaPropagationCache.socketEvents, Socket.send, Socket.recv]⟩
      | sim_init_msg m =>
        exact ⟨⟨fun _ => hbad _ (by simp), fun _ => Failed_error _⟩,
          by simp [SionnaPropagationCache.socketEvents, Socket.send, Socket.recv]⟩
      | sim_ack =>
        exact ⟨⟨fun _ => hbad _ (by simp), fun _ => Failed_error _⟩,
          by simp [SionnaPropagationCache.socketEvents, Socket.send, Socket.recv]⟩
      | sim_close_request =>
        exact ⟨⟨fun _ => hbad _ (by simp), fun _ => Failed_error _⟩,
          by simp [SionnaPropagationCache.socketEvents, Socket.send, Socket.recv]⟩
      | channel_state_request r =>
        exact ⟨⟨fun _ => hbad _ (by simp), fun _ => Failed_error _⟩,
          by simp [SionnaPropagationCache.socketEvents, Socket.send, Socket.recv]⟩

theorem handshakes_fail_iff_witness :
    (Failed (sampleHelper.Start 7 sampleNodes (some Wrapper.sim_close_request)).1 ∧
      ¬ Failed (sampleHelper.Start 7 sampleNodes (some Wrapper.sim_ack)).1) ∧
    (Failed (sampleHelper.Destroy none).1 ∧
      (sampleHelper.Destroy (some Wrapper.sim_ack)).2.m_zmq_socket.closed = true) ∧
    Failed ((sampleCache true false sampleStore).GetPropagationData (sampleNode 1 0)
      (sampleNode 2 5) 250 (some Wrapper.sim_ack)).1 := by
  have hd : nodeDescriptors sampleNodes = .ok
      [{ id := 0, mobility := NodeMobility.constant_position_model { x := 7 } },
       { id := 2, mobility := NodeMobility.random_walk_model { x := 1, y := 2, z := 3 }
          (WalkTrigger.time_value 1000000000) (RandomVariableStreamMsg.uniform 1 2)
          (RandomVariableStreamMsg.normal 0 4) }] := by
    rfl
  refine ⟨⟨?_, ?_⟩, ⟨?_, ?_⟩, ?_⟩
  · exact ((handshakes_fail_iff sampleHelper 7 sampleNodes (some Wrapper.sim_close_request)
      (sampleCache true false sampleStore) sampleHelper (sampleNode 1 0) (sampleNode 2 5) 1 2
      250).1 _ hd).1.2 (NotAck_some (by simp))
  · intro hf
    exact not_NotAck_ack (((handshakes_fail_iff sampleHelper 7 sampleNodes
      (some Wrapper.sim_ack) (sampleCache true false sampleStore) sampleHelper (sampleNode 1 0)
      (sampleNode 2 5) 1 2 250).1 _ hd).1.1 hf)
  · exact (handshakes_fail_iff sampleHelper 7 sampleNodes none
      (sampleCache true false sampleStore) sampleHelper (sampleNode 1 0) (sampleNode 2 5) 1 2
      250).2.1.1.2 NotAck_none
  · exact (handshakes_fail_iff sampleHelper 7 sampleNodes (some Wrapper.sim_ack)
      (sampleCache true false sampleStore) sampleHelper (sampleNode 1 0) (sampleNode 2 5) 1 2
      250).2.1.2.2.1 not_NotAck_ack
  · exact ((handshakes_fail_iff sampleHelper 7 sampleNodes (some Wrapper.sim_ack)
      (sampleCache true false sampleStore) sampleHelper (sampleNode 1 0) (sampleNode 2 5) 1 2
      250).2.2 ⟨rfl, rfl, rfl, rfl, rfl⟩ (by decide)).1.2
      (Or.inr ⟨Wrapper.sim_ack, rfl, by simp⟩)

/-! ## The initialization message -/

theorem nodeDescriptor_describes {id : Nat} {m : MobilityModel} {info : NodeInfo}
    (h : nodeDescriptor id m = .ok info) : Describes (id, m) info := by
  unfold nodeDescriptor at h
  cases hs : m.isSionnaMobilityModel with
  | false => simp [hs] at h
  | true =>
    simp only [hs, Bool.not_true, Bool.false_eq_true, if_false] at h
    by_cases hm : m.GetModel = "Random Walk"
    · simp only [hm, if_true] at h
      cases ht : walkTrigger m with
      | error e => simp [ht] at h
      | ok trigger =>
        simp only [ht] at h
        cases hsp : SionnaHelper.RandomVariableStreamMessage RandomVariableStreamMsg.not_set
            m.GetSpeed with
        | mk r1 speed =>
          cases r1 with
          | error e => simp [hsp] at h
          | ok u1 =>
            simp only [hsp] at h
            cases hdir : SionnaHelper.RandomVariableStreamMessage
                RandomVariableStreamMsg.not_set m.GetDirection with
            | mk r2 direction =>
              cases r2 with
              | error e => simp [hdir] at h
              | ok u2 =>
                simp only [hdir] at h
                cases h
                exact ⟨rfl, Or.inl ⟨hm, trigger, speed, direction, rfl⟩⟩
    · simp only [hm, if_false] at h
      cases h
      exact ⟨rfl, Or.inr ⟨hm, rfl⟩⟩

theorem walkTrigger_positive {m : MobilityModel} {trigger : WalkTrigger}
    (h : walkTrigger m = .ok trigger) : trigger.positive := by
  unfold walkTrigger at h
  by_cases hmode : m.GetMode = "Time"
  · simp only [hmode, if_true] at h
    by_cases hpos : m.GetModeTime > 0
    · simp only [hpos, if_true] at h
      cases h
      exact hpos
    · simp [hpos] at h
  · simp only [hmode, if_false] at h
    by_cases hpos : m.GetModeDistance > 0
    · simp only [hpos, if_true] at h
      cases h
      exact hpos
    · simp [hpos] at h

theorem nodeDescriptor_walk {id : Nat} {m : MobilityModel} {info : NodeInfo}
    (hm : m.GetModel = "Random Walk") (h : nodeDescriptor id m = .ok info) :
    ∃ trigger speed direction, walkTrigger m = .ok trigger ∧
      info.mobility = NodeMobility.random_walk_model m.position trigger speed direction := by
  unfold nodeDescriptor at h
  cases hs : m.isSionnaMobilityModel with
  | false => simp [hs] at h
  | true =>
    simp only [hs, Bool.not_true, Bool.false_eq_true, if_false, hm, if_true] at h
    cases ht : walkTrigger m with
    | error e => simp [ht] at h
    | ok trigger =>
      simp only [ht] at h
      cases hsp : SionnaHelper.RandomVariableStreamMessage RandomVariableStreamMsg.not_set
          m.GetSpeed with
      | mk r1 speed =>
        cases r1 with
        | error e => simp [hsp] at h
        | ok u1 =>
          simp only [hsp] at h
          cases hdir : SionnaHelper.RandomVariableStreamMessage
              RandomVariableStreamMsg.not_set m.GetDirection with
          | mk r2 direction =>
            cases r2 with
            | error e => simp [hdir] at h
            | ok u2 =>
              simp only [hdir] at h
              cases h
              exact ⟨trigger, speed, direction, rfl, rfl⟩

theorem nodeDescriptor_fails_of_trigger {id : Nat} {m : MobilityModel}
    (hs : m.isSionnaMobilityModel = true) (hm : m.GetModel = "Random Walk")
    (h : Failed (walkTrigger m)) : Failed (nodeDescriptor id m) := by
  obtain ⟨msg, hmsg⟩ := h
  unfold nodeDescriptor
  simp only [hs, Bool.not_true, Bool.false_eq_true, if_false, hm, if_true, hmsg]
  exact Failed_error _

theorem nodeDescriptor_trigger_positive {id : Nat} {m : MobilityModel} {info : NodeInfo}
    (h : nodeDescriptor id m = .ok info) {position : Vector} {trigger : WalkTrigger}
    {speed direction : RandomVariableStreamMsg}
    (hw : info.mobility = NodeMobility.random_walk_model position trigger speed direction) :
    trigger.positive := by
  by_cases hm : m.GetModel = "Random Walk"
  · obtain ⟨t, sp, dir, ht, hinfo⟩ := nodeDescriptor_walk hm h
    rw [hinfo] at hw
    cases hw
    exact walkTrigger_positive ht
  · obtain ⟨_, hd⟩ := nodeDescriptor_describes h
    rcases hd with ⟨hm1, _⟩ | ⟨_, hc⟩
    · exact absurd hm1 hm
    · rw [hc] at hw
      cases hw

theorem nodeDescriptors_fails_of_descriptor {nodes : List Node} {n : Node} {m : MobilityModel}
    (hn : n ∈ nodes) (hm : n.mobility = some m) (hf : Failed (nodeDescriptor n.id m)) :
    Failed (nodeDescriptors nodes) := by
  induction nodes with
  | nil => cases hn
  | cons node rest ih =>
    unfold nodeDescriptors
    rcases List.mem_cons.1 hn with h | h
    · subst h
      obtain ⟨msg, hmsg⟩ := hf
      simp only [hm, hmsg]
      exact Failed_error _
    · cases hm1 : node.mobility with
      | none => simpa [hm1] using ih h
      | some m1 =>
        simp only
        cases hd : nodeDescriptor node.id m1 with
        | error e => exact Failed_error _
        | ok info =>
          simp only
          obtain ⟨msg, hmsg⟩ := ih h
          rw [hmsg]
          exact Failed_error _

theorem nodeDescriptors_triggers_positive {nodes : List Node} {infos : List NodeInfo}
    (h : nodeDescriptors nodes = .ok infos) :
    ∀ info ∈ infos, ∀ position trigger speed direction,
      info.mobility = NodeMobility.random_walk_model position trigger speed direction →
        trigger.positive := by
  induction nodes generalizing infos with
  | nil =>
    simp only [nodeDescriptors] at h
    cases h
    intro info hin
    cases hin
  | cons node rest ih =>
    unfold nodeDescriptors at h
    cases hm : node.mobility with
    | none =>
      simp only [hm] at h
      exact ih h
    | some m =>
      simp only [hm] at h
      cases hd : nodeDescriptor node.id m with
      | error e => simp [hd] at h
      | ok info1 =>
        simp only [hd] at h
        cases hr : nodeDescriptors rest with
        | error e => simp [hr] at h
        | ok infos1 =>
          simp only [hr] at h
          cases h
          intro info hin position trigger speed direction hw
          rcases List.mem_cons.1 hin with h1 | h1
          · subst h1
            exact nodeDescriptor_trigger_positive hd hw
          · exact ih hr info h1 position trigger speed direction hw

/-- C18: for a random-walk entity `Start` sets exactly one trigger.  In mode "Time" the trigger
computation fails when the time in nanoseconds is `<= 0` and otherwise yields `time_value` with
that time; in any other mode it fails when the distance is `<= 0` and otherwise yields
`distance_value` with that distance.  The descriptor of a random-walk entity carries that
trigger, a failing trigger makes `Start` stop on a fatal error before anything is sent, and
every random-walk trigger of an initialization message that `Start` sends is set and strictly
positive. -/
theorem Start_walk_trigger (self : SionnaHelper) (seed : Nat) (nodes : List Node)
    (reply : Option Wrapper) (n : Node) (m : MobilityModel) :
    (m.GetMode = "Time" →
      (m.GetModeTime ≤ 0 → Failed (walkTrigger m)) ∧
      (0 < m.GetModeTime → walkTrigger m = .ok (WalkTrigger.time_value m.GetModeTime))) ∧
    (m.GetMode ≠ "Time" →
      (m.GetModeDistance ≤ 0 → Failed (walkTrigger m)) ∧
      (0 < m.GetModeDistance →
        walkTrigger m = .ok (WalkTrigger.distance_value m.GetModeDistance))) ∧
    (m.GetModel = "Random Walk" → ∀ info, nodeDescriptor n.id m = .ok info →
      ∃ trigger speed direction, walkTrigger m = .ok trigger ∧
        info.mobility = NodeMobility.random_walk_model m.position trigger speed direction) ∧
    (n ∈ nodes → n.mobility = some m → m.isSionnaMobilityModel = true →
      m.GetModel = "Random Walk" → Failed (walkTrigger m) →
      Failed (self.Start seed nodes reply).1 ∧ (self.Start seed nodes reply).2 = self) ∧
    (∀ msg, (self.Start seed nodes reply).2.m_zmq_socket.events
        = self.m_zmq_socket.events ++
          [SocketEvent.send (Wrapper.sim_init_msg msg), SocketEvent.recv reply] →
      msg.triggersPositive) := by
  refine ⟨?_, ?_, ?_, ?_, ?_⟩
  · intro hmode
    constructor
    · intro hle
      have : ¬ m.GetModeTime > 0 := not_lt.2 hle
      simp only [walkTrigger, hmode, if_true, this, if_false]
      exact Failed_error _
    · intro hpos
      have : m.GetModeTime > 0 := hpos
      simp only [walkTrigger, hmode, if_true, this]
  · intro hmode
    constructor
    · intro hle
      have : ¬ m.GetModeDistance > 0 := not_lt.2 hle
      simp only [walkTrigger, hmode, if_false, this]
      exact Failed_error _
    · intro hpos
      have : m.GetModeDistance > 0 := hpos
      simp only [walkTrigger, hmode, if_false, this, if_true]
  · intro hm info h
    exact nodeDescriptor_walk hm h
  · intro hn hmob hs hm hf
    obtain ⟨msg, hmsg⟩ := nodeDescriptors_fails_of_descriptor hn hmob
      (nodeDescriptor_fails_of_trigger hs hm hf)
    rw [Start_of_error seed reply hmsg]
    exact ⟨Failed_error _, rfl⟩
  · intro msg hev
    cases hd : nodeDescriptors nodes with
    | error e =>
      rw [Start_of_error seed reply hd] at hev
      have := congrArg List.length hev
      simp at this
    | ok infos =>
      rw [Start_of_descriptors seed reply hd] at hev
      simp only [Socket.send, Socket.recv, List.append_assoc, List.singleton_append,
        List.append_cancel_left_eq, List.cons.injEq, SocketEvent.send.injEq,
        Wrapper.sim_init_msg.injEq, and_true] at hev
      rw [← hev]
      exact nodeDescriptors_triggers_positive hd

theorem Start_walk_trigger_witness :
    walkTrigger (sampleWalker "Time" 1000000000 0) = .ok (WalkTrigger.time_value 1000000000) ∧
    Failed (walkTrigger (sampleWalker "Time" 0 5)) ∧
    walkTrigger (sampleWalker "Distance" 0 5) = .ok (WalkTrigger.distance_value 5) ∧
    Failed (walkTrigger (sampleWalker "Distance" 1000000000 0)) ∧
    Failed (sampleHelper.Start 7
      [{ id := 3, mobility := some (sampleWalker "Distance" 1000000000 0) }]
      (some Wrapper.sim_ack)).1 ∧
    (sampleHelper.initMessage 7
      [{ id := 0, mobility := NodeMobility.constant_position_model { x := 7 } },
       { id := 2, mobility := NodeMobility.random_walk_model { x := 1, y := 2, z := 3 }
          (WalkTrigger.time_value 1000000000) (RandomVariableStreamMsg.uniform 1 2)
          (RandomVariableStreamMsg.normal 0 4) }]).triggersPositive := by
  have hbad : Failed (walkTrigger (sampleWalker "Distance" 1000000000 0)) :=
    ((Start_walk_trigger sampleHelper 7 [] none { id := 3, mobility := none }
      (sampleWalker "Distance" 1000000000 0)).2.1 (by decide)).1
      (by norm_num [sampleWalker])
  refine ⟨?_, ?_, ?_, hbad, ?_, ?_⟩
  · exact ((Start_walk_trigger sampleHelper 7 [] none { id := 3, mobility := none }
      (sampleWalker "Time" 1000000000 0)).1 rfl).2 (by decide)
  · exact ((Start_walk_trigger sampleHelper 7 [] none { id := 3, mobility := none }
      (sampleWalker "Time" 0 5)).1 rfl).1 (by decide)
  · exact ((Start_walk_trigger sampleHelper 7 [] none { id := 3, mobility := none }
      (sampleWalker "Distance" 0 5)).2.1 (by decide)).2 (by norm_num [sampleWalker])
  · exact ((Start_walk_trigger sampleHelper 7
      [{ id := 3, mobility := some (sampleWalker "Distance" 1000000000 0) }]
      (some Wrapper.sim_ack)
      { id := 3, mobility := some (sampleWalker "Distance" 1000000000 0) }
      (sampleWalker "Distance" 1000000000 0)).2.2.2.1 (List.mem_singleton.2 rfl) rfl rfl rfl
      hbad).1
  · exact (Start_walk_trigger sampleHelper 7 sampleNodes (some Wrapper.sim_ack)
      { id := 3, mobility := none } (sampleWalker "Time" 1000000000 0)).2.2.2.2 _ rfl

/-! ## Random-variable descriptors -/

/-- C19: `RandomVariableStreamMessage` sets exactly one variant and copies its parameters: a
uniform variable gives `uniform` with its min and max, a constant variable `constant` with its
constant, a normal variable `normal` with its mean and variance; for any other type the call
stops on a fatal error and the message is left as it was, so a fresh message has no variant
set. -/
theorem RandomVariableStreamMessage_variants (message : RandomVariableStreamMsg)
    (v : RandomVariableStream) :
    (v.typeName = "ns3::UniformRandomVariable" →
      SionnaHelper.RandomVariableStreamMessage message v
        = (.ok (), RandomVariableStreamMsg.uniform v.min v.max)) ∧
    (v.typeName = "ns3::ConstantRandomVariable" →
      SionnaHelper.RandomVariableStreamMessage message v
        = (.ok (), RandomVariableStreamMsg.constant v.constant)) ∧
    (v.typeName = "ns3::NormalRandomVariable" →
      SionnaHelper.RandomVariableStreamMessage message v
        = (.ok (), RandomVariableStreamMsg.normal v.mean v.variance)) ∧
    (v.typeName ≠ "ns3::UniformRandomVariable" → v.typeName ≠ "ns3::ConstantRandomVariable" →
      v.typeName ≠ "ns3::NormalRandomVariable" →
      Failed (SionnaHelper.RandomVariableStreamMessage message v).1 ∧
      (SionnaHelper.RandomVariableStreamMessage message v).2 = message ∧
      (SionnaHelper.RandomVariableStreamMessage RandomVariableStreamMsg.not_set v).2
        = RandomVariableStreamMsg.not_set) := by
  refine ⟨?_, ?_, ?_, ?_⟩
  · intro h
    simp [SionnaHelper.RandomVariableStreamMessage, h]
  · intro h
    have h1 : ¬ ("ns3::ConstantRandomVariable" = "ns3::UniformRandomVariable") := by decide
    simp [SionnaHelper.RandomVariableStreamMessage, h, h1]
  · intro h
    have h1 : ¬ ("ns3::NormalRandomVariable" = "ns3::UniformRandomVariable") := by decide
    have h2 : ¬ ("ns3::NormalRandomVariable" = "ns3::ConstantRandomVariable") := by decide
    simp [SionnaHelper.RandomVariableStreamMessage, h, h1, h2]
  · intro h1 h2 h3
    simp only [SionnaHelper.RandomVariableStreamMessage, h1, h2, h3, if_false]
    exact ⟨Failed_error _, trivial, trivial⟩

theorem RandomVariableStreamMessage_variants_witness :
    SionnaHelper.RandomVariableStreamMessage RandomVariableStreamMsg.not_set
        { typeName := "ns3::UniformRandomVariable", min := 1, max := 2 }
      = (.ok (), RandomVariableStreamMsg.uniform 1 2) ∧
    SionnaHelper.RandomVariableStreamMessage RandomVariableStreamMsg.not_set
        { typeName := "ns3::ConstantRandomVariable", constant := 3 }
      = (.ok (), RandomVariableStreamMsg.constant 3) ∧
    SionnaHelper.RandomVariableStreamMessage RandomVariableStreamMsg.not_set
        { typeName := "ns3::NormalRandomVariable", mean := 0, variance := 4 }
      = (.ok (), RandomVariableStreamMsg.normal 0 4) ∧
    (SionnaHelper.RandomVariableStreamMessage RandomVariableStreamMsg.not_set
        { typeName := "ns3::ExponentialRandomVariable", mean := 1 }).2
      = RandomVariableStreamMsg.not_set :=
  ⟨(RandomVariableStreamMessage_variants RandomVariableStreamMsg.not_set
      { typeName := "ns3::UniformRandomVariable", min := 1, max := 2 }).1 rfl,
    (RandomVariableStreamMessage_variants RandomVariableStreamMsg.not_set
      { typeName := "ns3::ConstantRandomVariable", constant := 3 }).2.1 rfl,
    (RandomVariableStreamMessage_variants RandomVariableStreamMsg.not_set
      { typeName := "ns3::NormalRandomVariable", mean := 0, variance := 4 }).2.2.1 rfl,
    ((RandomVariableStreamMessage_variants RandomVariableStreamMsg.not_set
      { typeName := "ns3::ExponentialRandomVariable", mean := 1 }).2.2.2
      (by decide) (by decide) (by decide)).2.1⟩

/-! ## Surface descriptors -/

/-- C20 (the code at a failing input): with the controller of `example-sionna-ris.cc`
registered, at position (14, 5, 2) and looking at (10, 5, 2), the initialization message that
`Start` sends holds one surface descriptor with id 0 whose position and look-at are both
(0, 0, 0), not those of the controller. -/
theorem Start_ris_descriptor_not_copied :
    ((sampleHelper.SetRIS [sampleRis]).Start 7 [] (some Wrapper.sim_ack)).2.m_zmq_socket.events
      = [SocketEvent.send (Wrapper.sim_init_msg
            ((sampleHelper.SetRIS [sampleRis]).initMessage 7 [])),
          SocketEvent.recv (some Wrapper.sim_ack)] ∧
    ((sampleHelper.SetRIS [sampleRis]).initMessage 7 []).ris
      = [{ id := 0, position := { x := 0, y := 0, z := 0 },
           lookat := { x := 0, y := 0, z := 0 } }] ∧
    (((sampleHelper.SetRIS [sampleRis]).initMessage 7 []).ris.map (fun r => r.position)
      ≠ (sampleHelper.SetRIS [sampleRis]).m_ris_controllers.map (fun c => c.position)) ∧
    (((sampleHelper.SetRIS [sampleRis]).initMessage 7 []).ris.map (fun r => r.lookat)
      ≠ (sampleHelper.SetRIS [sampleRis]).m_ris_controllers.map (fun c => c.lookAt)) := by
  refine ⟨rfl, rfl, ?_, ?_⟩
  · intro h
    have h2 : ((sampleHelper.SetRIS [sampleRis]).initMessage 7 []).ris.map (fun r => r.position)
        = [{ x := 0, y := 0, z := 0 }] := rfl
    rw [h2] at h
    simp [SionnaHelper.SetRIS, sampleRis] at h
  · intro h
    have h2 : ((sampleHelper.SetRIS [sampleRis]).initMessage 7 []).ris.map (fun r => r.lookat)
        = [{ x := 0, y := 0, z := 0 }] := rfl
    rw [h2] at h
    simp [SionnaHelper.SetRIS, sampleRis] at h

/-! ## The configuration of the session -/

/-- C21: after `Configure (frequency, bandwidth)` and after `SetChannelBandwidth (bandwidth)`,
`GetNoiseFloor` returns `10 * log10 (5 * 1.3803e-23 * 293 * bandwidth / 1e-3)`, and the value
after `Configure` is the same for any two frequencies. -/
theorem noise_floor_formula (log10 : ℚ → ℚ) (self : SionnaHelper)
    (frequency frequency2 channel_bw : ℚ) :
    (self.Configure log10 frequency channel_bw).GetNoiseFloor
      = 10 * log10 (5 * (13803 / 10 ^ 27) * 293 * channel_bw / (1 / 1000)) ∧
    (self.SetChannelBandwidth log10 channel_bw).GetNoiseFloor
      = 10 * log10 (5 * (13803 / 10 ^ 27) * 293 * channel_bw / (1 / 1000)) ∧
    (self.Configure log10 frequency channel_bw).GetNoiseFloor
      = (self.Configure log10 frequency2 channel_bw).GetNoiseFloor := by
  have harg : 5 * (BOLTZMANN * 293 * channel_bw) / (1 / 1000)
      = 5 * (13803 / 10 ^ 27) * 293 * channel_bw / (1 / 1000) := by
    unfold BOLTZMANN
    ring
  refine ⟨?_, ?_, rfl⟩
  · show 10 * log10 (5 * (BOLTZMANN * 293 * channel_bw) / (1 / 1000)) = _
    rw [harg]
  · show 10 * log10 (5 * (BOLTZMANN * 293 * channel_bw) / (1 / 1000)) = _
    rw [harg]

theorem truncToZero_natCast (n : Nat) : truncToZero (n : ℚ) = (n : Int) := by
  have h : (0 : ℚ) ≤ (n : ℚ) := Nat.cast_nonneg n
  simp only [truncToZero, h, if_true]
  exact_mod_cast Int.floor_natCast (α := ℚ) n

theorem doubleToInt_range (x : ℚ) : INT_MIN ≤ doubleToInt x ∧ doubleToInt x ≤ INT_MAX := by
  unfold doubleToInt
  split
  · assumption
  · exact ⟨le_refl _, by decide⟩

theorem doubleToInt_of_fits (x : ℚ) (h : INT_MIN ≤ truncToZero x ∧ truncToZero x ≤ INT_MAX) :
    doubleToInt x = truncToZero x := by
  unfold doubleToInt
  rw [if_pos h]

theorem doubleToInt_of_not_fits (x : ℚ)
    (h : ¬ (INT_MIN ≤ truncToZero x ∧ truncToZero x ≤ INT_MAX)) :
    doubleToInt x = INT_MIN := by
  unfold doubleToInt
  rw [if_neg h]

theorem truncToZero_fits_of_nonneg (x : ℚ) (h0 : 0 ≤ x) (hx : x < 2147483648) :
    INT_MIN ≤ truncToZero x ∧ truncToZero x ≤ INT_MAX := by
  simp only [truncToZero, h0, if_true]
  have h1 : (0 : Int) ≤ ⌊x⌋ := Int.floor_nonneg.2 h0
  have h2 : ⌊x⌋ < 2147483648 := Int.floor_lt.2 (by exact_mod_cast hx)
  unfold INT_MIN INT_MAX
  constructor <;> omega

theorem truncToZero_fits_of_neg (x : ℚ) (h0 : x < 0) (hx : -2147483649 < x) :
    INT_MIN ≤ truncToZero x ∧ truncToZero x ≤ INT_MAX := by
  have hn : ¬ (0 : ℚ) ≤ x := not_le.2 h0
  simp only [truncToZero, hn, if_false]
  have h1 : ⌈x⌉ ≤ 0 := Int.ceil_le.2 (by exact_mod_cast h0.le)
  have h2 : (-2147483649 : Int) < ⌈x⌉ := Int.lt_ceil.2 (by exact_mod_cast hx)
  unfold INT_MIN INT_MAX
  constructor <;> omega

theorem doubleToInt_natCast (n : Nat) (h : (n : Int) ≤ INT_MAX) :
    doubleToInt (n : ℚ) = (n : Int) := by
  rw [doubleToInt_of_fits, truncToZero_natCast]
  rw [truncToZero_natCast]
  refine ⟨?_, h⟩
  unfold INT_MIN
  omega

/-- C22 (counterexample): a bandwidth of 35000000 times 20 MHz is a positive integer multiple of
20 MHz, but `64 * 35000000 = 2240000000` is above the largest `int`, 2147483647; after
`Configure` the FFT size is an `int`, so it is not `64 * 35000000`: the conversion of
2240000000.0 to `int` does not fit (the model holds `INT_MIN` there). -/
theorem Configure_fft_size_overflow :
    (0 : Nat) < 35000000 ∧
    INT_MAX < 64 * ((35000000 : Nat) : Int) ∧
    truncToZero (64 * ((((35000000 : Nat) : ℚ) * 20000000) / 20000000)) = 2240000000 ∧
    (sampleHelper.Configure sampleLog10 2412000000 (((35000000 : Nat) : ℚ) * 20000000)).m_fft_size
      ≤ INT_MAX ∧
    (sampleHelper.Configure sampleLog10 2412000000 (((35000000 : Nat) : ℚ) * 20000000)).m_fft_size
      ≠ 64 * ((35000000 : Nat) : Int) ∧
    (sampleHelper.Configure sampleLog10 2412000000 (((35000000 : Nat) : ℚ) * 20000000)).m_fft_size
      = INT_MIN := by
  have harg : (64 : ℚ) * ((((35000000 : Nat) : ℚ) * 20000000) / 20000000)
      = ((2240000000 : Nat) : ℚ) := by norm_num
  have htr : truncToZero (64 * ((((35000000 : Nat) : ℚ) * 20000000) / 20000000))
      = 2240000000 := by
    rw [harg, truncToZero_natCast]
    rfl
  have hfft : (sampleHelper.Configure sampleLog10 2412000000
      (((35000000 : Nat) : ℚ) * 20000000)).m_fft_size = INT_MIN := by
    show doubleToInt (64 * ((((35000000 : Nat) : ℚ) * 20000000) / 20000000)) = INT_MIN
    apply doubleToInt_of_not_fits
    rw [htr]
    unfold INT_MIN INT_MAX
    omega
  refine ⟨by decide, by decide, htr, ?_, ?_, hfft⟩
  · rw [hfft]
    decide
  · rw [hfft]
    decide

/-- C22 (amended): `Configure (frequency, bandwidth)` stores the frequency and the bandwidth; the
FFT size it sets is an `int`, and whenever `64 * bandwidth / 20 MHz` with its fractional part
discarded fits an `int` (the quotient is below 2147483648 for a non-negative bandwidth, above
-2147483649 for a negative one) the FFT size is that value (rounded down for a non-negative
bandwidth, up for a negative one); for a bandwidth of `k` times 20 MHz with `k > 0` and
`64 * k <= 2147483647`, the FFT size is `64 * k`; scenario, mode, sub-mode, registered surfaces
and the socket are unchanged. -/
theorem Configure_fields (log10 : ℚ → ℚ) (self : SionnaHelper) (frequency channel_bw : ℚ)
    (k : Nat) :
    (self.Configure log10 frequency channel_bw).m_frequency = frequency ∧
    (self.Configure log10 frequency channel_bw).m_channel_bw = channel_bw ∧
    (self.Configure log10 frequency channel_bw).m_fft_size
      = doubleToInt (64 * channel_bw / 20000000) ∧
    (INT_MIN ≤ (self.Configure log10 frequency channel_bw).m_fft_size ∧
      (self.Configure log10 frequency channel_bw).m_fft_size ≤ INT_MAX) ∧
    (INT_MIN ≤ truncToZero (64 * channel_bw / 20000000) →
      truncToZero (64 * channel_bw / 20000000) ≤ INT_MAX →
      (self.Configure log10 frequency channel_bw).m_fft_size
        = truncToZero (64 * channel_bw / 20000000)) ∧
    (0 ≤ channel_bw → 64 * channel_bw / 20000000 < 2147483648 →
      (((self.Configure log10 frequency channel_bw).m_fft_size : Int) : ℚ)
          ≤ 64 * channel_bw / 20000000 ∧
        64 * channel_bw / 20000000
          < (((self.Configure log10 frequency channel_bw).m_fft_size : Int) : ℚ) + 1) ∧
    (channel_bw < 0 → -2147483649 < 64 * channel_bw / 20000000 →
      64 * channel_bw / 20000000
          ≤ (((self.Configure log10 frequency channel_bw).m_fft_size : Int) : ℚ) ∧
        (((self.Configure log10 frequency channel_bw).m_fft_size : Int) : ℚ) - 1
          < 64 * channel_bw / 20000000) ∧
    (0 < k → 64 * (k : Int) ≤ INT_MAX →
      (self.Configure log10 frequency ((k : ℚ) * 20000000)).m_fft_size = 64 * (k : Int)) ∧
    (self.Configure log10 frequency channel_bw).m_mode = self.m_mode ∧
    (self.Configure log10 frequency channel_bw).m_sub_mode = self.m_sub_mode ∧
    (self.Configure log10 frequency channel_bw).m_environment = self.m_environment ∧
    (self.Configure log10 frequency channel_bw).m_ris_controllers = self.m_ris_controllers ∧
    (self.Configure log10 frequency channel_bw).m_zmq_socket = self.m_zmq_socket := by
  have hfft : (self.Configure log10 frequency channel_bw).m_fft_size
      = doubleToInt (64 * channel_bw / 20000000) := by
    show doubleToInt (64 * (channel_bw / 20000000)) = _
    rw [mul_div_assoc]
  refine ⟨rfl, rfl, hfft, ?_, ?_, ?_, ?_, ?_, rfl, rfl, rfl, rfl, rfl⟩
  · rw [hfft]
    exact doubleToInt_range _
  · intro h1 h2
    rw [hfft]
    exact doubleToInt_of_fits _ ⟨h1, h2⟩
  · intro hbw hlt
    have hx : (0 : ℚ) ≤ 64 * channel_bw / 20000000 := by positivity
    rw [hfft, doubleToInt_of_fits _ (truncToZero_fits_of_nonneg _ hx hlt)]
    simp only [truncToZero, hx, if_true]
    exact ⟨Int.floor_le _, Int.lt_floor_add_one _⟩
  · intro hbw hgt
    have hneg : 64 * channel_bw / 20000000 < 0 := by
      have : 64 * channel_bw / 20000000 = channel_bw * (64 / 20000000) := by ring
      rw [this]
      exact mul_neg_of_neg_of_pos hbw (by norm_num)
    have hx : ¬ (0 : ℚ) ≤ 64 * channel_bw / 20000000 := not_le.2 hneg
    rw [hfft, doubleToInt_of_fits _ (truncToZero_fits_of_neg _ hneg hgt)]
    simp only [truncToZero, hx, if_false]
    constructor
    · exact Int.le_ceil _
    · have := Int.ceil_lt_add_one (64 * channel_bw / 20000000)
      linarith
  · intro _ hk
    show doubleToInt (64 * ((k : ℚ) * 20000000 / 20000000)) = 64 * (k : Int)
    have : (64 : ℚ) * ((k : ℚ) * 20000000 / 20000000) = ((64 * k : Nat) : ℚ) := by
      push_cast
      field_simp
    rw [this, doubleToInt_natCast _ (by push_cast; exact hk)]
    push_cast
    rfl

theorem Configure_fields_witness :
    (sampleHelper.Configure (fun x => x) 5180000000 20000000).m_fft_size = 64 ∧
    (sampleHelper.Configure (fun x => x) 5180000000 40000000).m_fft_size = 128 ∧
    (sampleHelper.Configure (fun x => x) 5180000000 80000000).m_fft_size = 256 := by
  have h1 := (Configure_fields (fun x => x) sampleHelper 5180000000 20000000 1).2.2.2.2.2.2.2.1
    (by decide) (by decide)
  have h2 := (Configure_fields (fun x => x) sampleHelper 5180000000 20000000 2).2.2.2.2.2.2.2.1
    (by decide) (by decide)
  have h4 := (Configure_fields (fun x => x) sampleHelper 5180000000 20000000 4).2.2.2.2.2.2.2.1
    (by decide) (by decide)
  norm_num at h1 h2 h4
  exact ⟨h1, h2, h4⟩

/-! ## The order of the keys -/

/-- C27: `CacheKey::operator<` is the lexicographic order on `(m_first, m_second)`; it is
irreflexive and transitive, and for two keys exactly one of `k1 < k2`, `k2 < k1`, and
"both fields equal" holds; so two keys built by the constructor are equivalent in the map
exactly when they are built from the same unordered pair of ids. -/
theorem CacheKey_lt_strict_total (k1 k2 k3 : CacheKey) (a b c d : Nat) :
    (k1.lt k2 = true ↔
      (k1.m_first < k2.m_first ∨ (k1.m_first = k2.m_first ∧ k1.m_second < k2.m_second))) ∧
    k1.lt k1 = false ∧
    (k1.lt k2 = true → k2.lt k3 = true → k1.lt k3 = true) ∧
    ((k1.lt k2 = true ∧ k2.lt k1 = false ∧
        ¬ (k1.m_first = k2.m_first ∧ k1.m_second = k2.m_second)) ∨
      (k1.lt k2 = false ∧ k2.lt k1 = true ∧
        ¬ (k1.m_first = k2.m_first ∧ k1.m_second = k2.m_second)) ∨
      (k1.lt k2 = false ∧ k2.lt k1 = false ∧
        (k1.m_first = k2.m_first ∧ k1.m_second = k2.m_second))) ∧
    (k1.equiv k2 = true ↔ (k1.m_first = k2.m_first ∧ k1.m_second = k2.m_second)) ∧
    ((CacheKey.ctor a b).equiv (CacheKey.ctor c d) = true ↔ samePair a b c d) := by
  have hlt : ∀ x y : CacheKey, x.lt y = true ↔
      (x.m_first < y.m_first ∨ (x.m_first = y.m_first ∧ x.m_second < y.m_second)) := by
    intro x y
    unfold CacheKey.lt
    by_cases h : x.m_first = y.m_first
    · simp [h]
    · simp only [ne_eq, h, not_false_eq_true, if_true, decide_eq_true_eq, false_and, or_false]
  have hnlt : ∀ x y : CacheKey, x.lt y = false ↔
      ¬ (x.m_first < y.m_first ∨ (x.m_first = y.m_first ∧ x.m_second < y.m_second)) := by
    intro x y
    rw [← hlt, Bool.not_eq_true]
  refine ⟨hlt k1 k2, ?_, ?_, ?_, ?_, ?_⟩
  · rw [hnlt]; omega
  · intro h12 h23
    rw [hlt] at h12 h23 ⊢
    omega
  · rw [hlt k1 k2, hlt k2 k1, hnlt k1 k2, hnlt k2 k1]
    omega
  · rw [CacheKey.equiv_iff]
    cases k1; cases k2
    simp
  · rw [CacheKey.equiv_iff, CacheKey.ctor_eq_iff]

theorem CacheKey_lt_strict_total_witness :
    (CacheKey.ctor 3 1).lt (CacheKey.ctor 2 5) = true ∧
    (CacheKey.ctor 3 1).lt (CacheKey.ctor 7 2) = true ∧
    (CacheKey.ctor 4 9).equiv (CacheKey.ctor 9 4) = true :=
  ⟨by decide,
    (CacheKey_lt_strict_total (CacheKey.ctor 3 1) (CacheKey.ctor 2 5) (CacheKey.ctor 7 2)
      4 9 9 4).2.2.1 (by decide) (by decide),
    (CacheKey_lt_strict_total (CacheKey.ctor 3 1) (CacheKey.ctor 2 5) (CacheKey.ctor 7 2)
      4 9 9 4).2.2.2.2.2.2 (by decide)⟩

/-! ## The entry returned when the fetch does not cover the request -/

theorem GetPropagationData_of_response {self : SionnaPropagationCache} {helper : SionnaHelper}
    {a b : MobilityModel} {id_a id_b : Nat} (now : Time) (resp : ChannelStateResponse)
    (hv : ValidCall self helper a b id_a id_b)
    (hc : (checkCache self.m_caching self.m_cache id_a id_b now).2 = none) :
    (self.GetPropagationData a b now (some (Wrapper.channel_state_response resp))).1
      = .ok ((firstCovering now
          (Cache.entries (checkCache self.m_caching self.m_cache id_a id_b now).1
              (CacheKey.ctor id_a id_b)
            ++ responseEntriesFor resp.csi (CacheKey.ctor id_a id_b))).getD
          (CacheEntry.mk now (-1) now now)) ∧
    (self.GetPropagationData a b now (some (Wrapper.channel_state_response resp))).2.m_cache
      = fillCache (checkCache self.m_caching self.m_cache id_a id_b now).1 resp.csi := by
  rw [GetPropagationData_of_miss now _ hv hc]
  simp only
  rw [resultFromCache_eq, Cache.entries_fillCache]
  exact ⟨rfl, trivial⟩

/-- C26 (as stated, refuted): at time 250 with an empty store and a response without any
window, the round trip succeeds and the entry returned has loss -1 and start = end = 250, but
its delay is 250 ns, not a zero duration. -/
theorem dummy_entry_delay_not_zero :
    ((sampleCache true false []).GetPropagationData (sampleNode 1 0) (sampleNode 2 5) 250
        (some (Wrapper.channel_state_response { csi := [] }))).1
      = .ok (CacheEntry.mk 250 (-1) 250 250) ∧
    ¬ ∃ e, ((sampleCache true false []).GetPropagationData (sampleNode 1 0) (sampleNode 2 5)
        250 (some (Wrapper.channel_state_response { csi := [] }))).1 = .ok e ∧
      e.m_delay = 0 := by
  have h : ((sampleCache true false []).GetPropagationData (sampleNode 1 0) (sampleNode 2 5)
      250 (some (Wrapper.channel_state_response { csi := [] }))).1
      = .ok (CacheEntry.mk 250 (-1) 250 250) := rfl
  refine ⟨h, ?_⟩
  rintro ⟨e, he, hd⟩
  rw [h] at he
  cases he
  exact absurd hd (by decide)

/-- C26 (amended): when the round trip succeeds but, after the response is merged, no entry
stored for the requested pair contains `now`, `GetPropagationData` returns the entry with
loss -1 whose delay, start and end are all `now`. -/
theorem dummy_entry_returned (self : SionnaPropagationCache) (helper : SionnaHelper)
    (a b : MobilityModel) (id_a id_b : Nat) (now : Time) (resp : ChannelStateResponse)
    (hv : ValidCall self helper a b id_a id_b) (hmiss : IsMiss self id_a id_b now)
    (hnone : ∀ e ∈ Cache.entries
        (self.GetPropagationData a b now
          (some (Wrapper.channel_state_response resp))).2.m_cache (CacheKey.ctor id_a id_b),
      ¬ (e.m_start_time ≤ now ∧ now ≤ e.m_end_time)) :
    (self.GetPropagationData a b now (some (Wrapper.channel_state_response resp))).1
      = .ok (CacheEntry.mk now (-1) now now) := by
  have hc := (checkCache_miss_iff self id_a id_b now).2 hmiss
  obtain ⟨h1, h2⟩ := GetPropagationData_of_response now resp hv hc
  rw [h2, Cache.entries_fillCache] at hnone
  rw [h1]
  have hf : firstCovering now
      (Cache.entries (checkCache self.m_caching self.m_cache id_a id_b now).1
          (CacheKey.ctor id_a id_b)
        ++ responseEntriesFor resp.csi (CacheKey.ctor id_a id_b)) = none := by
    unfold firstCovering
    rw [List.find?_eq_none]
    intro e he
    have := hnone e he
    simpa [CacheEntry.covers] using this
  rw [hf]
  rfl

theorem dummy_entry_returned_witness :
    ((sampleCache true false sampleStore).GetPropagationData (sampleNode 1 0) (sampleNode 2 5)
        400 (some (Wrapper.channel_state_response sampleResponse))).1
      = .ok (CacheEntry.mk 400 (-1) 400 400) :=
  dummy_entry_returned (sampleCache true false sampleStore) sampleHelper (sampleNode 1 0)
    (sampleNode 2 5) 1 2 400 sampleResponse ⟨rfl, rfl, rfl, rfl, rfl⟩ (by decide) (by decide)

/-! ## Direction symmetry -/

theorem checkCache_comm (m_caching : Bool) (c : Cache) (id_a id_b : Nat) (t : Time) :
    checkCache m_caching c id_b id_a t = checkCache m_caching c id_a id_b t := by
  rw [checkCache_eq, checkCache_eq, CacheKey.ctor_comm id_b id_a]

theorem resultFromCache_comm (c : Cache) (id_a id_b : Nat) (t : Time) :
    resultFromCache c id_b id_a t = resultFromCache c id_a id_b t := by
  rw [resultFromCache_eq, resultFromCache_eq, CacheKey.ctor_comm id_b id_a]

theorem IsMiss_comm (self : SionnaPropagationCache) (id_a id_b : Nat) (now : Time) :
    IsMiss self id_b id_a now ↔ IsMiss self id_a id_b now := by
  unfold IsMiss
  rw [CacheKey.ctor_comm id_b id_a]

theorem ValidCall.swap {self : SionnaPropagationCache} {helper : SionnaHelper}
    {a b : MobilityModel} {id_a id_b : Nat} (hv : ValidCall self helper a b id_a id_b) :
    ValidCall self helper b a id_b id_a :=
  ⟨hv.1, hv.2.2.1, hv.2.1, hv.2.2.2.2, hv.2.2.2.1⟩

/-- C28: from the same state, at the same time and with the same reply,
`GetPropagationData (a, b)` and `GetPropagationData (b, a)` take the same branch, return the
same outcome and leave the same store and counters; the resulting states are equal up to the
helper, on a hit they are equal, and on a miss the socket histories differ only in the order
of `tx_node` and `rx_node` in the request sent. -/
theorem direction_symmetric (self : SionnaPropagationCache) (helper : SionnaHelper)
    (a b : MobilityModel) (id_a id_b : Nat) (now : Time) (reply : Option Wrapper)
    (hv : ValidCall self helper a b id_a id_b) :
    (IsMiss self id_a id_b now ↔ IsMiss self id_b id_a now) ∧
    (self.GetPropagationData a b now reply).1 = (self.GetPropagationData b a now reply).1 ∧
    (self.GetPropagationData a b now reply).2.m_cache
      = (self.GetPropagationData b a now reply).2.m_cache ∧
    (self.GetPropagationData a b now reply).2.m_cache_hits
      = (self.GetPropagationData b a now reply).2.m_cache_hits ∧
    (self.GetPropagationData a b now reply).2.m_cache_miss
      = (self.GetPropagationData b a now reply).2.m_cache_miss ∧
    (∀ h, (self.GetPropagationData a b now reply).2.SetSionnaHelper h
      = (self.GetPropagationData b a now reply).2.SetSionnaHelper h) ∧
    (¬ IsMiss self id_a id_b now →
      (self.GetPropagationData a b now reply).2 = (self.GetPropagationData b a now reply).2) ∧
    (IsMiss self id_a id_b now →
      (self.GetPropagationData a b now reply).2.socketEvents = self.socketEvents ++
        [SocketEvent.send (Wrapper.channel_state_request
            { tx_node := id_a, rx_node := id_b, time := now }), SocketEvent.recv reply] ∧
      (self.GetPropagationData b a now reply).2.socketEvents = self.socketEvents ++
        [SocketEvent.send (Wrapper.channel_state_request
            { tx_node := id_b, rx_node := id_a, time := now }), SocketEvent.recv reply]) := by
  have hsw := hv.swap
  refine ⟨(IsMiss_comm self id_a id_b now).symm, ?_⟩
  cases hc : (checkCache self.m_caching self.m_cache id_a id_b now).2 with
  | some e =>
    have hc2 : (checkCache self.m_caching self.m_cache id_b id_a now).2 = some e := by
      rw [checkCache_comm]; exact hc
    have hnm : ¬ IsMiss self id_a id_b now := by
      intro hm
      rw [(checkCache_miss_iff self id_a id_b now).2 hm] at hc
      cases hc
    rw [GetPropagationData_of_hit now reply hv hc, GetPropagationData_of_hit now reply hsw hc2,
      checkCache_comm]
    exact ⟨rfl, rfl, rfl, rfl, fun _ => rfl, fun _ => rfl, fun hm => absurd hm hnm⟩
  | none =>
    have hc2 : (checkCache self.m_caching self.m_cache id_b id_a now).2 = none := by
      rw [checkCache_comm]; exact hc
    have hm : IsMiss self id_a id_b now := (checkCache_miss_iff self id_a id_b now).1 hc
    rw [GetPropagationData_of_miss now reply hv hc, GetPropagationData_of_miss now reply hsw hc2,
      checkCache_comm, socketEvents_of_helper hv.1]
    cases reply with
    | none =>
      exact ⟨rfl, rfl, rfl, rfl, fun _ => rfl, fun hn => absurd hm hn, fun _ =>
        ⟨by simp [SionnaPropagationCache.socketEvents, Socket.send, Socket.recv],
          by simp [SionnaPropagationCache.socketEvents, Socket.send, Socket.recv]⟩⟩
    | some w =>
      cases w with
      | channel_state_response r =>
        simp only [resultFromCache_comm]
        exact ⟨trivial, trivial, trivial, trivial, fun _ => rfl, fun hn => absurd hm hn, fun _ =>
          ⟨by simp [SionnaPropagationCache.socketEvents, Socket.send, Socket.recv],
            by simp [SionnaPropagationCache.socketEvents, Socket.send, Socket.recv]⟩⟩
      | not_set =>
        exact ⟨rfl, rfl, rfl, rfl, fun _ => rfl, fun hn => absurd hm hn, fun _ =>
          ⟨by simp [SionnaPropagationCache.socketEvents, Socket.send, Socket.recv],
            by simp [SionnaPropagationCache.socketEvents, Socket.send, Socket.recv]⟩⟩
      | sim_init_msg m =>
        exact ⟨rfl, rfl, rfl, rfl, fun _ => rfl, fun hn => absurd hm hn, fun _ =>
          ⟨by simp [SionnaPropagationCache.socketEvents, Socket.send, Socket.recv],
            by simp [SionnaPropagationCache.socketEvents, Socket.send, Socket.recv]⟩⟩
      | sim_ack =>
        exact ⟨rfl, rfl, rfl, rfl, fun _ => rfl, fun hn => absurd hm hn, fun _ =>
          ⟨by simp [SionnaPropagationCache.socketEvents, Socket.send, Socket.recv],
            by simp [SionnaPropagationCache.socketEvents, Socket.send, Socket.recv]⟩⟩
      | sim_close_request =>
        exact ⟨rfl, rfl, rfl, rfl, fun _ => rfl, fun hn => absurd hm hn, fun _ =>
          ⟨by simp [SionnaPropagationCache.socketEvents, Socket.send, Socket.recv],
            by simp [SionnaPropagationCache.socketEvents, Socket.send, Socket.recv]⟩⟩
      | channel_state_request r =>
        exact ⟨rfl, rfl, rfl, rfl, fun _ => rfl, fun hn => absurd hm hn, fun _ =>
          ⟨by simp [SionnaPropagationCache.socketEvents, Socket.send, Socket.recv],
            by simp [SionnaPropagationCache.socketEvents, Socket.send, Socket.recv]⟩⟩

theorem direction_symmetric_witness :
    ((sampleCache true false sampleStore).GetPropagationData (sampleNode 1 0) (sampleNode 2 5)
        50 none).2
      = ((sampleCache true false sampleStore).GetPropagationData (sampleNode 2 5)
        (sampleNode 1 0) 50 none).2 ∧
    ((sampleCache true false sampleStore).GetPropagationData (sampleNode 1 0) (sampleNode 2 5)
        250 (some (Wrapper.channel_state_response sampleResponse))).1
      = ((sampleCache true false sampleStore).GetPropagationData (sampleNode 2 5)
        (sampleNode 1 0) 250 (some (Wrapper.channel_state_response sampleResponse))).1 :=
  ⟨(direction_symmetric (sampleCache true false sampleStore) sampleHelper (sampleNode 1 0)
      (sampleNode 2 5) 1 2 50 none ⟨rfl, rfl, rfl, rfl, rfl⟩).2.2.2.2.2.2.1 (by decide),
    (direction_symmetric (sampleCache true false sampleStore) sampleHelper (sampleNode 1 0)
      (sampleNode 2 5) 1 2 250 (some (Wrapper.channel_state_response sampleResponse))
      ⟨rfl, rfl, rfl, rfl, rfl⟩).2.1⟩

/-! ## Caching disabled: the store still answers -/

/-- C30: with caching disabled the call prunes nothing: for every key the list after the call
is the list before it followed by what the call appended, which for a channel-state response
are the response's entries of that key; the entry returned is the first entry containing `now`
of the old list of the pair followed by the fetched entries of the pair (the dummy entry if
there is none), so an old entry containing `now` is returned rather than a fetched one. -/
theorem caching_disabled_store_grows (self : SionnaPropagationCache) (helper : SionnaHelper)
    (a b : MobilityModel) (id_a id_b : Nat) (now : Time) (reply : Option Wrapper)
    (resp : ChannelStateResponse)
    (hv : ValidCall self helper a b id_a id_b) (hoff : self.m_caching = false) :
    (∀ k, ∃ added, Cache.entries (self.GetPropagationData a b now reply).2.m_cache k
      = Cache.entries self.m_cache k ++ added) ∧
    (∀ k, Cache.entries (self.GetPropagationData a b now
          (some (Wrapper.channel_state_response resp))).2.m_cache k
      = Cache.entries self.m_cache k ++ responseEntriesFor resp.csi k) ∧
    (self.GetPropagationData a b now (some (Wrapper.channel_state_response resp))).1
      = .ok ((firstCovering now (Cache.entries self.m_cache (CacheKey.ctor id_a id_b)
            ++ responseEntriesFor resp.csi (CacheKey.ctor id_a id_b))).getD
          (CacheEntry.mk now (-1) now now)) ∧
    (∀ e, firstCovering now (Cache.entries self.m_cache (CacheKey.ctor id_a id_b)) = some e →
      (self.GetPropagationData a b now (some (Wrapper.channel_state_response resp))).1
        = .ok e) := by
  have hc : (checkCache self.m_caching self.m_cache id_a id_b now).2 = none := by
    rw [checkCache_eq, hoff]; rfl
  have hc1 : (checkCache self.m_caching self.m_cache id_a id_b now).1 = self.m_cache := by
    rw [checkCache_eq, hoff]; rfl
  obtain ⟨h1, h2⟩ := GetPropagationData_of_response now resp hv hc
  rw [hc1] at h1 h2
  refine ⟨?_, ?_, h1, ?_⟩
  · intro k
    rw [GetPropagationData_of_miss now reply hv hc]
    simp only [hc1]
    cases reply with
    | none => exact ⟨[], by simp⟩
    | some w =>
      cases w with
      | channel_state_response r =>
        exact ⟨responseEntriesFor r.csi k, by simp [Cache.entries_fillCache]⟩
      | not_set => exact ⟨[], by simp⟩
      | sim_init_msg m => exact ⟨[], by simp⟩
      | sim_ack => exact ⟨[], by simp⟩
      | sim_close_request => exact ⟨[], by simp⟩
      | channel_state_request r => exact ⟨[], by simp⟩
  · intro k
    rw [h2, Cache.entries_fillCache]
  · intro e he
    rw [h1, firstCovering_append, he]
    rfl

theorem caching_disabled_store_grows_witness :
    ((sampleCache false false sampleStore).GetPropagationData (sampleNode 1 0) (sampleNode 2 5)
        160 (some (Wrapper.channel_state_response sampleResponse))).1
      = .ok (CacheEntry.mk 31 71 100 200) ∧
    Cache.entries ((sampleCache false false sampleStore).GetPropagationData (sampleNode 1 0)
        (sampleNode 2 5) 160 (some (Wrapper.channel_state_response sampleResponse))).2.m_cache
        (CacheKey.ctor 1 2)
      = [CacheEntry.mk 30 70 0 100, CacheEntry.mk 31 71 100 200, CacheEntry.mk 32 72 150 300] :=
  ⟨(caching_disabled_store_grows (sampleCache false false sampleStore) sampleHelper
      (sampleNode 1 0) (sampleNode 2 5) 1 2 160 none sampleResponse ⟨rfl, rfl, rfl, rfl, rfl⟩
      rfl).2.2.2 _ (by decide),
    (caching_disabled_store_grows (sampleCache false false sampleStore) sampleHelper
      (sampleNode 1 0) (sampleNode 2 5) 1 2 160 none sampleResponse ⟨rfl, rfl, rfl, rfl, rfl⟩
      rfl).2.1 (CacheKey.ctor 1 2)⟩

/-! ## Overlapping windows -/

theorem NonOverlapping_unexpired (t : Time) {l : List CacheEntry} (h : NonOverlapping l) :
    NonOverlapping (unexpired t l) :=
  List.Pairwise.sublist (List.filter_sublist l) h

theorem mem_unexpired {t : Time} {l : List CacheEntry} {e : CacheEntry}
    (h : e ∈ unexpired t l) : e ∈ l ∧ t ≤ e.m_end_time := by
  unfold unexpired at h
  rw [List.mem_filter] at h
  exact ⟨h.1, by simpa using h.2⟩

/-- C23 (as stated, refuted): node 1 looks up node 2 at time 0 and node 3 looks up node 2 at
time 10, each answered with the window [0, 1000] for the transmitter and its two receivers; the
key of the pair (1,3) then holds that window twice, once from each direction, and after the
lookup of (1,3) at time 20 has pruned the key, both entries are still stored and overlap. -/
theorem merged_windows_overlap :
    Cache.entries ((sampleTwoFetches.GetPropagationData (sampleNode 1 0) (sampleNode 3 9) 20
        none).2.m_cache) (CacheKey.ctor 1 3)
      = [CacheEntry.mk 23 75 0 1000, CacheEntry.mk 17 65 0 1000] ∧
    ¬ NonOverlapping (Cache.entries ((sampleTwoFetches.GetPropagationData (sampleNode 1 0)
        (sampleNode 3 9) 20 none).2.m_cache) (CacheKey.ctor 1 3)) := by
  have h : Cache.entries ((sampleTwoFetches.GetPropagationData (sampleNode 1 0)
      (sampleNode 3 9) 20 none).2.m_cache) (CacheKey.ctor 1 3)
      = [CacheEntry.mk 23 75 0 1000, CacheEntry.mk 17 65 0 1000] := by rfl
  refine ⟨h, ?_⟩
  rw [h]
  decide

/-- C23 (amended): pruning and searching never create an overlap.  After the cache check of a
lookup at `now` with caching enabled every entry left for the key has `m_end_time >= now`, and
if the windows stored for the key were pairwise non-overlapping before the check they still
are after it; a lookup that is a hit leaves every key's list non-overlapping if it was. -/
theorem pruning_keeps_non_overlap (self : SionnaPropagationCache) (helper : SionnaHelper)
    (a b : MobilityModel) (id_a id_b : Nat) (now : Time) (reply : Option Wrapper)
    (hv : ValidCall self helper a b id_a id_b) (hcaching : self.m_caching = true) :
    (∀ e ∈ Cache.entries (checkCache self.m_caching self.m_cache id_a id_b now).1
        (CacheKey.ctor id_a id_b), now ≤ e.m_end_time) ∧
    (NonOverlapping (Cache.entries self.m_cache (CacheKey.ctor id_a id_b)) →
      NonOverlapping (Cache.entries (checkCache self.m_caching self.m_cache id_a id_b now).1
        (CacheKey.ctor id_a id_b))) ∧
    (¬ IsMiss self id_a id_b now → ∀ k, NonOverlapping (Cache.entries self.m_cache k) →
      NonOverlapping (Cache.entries (self.GetPropagationData a b now reply).2.m_cache k)) := by
  have hent : ∀ k, Cache.entries (checkCache self.m_caching self.m_cache id_a id_b now).1 k
      = if k = CacheKey.ctor id_a id_b then unexpired now (Cache.entries self.m_cache k)
        else Cache.entries self.m_cache k := by
    intro k
    rw [checkCache_eq, hcaching]
    simp only [if_true]
    by_cases hk : k = CacheKey.ctor id_a id_b
    · rw [if_pos hk, hk, Cache.entries_modify_same _ _ _ rfl]
    · rw [if_neg hk, Cache.entries_modify_other _ _ hk]
  refine ⟨?_, ?_, ?_⟩
  · intro e he
    rw [hent, if_pos rfl] at he
    exact (mem_unexpired he).2
  · intro h
    rw [hent, if_pos rfl]
    exact NonOverlapping_unexpired now h
  · intro hhit k hk
    cases hc : (checkCache self.m_caching self.m_cache id_a id_b now).2 with
    | none => exact absurd ((checkCache_miss_iff self id_a id_b now).1 hc) hhit
    | some e =>
      rw [GetPropagationData_of_hit now reply hv hc]
      show NonOverlapping (Cache.entries
        (checkCache self.m_caching self.m_cache id_a id_b now).1 k)
      rw [hent]
      by_cases hkk : k = CacheKey.ctor id_a id_b
      · rw [if_pos hkk]
        exact NonOverlapping_unexpired now hk
      · rw [if_neg hkk]
        exact hk

theorem pruning_keeps_non_overlap_witness :
    NonOverlapping (Cache.entries (checkCache true
      [(CacheKey.ctor 1 2, [CacheEntry.mk 30 70 0 99, CacheEntry.mk 31 71 100 200])] 1 2
      150).1 (CacheKey.ctor 1 2)) :=
  (pruning_keeps_non_overlap
    (sampleCache true false
      [(CacheKey.ctor 1 2, [CacheEntry.mk 30 70 0 99, CacheEntry.mk 31 71 100 200])])
    sampleHelper (sampleNode 1 0) (sampleNode 2 5) 1 2 150 none ⟨rfl, rfl, rfl, rfl, rfl⟩
    rfl).2.1 (by decide)

/-! ## The frequency of the fallback model -/

theorem GetPropagationData_helper_indep (self : SionnaPropagationCache) (h1 h2 : SionnaHelper)
    (a b : MobilityModel) (now : Time) (reply : Option Wrapper) :
    ((self.SetSionnaHelper h1).GetPropagationData a b now reply).1
      = ((self.SetSionnaHelper h2).GetPropagationData a b now reply).1 ∧
    ((self.SetSionnaHelper h1).GetPropagationData a b now reply).2.m_cache
      = ((self.SetSionnaHelper h2).GetPropagationData a b now reply).2.m_cache ∧
    ((self.SetSionnaHelper h1).GetPropagationData a b now reply).2.m_cache_hits
      = ((self.SetSionnaHelper h2).GetPropagationData a b now reply).2.m_cache_hits ∧
    ((self.SetSionnaHelper h1).GetPropagationData a b now reply).2.m_cache_miss
      = ((self.SetSionnaHelper h2).GetPropagationData a b now reply).2.m_cache_miss := by
  unfold SionnaPropagationCache.GetPropagationData SionnaPropagationCache.SetSionnaHelper
  simp only
  by_cases hs : (a.isSionnaMobilityModel && b.isSionnaMobilityModel) = true
  · simp only [hs, Bool.not_true, Bool.false_eq_true, if_false]
    cases a.node with
    | none => exact ⟨rfl, rfl, rfl, rfl⟩
    | some id_a =>
      cases b.node with
      | none => exact ⟨rfl, rfl, rfl, rfl⟩
      | some id_b =>
        simp only
        cases checkCache self.m_caching self.m_cache id_a id_b now with
        | mk cache1 found =>
          cases found with
          | some e => exact ⟨rfl, rfl, rfl, rfl⟩
          | none =>
            cases reply with
            | none => exact ⟨rfl, rfl, rfl, rfl⟩
            | some w => cases w <;> exact ⟨rfl, rfl, rfl, rfl⟩
  · simp only [hs, Bool.not_false, if_true]
    exact ⟨trivial, trivial, trivial, trivial⟩

/-- C25 (as stated, refuted): a session configured for 2412 MHz and one configured for
5180 MHz leave the path-loss model of the attached cache at the frequency it was created with,
5150 MHz, which is neither of the two. -/
theorem friis_frequency_not_configured :
    (sampleHelper.Configure sampleLog10 2412000000 20000000).m_frequency = 2412000000 ∧
    (sampleHelper.Configure sampleLog10 5180000000 20000000).m_frequency = 5180000000 ∧
    ((SionnaPropagationCache.ctor sampleFriis sampleDelayModel).SetSionnaHelper
      (sampleHelper.Configure sampleLog10 2412000000 20000000)).m_friisLossModel.m_frequency
        = 5150000000 ∧
    ((SionnaPropagationCache.ctor sampleFriis sampleDelayModel).SetSionnaHelper
      (sampleHelper.Configure sampleLog10 5180000000 20000000)).m_friisLossModel.m_frequency
        = 5150000000 ∧
    ¬ (((SionnaPropagationCache.ctor sampleFriis sampleDelayModel).SetSionnaHelper
      (sampleHelper.Configure sampleLog10 2412000000 20000000)).m_friisLossModel.m_frequency
        = (sampleHelper.Configure sampleLog10 2412000000 20000000).m_frequency) := by
  refine ⟨rfl, rfl, rfl, rfl, ?_⟩
  show ¬ ((5150000000 : ℚ) = 2412000000)
  norm_num

theorem GetPropagationDelay_eq {self : SionnaPropagationCache} {helper : SionnaHelper}
    (a b : MobilityModel) (now : Time) (reply : Option Wrapper)
    (hh : self.m_sionnaHelper = some helper) :
    self.GetPropagationDelay a b now reply =
      if self.takesFallback 20 a b = true then
        (.ok (self.m_constSpeedDelayModel.GetDelay a b), self)
      else
        (((self.GetPropagationData a b now reply).1).map (fun e => e.m_delay),
          (self.GetPropagationData a b now reply).2) := by
  unfold SionnaPropagationCache.GetPropagationDelay SionnaPropagationCache.takesFallback
  simp only [hh, MAX_TXPOWER_DBM]
  cases self.m_optimize with
  | false => simp
  | true =>
    by_cases hlow : self.m_friisLossModel.CalcRxPower 20 a b + m_optimize_margin
        < helper.GetNoiseFloor
    · simp [hlow]
    · simp [hlow]

theorem GetPropagationLoss_eq {self : SionnaPropagationCache} {helper : SionnaHelper}
    (a b : MobilityModel) (txPowerDbm : ℚ) (now : Time) (reply : Option Wrapper)
    (hh : self.m_sionnaHelper = some helper) :
    self.GetPropagationLoss a b txPowerDbm now reply =
      if self.takesFallback txPowerDbm a b = true then
        (.ok ((-1) * (self.m_friisLossModel.CalcRxPower txPowerDbm a b - txPowerDbm)), self)
      else
        (((self.GetPropagationData a b now reply).1).map (fun e => e.m_loss),
          (self.GetPropagationData a b now reply).2) := by
  unfold SionnaPropagationCache.GetPropagationLoss SionnaPropagationCache.takesFallback
  simp only [hh]
  cases self.m_optimize with
  | false => simp
  | true =>
    by_cases hlow : self.m_friisLossModel.CalcRxPower txPowerDbm a b + m_optimize_margin
        < helper.GetNoiseFloor
    · simp [hlow]
    · simp [hlow]

/-- C25 (amended): the estimate that decides the fallback is computed by the path-loss model
the cache was constructed with; the frequency passed to `Configure` does not reach it.  For any
two frequencies and the same bandwidth the attached cache has the same path-loss model, takes
the fallback in the same cases, and `GetPropagationDelay` and `GetPropagationLoss` give the
same outcome and leave the same store. -/
theorem fallback_independent_of_frequency (log10 : ℚ → ℚ) (self : SionnaPropagationCache)
    (helper : SionnaHelper) (f1 f2 channel_bw txPowerDbm : ℚ) (a b : MobilityModel)
    (now : Time) (reply : Option Wrapper) :
    (self.SetSionnaHelper (helper.Configure log10 f1 channel_bw)).m_friisLossModel
      = self.m_friisLossModel ∧
    (self.SetSionnaHelper (helper.Configure log10 f1 channel_bw)).takesFallback txPowerDbm a b
      = (self.SetSionnaHelper (helper.Configure log10 f2 channel_bw)).takesFallback txPowerDbm
          a b ∧
    ((self.SetSionnaHelper (helper.Configure log10 f1 channel_bw)).GetPropagationDelay a b now
        reply).1
      = ((self.SetSionnaHelper (helper.Configure log10 f2 channel_bw)).GetPropagationDelay a b
        now reply).1 ∧
    ((self.SetSionnaHelper (helper.Configure log10 f1 channel_bw)).GetPropagationLoss a b
        txPowerDbm now reply).1
      = ((self.SetSionnaHelper (helper.Configure log10 f2 channel_bw)).GetPropagationLoss a b
        txPowerDbm now reply).1 ∧
    ((self.SetSionnaHelper (helper.Configure log10 f1 channel_bw)).GetPropagationDelay a b now
        reply).2.m_cache
      = ((self.SetSionnaHelper (helper.Configure log10 f2 channel_bw)).GetPropagationDelay a b
        now reply).2.m_cache ∧
    ((self.SetSionnaHelper (helper.Configure log10 f1 channel_bw)).GetPropagationLoss a b
        txPowerDbm now reply).2.m_cache
      = ((self.SetSionnaHelper (helper.Configure log10 f2 channel_bw)).GetPropagationLoss a b
        txPowerDbm now reply).2.m_cache := by
  obtain ⟨d1, d2, _, _⟩ := GetPropagationData_helper_indep self
    (helper.Configure log10 f1 channel_bw) (helper.Configure log10 f2 channel_bw) a b now reply
  have hf : ∀ tx, (self.SetSionnaHelper (helper.Configure log10 f1 channel_bw)).takesFallback
      tx a b = (self.SetSionnaHelper (helper.Configure log10 f2 channel_bw)).takesFallback
        tx a b := fun _ => rfl
  have e1 := @GetPropagationDelay_eq
    (self.SetSionnaHelper (helper.Configure log10 f1 channel_bw)) _ a b now reply rfl
  have e2 := @GetPropagationDelay_eq
    (self.SetSionnaHelper (helper.Configure log10 f2 channel_bw)) _ a b now reply rfl
  have l1 := @GetPropagationLoss_eq
    (self.SetSionnaHelper (helper.Configure log10 f1 channel_bw)) _ a b txPowerDbm now reply rfl
  have l2 := @GetPropagationLoss_eq
    (self.SetSionnaHelper (helper.Configure log10 f2 channel_bw)) _ a b txPowerDbm now reply rfl
  rw [e1, e2, l1, l2, hf 20, hf txPowerDbm]
  refine ⟨rfl, rfl, ?_, ?_, ?_, ?_⟩
  · cases (self.SetSionnaHelper (helper.Configure log10 f2 channel_bw)).takesFallback 20 a b
    · simp only [Bool.false_eq_true, if_false]
      rw [d1]
    · rfl
  · cases (self.SetSionnaHelper (helper.Configure log10 f2 channel_bw)).takesFallback
      txPowerDbm a b
    · simp only [Bool.false_eq_true, if_false]
      rw [d1]
    · rfl
  · cases (self.SetSionnaHelper (helper.Configure log10 f2 channel_bw)).takesFallback 20 a b
    · simp only [Bool.false_eq_true, if_false]
      exact d2
    · rfl
  · cases (self.SetSionnaHelper (helper.Configure log10 f2 channel_bw)).takesFallback
      txPowerDbm a b
    · simp only [Bool.false_eq_true, if_false]
      exact d2
    · rfl

/-! ## Expired entries stay out -/

theorem GetPropagationData_ok_covers {self : SionnaPropagationCache} {helper : SionnaHelper}
    {a b : MobilityModel} {id_a id_b : Nat} {now : Time} {reply : Option Wrapper}
    {e : CacheEntry} (hv : ValidCall self helper a b id_a id_b)
    (hr : (self.GetPropagationData a b now reply).1 = .ok e) : e.covers now := by
  cases hc : (checkCache self.m_caching self.m_cache id_a id_b now).2 with
  | some e1 =>
    rw [GetPropagationData_of_hit now reply hv hc] at hr
    cases hr
    rw [checkCache_eq] at hc
    cases hcach : self.m_caching with
    | false => simp [hcach] at hc
    | true =>
      simp only [hcach, if_true] at hc
      exact (firstCovering_covers hc).2
  | none =>
    rw [GetPropagationData_of_miss now reply hv hc] at hr
    cases reply with
    | none => cases hr
    | some w =>
      cases w with
      | channel_state_response r =>
        simp only at hr
        cases hr
        rw [resultFromCache_eq]
        cases hf : firstCovering now
            (Cache.entries (fillCache (checkCache self.m_caching self.m_cache id_a id_b now).1
              r.csi) (CacheKey.ctor id_a id_b)) with
        | none => exact ⟨le_refl _, le_refl _⟩
        | some e2 => exact (firstCovering_covers hf).2
      | not_set => cases hr
      | sim_init_msg m => cases hr
      | sim_ack => cases hr
      | sim_close_request => cases hr
      | channel_state_request r => cases hr

theorem GetPropagationData_preserves {self : SionnaPropagationCache} {helper : SionnaHelper}
    {a b : MobilityModel} {id_a id_b : Nat} (now : Time) (reply : Option Wrapper)
    (hv : ValidCall self helper a b id_a id_b) :
    (∃ helper1, ValidCall (self.GetPropagationData a b now reply).2 helper1 a b id_a id_b) ∧
    (self.GetPropagationData a b now reply).2.m_caching = self.m_caching ∧
    (self.GetPropagationData a b now reply).2.m_optimize = self.m_optimize := by
  cases hc : (checkCache self.m_caching self.m_cache id_a id_b now).2 with
  | some e1 =>
    rw [GetPropagationData_of_hit now reply hv hc]
    exact ⟨⟨helper, hv.1, hv.2⟩, rfl, rfl⟩
  | none =>
    rw [GetPropagationData_of_miss now reply hv hc]
    cases reply with
    | none => exact ⟨⟨_, rfl, hv.2⟩, rfl, rfl⟩
    | some w => cases w <;> exact ⟨⟨_, rfl, hv.2⟩, rfl, rfl⟩

theorem GetPropagationData_entries_source {self : SionnaPropagationCache}
    {helper : SionnaHelper} {a b : MobilityModel} {id_a id_b : Nat} (now : Time)
    (reply : Option Wrapper) (hv : ValidCall self helper a b id_a id_b) (k : CacheKey)
    {x : CacheEntry}
    (hx : x ∈ Cache.entries (self.GetPropagationData a b now reply).2.m_cache k) :
    x ∈ Cache.entries (checkCache self.m_caching self.m_cache id_a id_b now).1 k ∨
      ∃ resp, reply = some (Wrapper.channel_state_response resp) ∧
        x ∈ responseEntriesFor resp.csi k := by
  cases hc : (checkCache self.m_caching self.m_cache id_a id_b now).2 with
  | some e1 =>
    rw [GetPropagationData_of_hit now reply hv hc] at hx
    exact Or.inl hx
  | none =>
    rw [GetPropagationData_of_miss now reply hv hc] at hx
    cases reply with
    | none => exact Or.inl hx
    | some w =>
      cases w with
      | channel_state_response r =>
        simp only [Cache.entries_fillCache, List.mem_append] at hx
        rcases hx with h | h
        · exact Or.inl h
        · exact Or.inr ⟨r, rfl, h⟩
      | not_set => exact Or.inl hx
      | sim_init_msg m => exact Or.inl hx
      | sim_ack => exact Or.inl hx
      | sim_close_request => exact Or.inl hx
      | channel_state_request r => exact Or.inl hx

theorem lookupSeq_expired {a b : MobilityModel} {id_a id_b : Nat} {x : CacheEntry}
    (seq : List (Time × Option Wrapper)) :
    ∀ (self : SionnaPropagationCache) (helper : SionnaHelper),
      ValidCall self helper a b id_a id_b → self.m_caching = true →
      (∀ p ∈ seq, x.m_end_time < p.1) →
      ∀ r ∈ lookupSeq self a b seq,
        r.1 ≠ .ok x ∧
        (x ∈ Cache.entries r.2.m_cache (CacheKey.ctor id_a id_b) →
          ∃ p ∈ seq, ∃ resp, p.2 = some (Wrapper.channel_state_response resp) ∧
            x ∈ responseEntriesFor resp.csi (CacheKey.ctor id_a id_b)) := by
  induction seq with
  | nil =>
    intro self helper _ _ _ r hr
    cases hr
  | cons p rest ih =>
    obtain ⟨t, reply⟩ := p
    intro self helper hv hcaching hexp r hr
    have hxt : x.m_end_time < t := hexp (t, reply) (List.mem_cons_self _ _)
    simp only [lookupSeq, List.mem_cons] at hr
    rcases hr with hr | hr
    · subst hr
      constructor
      · intro hok
        have := (GetPropagationData_ok_covers hv hok).2
        exact absurd hxt (not_lt.2 this)
      · intro hx
        rcases GetPropagationData_entries_source t reply hv _ hx with h | ⟨resp, hresp, h⟩
        · exfalso
          rw [checkCache_eq, hcaching] at h
          simp only [if_true] at h
          rw [Cache.entries_modify_same _ _ _ rfl] at h
          exact absurd hxt (not_lt.2 (mem_unexpired h).2)
        · exact ⟨(t, reply), List.mem_cons_self _ _, resp, hresp, h⟩
    · obtain ⟨⟨helper1, hv1⟩, hc1, _⟩ := GetPropagationData_preserves t reply hv
      have hres := ih _ helper1 hv1 (by rw [hc1]; exact hcaching)
        (fun q hq => hexp q (List.mem_cons_of_mem _ hq)) r hr
      refine ⟨hres.1, fun hx => ?_⟩
      obtain ⟨q, hq, resp, hresp, h⟩ := hres.2 hx
      exact ⟨q, List.mem_cons_of_mem _ hq, resp, hresp, h⟩

theorem lookupSeq_not_returned {a b : MobilityModel} {id_a id_b : Nat} {x : CacheEntry}
    (seq : List (Time × Option Wrapper)) :
    ∀ (self : SionnaPropagationCache) (helper : SionnaHelper),
      ValidCall self helper a b id_a id_b → (∀ p ∈ seq, x.m_end_time < p.1) →
      ∀ r ∈ lookupSeq self a b seq, r.1 ≠ .ok x := by
  induction seq with
  | nil =>
    intro self helper _ _ r hr
    cases hr
  | cons p rest ih =>
    obtain ⟨t, reply⟩ := p
    intro self helper hv hexp r hr
    have hxt : x.m_end_time < t := hexp (t, reply) (List.mem_cons_self _ _)
    simp only [lookupSeq, List.mem_cons] at hr
    rcases hr with hr | hr
    · subst hr
      intro hok
      exact absurd hxt (not_lt.2 (GetPropagationData_ok_covers hv hok).2)
    · obtain ⟨⟨helper1, hv1⟩, _, _⟩ := GetPropagationData_preserves t reply hv
      exact ih _ helper1 hv1 (fun q hq => hexp q (List.mem_cons_of_mem _ hq)) r hr

/-- C24: for a sequence of lookups of one pair at non-decreasing times `t1 <= t2 <= ...`, an
entry `x` whose window has elapsed at the first of them (`m_end_time < t1`) is returned by none
of the lookups; with caching enabled it is not in the key's list after the cache check at `t1`,
and it is in the key's list after a lookup of the sequence only if one of the responses
received in the sequence contained it: pruning and searching never put it back. -/
theorem pruning_idempotence (self : SionnaPropagationCache) (helper : SionnaHelper)
    (a b : MobilityModel) (id_a id_b : Nat) (x : CacheEntry) (t1 : Time)
    (reply1 : Option Wrapper) (rest : List (Time × Option Wrapper))
    (hv : ValidCall self helper a b id_a id_b)
    (hsorted : (((t1, reply1) :: rest).map Prod.fst).Pairwise (fun s t => s ≤ t))
    (hexp : x.m_end_time < t1) :
    (∀ r ∈ lookupSeq self a b ((t1, reply1) :: rest), r.1 ≠ .ok x) ∧
    (self.m_caching = true →
      (x ∉ Cache.entries (checkCache self.m_caching self.m_cache id_a id_b t1).1
          (CacheKey.ctor id_a id_b)) ∧
      (∀ r ∈ lookupSeq self a b ((t1, reply1) :: rest),
        x ∈ Cache.entries r.2.m_cache (CacheKey.ctor id_a id_b) →
          ∃ p ∈ (t1, reply1) :: rest, ∃ resp,
            p.2 = some (Wrapper.channel_state_response resp) ∧
              x ∈ responseEntriesFor resp.csi (CacheKey.ctor id_a id_b))) := by
  have hall : ∀ p ∈ (t1, reply1) :: rest, x.m_end_time < p.1 := by
    intro p hp
    rcases List.mem_cons.1 hp with h | h
    · rw [h]; exact hexp
    · have h1 : t1 ≤ p.1 := by
        simp only [List.map_cons, List.pairwise_cons] at hsorted
        exact hsorted.1 p.1 (List.mem_map.2 ⟨p, h, rfl⟩)
      exact lt_of_lt_of_le hexp h1
  refine ⟨lookupSeq_not_returned _ self helper hv hall, fun hcaching => ⟨?_, ?_⟩⟩
  · intro h
    rw [checkCache_eq, hcaching] at h
    simp only [if_true] at h
    rw [Cache.entries_modify_same _ _ _ rfl] at h
    exact absurd hexp (not_lt.2 (mem_unexpired h).2)
  · intro r hr
    exact (lookupSeq_expired _ self helper hv hcaching hall r hr).2

theorem pruning_idempotence_witness :
    (∀ r ∈ lookupSeq (sampleCache true false sampleStore) (sampleNode 1 0) (sampleNode 2 5)
        [(150, none), (160, some (Wrapper.channel_state_response sampleResponse)),
          (400, some (Wrapper.channel_state_response sampleResponse))],
      r.1 ≠ .ok (CacheEntry.mk 30 70 0 100)) ∧
    (CacheEntry.mk 30 70 0 100 ∉ Cache.entries (checkCache true sampleStore 1 2 150).1
        (CacheKey.ctor 1 2)) := by
  obtain ⟨h1, h2⟩ := pruning_idempotence (sampleCache true false sampleStore) sampleHelper
    (sampleNode 1 0) (sampleNode 2 5) 1 2 (CacheEntry.mk 30 70 0 100) 150 none
    [(160, some (Wrapper.channel_state_response sampleResponse)),
      (400, some (Wrapper.channel_state_response sampleResponse))]
    ⟨rfl, rfl, rfl, rfl, rfl⟩ (by decide) (by decide)
  exact ⟨h1, (h2 rfl).1⟩

/-! ## Counter accounting -/

theorem requestsSent_append_exchange (events : List SocketEvent) (r : ChannelStateRequest)
    (reply : Option Wrapper) :
    requestsSent (events ++ [SocketEvent.send (Wrapper.channel_state_request r),
      SocketEvent.recv reply]) = requestsSent events + 1 := by
  simp [requestsSent, List.filter_append, SocketEvent.isRequest]

theorem GetPropagationData_effect (self : SionnaPropagationCache) (a b : MobilityModel)
    (now : Time) (reply : Option Wrapper) :
    ((self.GetPropagationData a b now reply).2 = self ∧
        returned (self.GetPropagationData a b now reply).1 = false) ∨
    ((self.GetPropagationData a b now reply).2.m_cache_hits = self.m_cache_hits + 1 ∧
        (self.GetPropagationData a b now reply).2.m_cache_miss = self.m_cache_miss ∧
        (self.GetPropagationData a b now reply).2.socketEvents = self.socketEvents) ∨
    ((self.GetPropagationData a b now reply).2.m_cache_hits = self.m_cache_hits ∧
        (self.GetPropagationData a b now reply).2.m_cache_miss = self.m_cache_miss + 1 ∧
        requestsSent (self.GetPropagationData a b now reply).2.socketEvents
          = requestsSent self.socketEvents + 1) := by
  cases hh : self.m_sionnaHelper with
  | none =>
    left
    simp [SionnaPropagationCache.GetPropagationData, hh, returned]
  | some helper =>
    by_cases hs : (a.isSionnaMobilityModel && b.isSionnaMobilityModel) = true
    · cases hna : a.node with
      | none =>
        left
        simp [SionnaPropagationCache.GetPropagationData, hh, hs, hna, returned]
      | some id_a =>
        cases hnb : b.node with
        | none =>
          left
          simp [SionnaPropagationCache.GetPropagationData, hh, hs, hna, hnb, returned]
        | some id_b =>
          have hv : ValidCall self helper a b id_a id_b := by
            simp only [Bool.and_eq_true] at hs
            exact ⟨hh, hs.1, hs.2, hna, hnb⟩
          right
          cases hc : (checkCache self.m_caching self.m_cache id_a id_b now).2 with
          | some e =>
            left
            rw [GetPropagationData_of_hit now reply hv hc]
            exact ⟨rfl, rfl, rfl⟩
          | none =>
            right
            rw [GetPropagationData_of_miss now reply hv hc, socketEvents_of_helper hv.1]
            have hreq := requestsSent_append_exchange helper.m_zmq_socket.events
              { tx_node := id_a, rx_node := id_b, time := now } reply
            cases reply with
            | none =>
              refine ⟨rfl, rfl, ?_⟩
              rw [← hreq]
              simp [SionnaPropagationCache.socketEvents, Socket.send, Socket.recv]
            | some w =>
              cases w <;>
                (refine ⟨rfl, rfl, ?_⟩
                 rw [← hreq]
                 simp [SionnaPropagationCache.socketEvents, Socket.send, Socket.recv])
    · left
      simp [SionnaPropagationCache.GetPropagationData, hh, hs, returned]

theorem returned_map {α β : Type} (f : α → β) (r : Except String α) :
    returned (r.map f) = returned r := by
  cases r <;> rfl

theorem GetPropagationDelay_effect (self : SionnaPropagationCache) (a b : MobilityModel)
    (now : Time) (reply : Option Wrapper) :
    (self.takesFallback 20 a b = true ∧ (self.GetPropagationDelay a b now reply).2 = self) ∨
    (self.takesFallback 20 a b = false ∧
      (self.GetPropagationDelay a b now reply).2 = (self.GetPropagationData a b now reply).2 ∧
      returned (self.GetPropagationDelay a b now reply).1
        = returned (self.GetPropagationData a b now reply).1) ∨
    (self.takesFallback 20 a b = false ∧ (self.GetPropagationDelay a b now reply).2 = self ∧
      returned (self.GetPropagationDelay a b now reply).1 = false) := by
  cases hh : self.m_sionnaHelper with
  | none =>
    cases hopt : self.m_optimize with
    | false =>
      right; left
      rw [GetPropagationDelay_of_no_optimize a b now reply hopt]
      exact ⟨by simp [SionnaPropagationCache.takesFallback, hopt], rfl, returned_map _ _⟩
    | true =>
      right; right
      simp [SionnaPropagationCache.takesFallback, SionnaPropagationCache.GetPropagationDelay,
        hh, hopt, returned]
  | some helper =>
    rw [GetPropagationDelay_eq a b now reply hh]
    cases hf : self.takesFallback 20 a b with
    | true => left; exact ⟨rfl, rfl⟩
    | false => right; left; exact ⟨rfl, rfl, returned_map _ _⟩

theorem GetPropagationLoss_effect (self : SionnaPropagationCache) (a b : MobilityModel)
    (txPowerDbm : ℚ) (now : Time) (reply : Option Wrapper) :
    (self.takesFallback txPowerDbm a b = true ∧
      (self.GetPropagationLoss a b txPowerDbm now reply).2 = self) ∨
    (self.takesFallback txPowerDbm a b = false ∧
      (self.GetPropagationLoss a b txPowerDbm now reply).2
        = (self.GetPropagationData a b now reply).2 ∧
      returned (self.GetPropagationLoss a b txPowerDbm now reply).1
        = returned (self.GetPropagationData a b now reply).1) ∨
    (self.takesFallback txPowerDbm a b = false ∧
      (self.GetPropagationLoss a b txPowerDbm now reply).2 = self ∧
      returned (self.GetPropagationLoss a b txPowerDbm now reply).1 = false) := by
  cases hh : self.m_sionnaHelper with
  | none =>
    cases hopt : self.m_optimize with
    | false =>
      right; left
      refine ⟨by simp [SionnaPropagationCache.takesFallback, hopt], ?_, ?_⟩
      · simp [SionnaPropagationCache.GetPropagationLoss, hopt]
      · simp only [SionnaPropagationCache.GetPropagationLoss, hopt, Bool.false_eq_true,
          if_false]
        exact returned_map _ _
    | true =>
      right; right
      simp [SionnaPropagationCache.takesFallback, SionnaPropagationCache.GetPropagationLoss,
        hh, hopt, returned]
  | some helper =>
    rw [GetPropagationLoss_eq a b txPowerDbm now reply hh]
    cases hf : self.takesFallback txPowerDbm a b with
    | true => left; exact ⟨rfl, rfl⟩
    | false => right; left; exact ⟨rfl, rfl, returned_map _ _⟩

theorem CacheCall.run_effect (self : SionnaPropagationCache) (c : CacheCall) :
    self.m_cache_hits ≤ (c.run self).2.m_cache_hits ∧
    self.m_cache_miss ≤ (c.run self).2.m_cache_miss ∧
    ((c.run self).1 = true →
      (c.run self).2.m_cache_hits + (c.run self).2.m_cache_miss
        = self.m_cache_hits + self.m_cache_miss + c.dataCalls self ∧
      requestsSent (c.run self).2.socketEvents + self.m_cache_miss
        = requestsSent self.socketEvents + (c.run self).2.m_cache_miss) := by
  have hdata : ∀ a b now reply,
      self.m_cache_hits ≤ (self.GetPropagationData a b now reply).2.m_cache_hits ∧
      self.m_cache_miss ≤ (self.GetPropagationData a b now reply).2.m_cache_miss ∧
      (returned (self.GetPropagationData a b now reply).1 = true →
        (self.GetPropagationData a b now reply).2.m_cache_hits
            + (self.GetPropagationData a b now reply).2.m_cache_miss
          = self.m_cache_hits + self.m_cache_miss + 1 ∧
        requestsSent (self.GetPropagationData a b now reply).2.socketEvents
            + self.m_cache_miss
          = requestsSent self.socketEvents
            + (self.GetPropagationData a b now reply).2.m_cache_miss) := by
    intro a b now reply
    rcases GetPropagationData_effect self a b now reply with ⟨h1, h2⟩ | ⟨h1, h2, h3⟩ |
      ⟨h1, h2, h3⟩
    · rw [h1, h2]
      exact ⟨le_refl _, le_refl _, fun h => by cases h⟩
    · rw [h1, h2, h3]
      exact ⟨by omega, le_refl _, fun _ => ⟨by omega, rfl⟩⟩
    · rw [h1, h2, h3]
      exact ⟨le_refl _, by omega, fun _ => ⟨by omega, by omega⟩⟩
  cases c with
  | GetPropagationData a b now reply => exact hdata a b now reply
  | GetPropagationDelay a b now reply =>
    simp only [CacheCall.run, CacheCall.dataCalls]
    rcases GetPropagationDelay_effect self a b now reply with ⟨h1, h2⟩ | ⟨h1, h2, h3⟩ |
      ⟨h1, h2, h3⟩
    · rw [h1, h2]
      exact ⟨le_refl _, le_refl _, fun _ => ⟨by simp, rfl⟩⟩
    · rw [h1, h2, h3]
      simpa using hdata a b now reply
    · rw [h2, h3]
      exact ⟨le_refl _, le_refl _, fun h => by cases h⟩
  | GetPropagationLoss a b txPowerDbm now reply =>
    simp only [CacheCall.run, CacheCall.dataCalls]
    rcases GetPropagationLoss_effect self a b txPowerDbm now reply with ⟨h1, h2⟩ |
      ⟨h1, h2, h3⟩ | ⟨h1, h2, h3⟩
    · rw [h1, h2]
      exact ⟨le_refl _, le_refl _, fun _ => ⟨by simp, rfl⟩⟩
    · rw [h1, h2, h3]
      simpa using hdata a b now reply
    · rw [h2, h3]
      exact ⟨le_refl _, le_refl _, fun h => by cases h⟩
  | SetCaching caching => exact ⟨le_refl _, le_refl _, fun _ => ⟨rfl, rfl⟩⟩
  | SetOptimize optimize => exact ⟨le_refl _, le_refl _, fun _ => ⟨rfl, rfl⟩⟩

theorem runCalls_invariant (calls : List CacheCall) :
    ∀ (self s : SionnaPropagationCache) (n : Nat), runCalls self calls = some (s, n) →
      s.m_cache_hits + s.m_cache_miss = self.m_cache_hits + self.m_cache_miss + n ∧
      requestsSent s.socketEvents + self.m_cache_miss
        = requestsSent self.socketEvents + s.m_cache_miss ∧
      self.m_cache_hits ≤ s.m_cache_hits ∧ self.m_cache_miss ≤ s.m_cache_miss := by
  induction calls with
  | nil =>
    intro self s n h
    simp only [runCalls, Option.some.injEq, Prod.mk.injEq] at h
    obtain ⟨h1, h2⟩ := h
    subst h1 h2
    exact ⟨rfl, rfl, le_refl _, le_refl _⟩
  | cons c rest ih =>
    intro self s n h
    unfold runCalls at h
    by_cases hok : (c.run self).1 = true
    · simp only [hok, if_true] at h
      cases hr : runCalls (c.run self).2 rest with
      | none => simp [hr] at h
      | some p =>
        obtain ⟨s1, n1⟩ := p
        simp only [hr, Option.some.injEq, Prod.mk.injEq] at h
        obtain ⟨h1, h2⟩ := h
        subst h1 h2
        obtain ⟨i1, i2, i3, i4⟩ := ih _ _ _ hr
        obtain ⟨e1, e2, e3⟩ := CacheCall.run_effect self c
        obtain ⟨e4, e5⟩ := e3 hok
        refine ⟨by omega, by omega, by omega, by omega⟩
    · simp [hok] at h

/-- C29: both counters of a freshly constructed cache are 0; no call of a public method
decreases either of them; a call of `GetPropagationData` that returns adds exactly one to
exactly one of them; a delay or loss query that takes the analytical fallback changes neither;
so after any run of calls that all return, started from a fresh cache with a helper attached,
hits + misses is the number of completed executions of `GetPropagationData`, and the socket
history holds as many additional channel-state requests as the miss counter says. -/
theorem counter_accounting (friis : FriisPropagationLossModel)
    (constSpeed : ConstantSpeedPropagationDelayModel) (helper : SionnaHelper)
    (calls : List CacheCall) (s : SionnaPropagationCache) (n : Nat)
    (self : SionnaPropagationCache) (c : CacheCall) (a b : MobilityModel) (txPowerDbm : ℚ)
    (now : Time) (reply : Option Wrapper) :
    ((SionnaPropagationCache.ctor friis constSpeed).m_cache_hits = 0 ∧
      (SionnaPropagationCache.ctor friis constSpeed).m_cache_miss = 0) ∧
    (self.m_cache_hits ≤ (c.run self).2.m_cache_hits ∧
      self.m_cache_miss ≤ (c.run self).2.m_cache_miss) ∧
    (∀ e, (self.GetPropagationData a b now reply).1 = .ok e →
      ((self.GetPropagationData a b now reply).2.m_cache_hits = self.m_cache_hits + 1 ∧
        (self.GetPropagationData a b now reply).2.m_cache_miss = self.m_cache_miss) ∨
      ((self.GetPropagationData a b now reply).2.m_cache_hits = self.m_cache_hits ∧
        (self.GetPropagationData a b now reply).2.m_cache_miss = self.m_cache_miss + 1)) ∧
    (self.takesFallback 20 a b = true →
      (self.GetPropagationDelay a b now reply).2.m_cache_hits = self.m_cache_hits ∧
      (self.GetPropagationDelay a b now reply).2.m_cache_miss = self.m_cache_miss) ∧
    (self.takesFallback txPowerDbm a b = true →
      (self.GetPropagationLoss a b txPowerDbm now reply).2.m_cache_hits = self.m_cache_hits ∧
      (self.GetPropagationLoss a b txPowerDbm now reply).2.m_cache_miss = self.m_cache_miss) ∧
    (runCalls ((SionnaPropagationCache.ctor friis constSpeed).SetSionnaHelper helper) calls
        = some (s, n) →
      s.m_cache_hits + s.m_cache_miss = n ∧
      requestsSent s.socketEvents
        = requestsSent helper.m_zmq_socket.events + s.m_cache_miss) := by
  refine ⟨⟨rfl, rfl⟩, ⟨(CacheCall.run_effect self c).1, (CacheCall.run_effect self c).2.1⟩,
    ?_, ?_, ?_, ?_⟩
  · intro e he
    rcases GetPropagationData_effect self a b now reply with ⟨_, h2⟩ | ⟨h1, h2, _⟩ |
      ⟨h1, h2, _⟩
    · rw [he] at h2
      cases h2
    · exact Or.inl ⟨h1, h2⟩
    · exact Or.inr ⟨h1, h2⟩
  · intro hf
    rcases GetPropagationDelay_effect self a b now reply with ⟨_, h2⟩ | ⟨h1, _, _⟩ |
      ⟨h1, _, _⟩
    · rw [h2]
      exact ⟨rfl, rfl⟩
    · rw [hf] at h1
      cases h1
    · rw [hf] at h1
      cases h1
  · intro hf
    rcases GetPropagationLoss_effect self a b txPowerDbm now reply with ⟨_, h2⟩ | ⟨h1, _, _⟩ |
      ⟨h1, _, _⟩
    · rw [h2]
      exact ⟨rfl, rfl⟩
    · rw [hf] at h1
      cases h1
    · rw [hf] at h1
      cases h1
  · intro hrun
    obtain ⟨i1, i2, _, _⟩ := runCalls_invariant calls _ s n hrun
    have h0 : ((SionnaPropagationCache.ctor friis constSpeed).SetSionnaHelper
        helper).m_cache_hits = 0 := rfl
    have m0 : ((SionnaPropagationCache.ctor friis constSpeed).SetSionnaHelper
        helper).m_cache_miss = 0 := rfl
    have ev0 : ((SionnaPropagationCache.ctor friis constSpeed).SetSionnaHelper
        helper).socketEvents = helper.m_zmq_socket.events := rfl
    rw [h0, m0] at i1
    rw [m0, ev0] at i2
    exact ⟨by omega, by omega⟩

theorem counter_accounting_witness :
    (∃ s, runCalls ((SionnaPropagationCache.ctor sampleFriis sampleDelayModel).SetSionnaHelper
        sampleHelper) sampleCalls = some (s, 3) ∧
      s.m_cache_hits + s.m_cache_miss = 3 ∧ s.m_cache_miss = 1 ∧
      requestsSent s.socketEvents = 1) ∧
    (((SionnaPropagationCache.ctor sampleFriis sampleDelayModel).SetSionnaHelper
        sampleHelper).GetPropagationDelay (sampleNode 1 0) (sampleNode 2 100) 0
          none).2.m_cache_miss = 0 := by
  constructor
  · have hmap : (runCalls ((SionnaPropagationCache.ctor sampleFriis
        sampleDelayModel).SetSionnaHelper sampleHelper) sampleCalls).map
          (fun p => (p.2, p.1.m_cache_miss)) = some (3, 1) := by rfl
    cases hr : runCalls ((SionnaPropagationCache.ctor sampleFriis
        sampleDelayModel).SetSionnaHelper sampleHelper) sampleCalls with
    | none =>
      rw [hr] at hmap
      cases hmap
    | some p =>
      obtain ⟨s, n⟩ := p
      rw [hr] at hmap
      simp only [Option.map_some', Option.some.injEq, Prod.mk.injEq] at hmap
      obtain ⟨hn, hm⟩ := hmap
      subst hn
      obtain ⟨h1, h2⟩ := (counter_accounting sampleFriis sampleDelayModel sampleHelper
        sampleCalls s 3 s (CacheCall.SetCaching true) (sampleNode 1 0) (sampleNode 2 5) 20 0
        none).2.2.2.2.2 hr
      refine ⟨s, rfl, h1, hm, ?_⟩
      rw [h2, hm]
      rfl
  · exact ((counter_accounting sampleFriis sampleDelayModel sampleHelper sampleCalls
      ((SionnaPropagationCache.ctor sampleFriis sampleDelayModel).SetSionnaHelper sampleHelper)
      0 ((SionnaPropagationCache.ctor sampleFriis sampleDelayModel).SetSionnaHelper
        sampleHelper) (CacheCall.SetCaching true) (sampleNode 1 0) (sampleNode 2 100) 20 0
      none).2.2.2.1 (by
        simp [SionnaPropagationCache.takesFallback, SionnaPropagationCache.ctor,
          SionnaPropagationCache.SetSionnaHelper, sampleFriis, sampleNode, m_optimize_margin,
          sampleHelper, SionnaHelper.GetNoiseFloor]
        norm_num)).2

end ns3
